import Mathlib

/-!
RADIUS dissector: call correlation and attribute parsing; and the context
reset of ANSI TCAP, the frame list of file.c, the WTP dissector and the USB
hub control requests.

A shallow embedding of `epan/dissectors/packet-radius.c`: the call key
comparison `radius_call_equal`, the request/response bookkeeping of
`dissect_radius`, the table reset `radius_init_protocol` and the attribute
loop `dissect_attribute_value_pairs`; of `dissect_ansi_tcap`
(`asn1/tcap/packet-ansi_tcap-template.c`); of `wtap_dispatch_cb` and
`add_packet_to_packet_list` (`file.c`); of `show_fragments` and
`dissect_wtp_common` (`packet-wtp.c`); and of `dissect_usb_hub_control`
(`epan/dissectors/packet-usb-hub.c`); followed by theorems about them.

Conventions of the embedding

* C unsigned and signed integers are `Nat` and `Int`.  Lengths in the RADIUS
  part cannot overflow (the packet length is a 16-bit field, AVP lengths are
  bytes); the difference of two request times that `radius_call_equal` hands
  to `abs` is converted to a 32-bit `int` (`double_to_int`, `c_abs`); where a
  counter or an offset of the other parts can overflow, the model reduces it
  to its width (`File.to_int`, `File.to_guint32`, `Wtp.to_gint`, the
  `guint32` offset of `show_fragments`).
* A `tvbuff_t` of the RADIUS part is the list of captured bytes.  A read
  outside it throws in the source; here it yields `none`, and the enclosing
  function stops with its `exn` flag set, keeping whatever it had produced so
  far.  A `tvbuff_t` of the WTP part, where sub-PDUs get a reported length of
  their own, has the captured bytes and the reported length, and a read
  throws also when its offset is beyond the reported length.
* The protocol tree is built as a value: `proto_tree_add_*` becomes the
  construction of a `proto_node`, formatted text is kept as the format string
  together with its arguments.
* `GHashTable *radius_calls` is the list of its (key, record) entries in
  the order in which a lookup visits them.  Two keys that compare equal have the
  same `ident` and `conversation`, hence the same hash, so every entry that can
  match a looked-up key is in the bucket that the lookup walks.
-/

namespace Radius

/-! ## Time stamps -/

/-- The struct `nstime_t`: seconds and nanoseconds. -/
structure nstime_t where
  secs : Int
  nsecs : Int
  deriving DecidableEq, Repr

def NS_PER_S : Int := 1000000000

/-- Modelled from the spec: `nstime_delta` (epan/nstime.c) is not among the
sources.  The spec asks for the elapsed time between two event timestamps, an
arithmetic difference; `nstime_delta delta b a` stores `b - a`, seconds and
nanoseconds carrying the same sign. -/
def nstime_delta (b a : nstime_t) : nstime_t :=
  if b.secs = a.secs then
    { secs := 0, nsecs := b.nsecs - a.nsecs }
  else if b.secs ≤ a.secs then
    if b.nsecs - a.nsecs > 0 then
      { secs := b.secs - a.secs + 1, nsecs := b.nsecs - a.nsecs - NS_PER_S }
    else
      { secs := b.secs - a.secs, nsecs := b.nsecs - a.nsecs }
  else
    if b.nsecs - a.nsecs < 0 then
      { secs := b.secs - a.secs - 1, nsecs := b.nsecs - a.nsecs + NS_PER_S }
    else
      { secs := b.secs - a.secs, nsecs := b.nsecs - a.nsecs }

/-- Modelled from the spec: `nstime_to_sec` (epan/nstime.c) is not among the
sources; it returns the time in seconds as a `double`,
`secs + nsecs / 1000000000`.  The double is represented exactly by its
numerator over `NS_PER_S`, that is, by the time in nanoseconds. -/
def nstime_to_sec (t : nstime_t) : Int :=
  t.secs * NS_PER_S + t.nsecs

/-- The least value of the 32-bit type `int`. -/
def INT_MIN : Int := -2147483648

/-- Conversion of the double `x / NS_PER_S` to `int`, as C does for the
argument of `abs`: the fraction is discarded (truncation toward zero), and a
value that does not fit the 32 bits of an `int` gives `INT_MIN`, which is
what the conversion instruction yields for a value out of range. -/
def double_to_int (x : Int) : Int :=
  if Int.tdiv x NS_PER_S < INT_MIN ∨ -INT_MIN ≤ Int.tdiv x NS_PER_S then INT_MIN
  else Int.tdiv x NS_PER_S

/-- The C library function `int abs(int)` on 32 bits: the negation of
`INT_MIN` does not fit and `abs (INT_MIN)` is `INT_MIN`. -/
def c_abs (n : Int) : Int :=
  if n = INT_MIN then INT_MIN else if n < 0 then -n else n

/-! ## Packet type codes -/

/-- Modelled from the spec: packet-radius.h is not among the sources.  The
packet type codes that the source and the spec name take their assigned
RADIUS values. -/
def RADIUS_ACCESS_REQUEST : Nat := 1
def RADIUS_ACCESS_ACCEPT : Nat := 2
def RADIUS_ACCESS_REJECT : Nat := 3
def RADIUS_ACCOUNTING_REQUEST : Nat := 4
def RADIUS_ACCOUNTING_RESPONSE : Nat := 5
def RADIUS_ACCOUNTING_STATUS : Nat := 6
def RADIUS_ACCESS_PASSWORD_REQUEST : Nat := 7
def RADIUS_ACCESS_PASSWORD_ACK : Nat := 8
def RADIUS_ACCESS_PASSWORD_REJECT : Nat := 9
def RADIUS_ACCOUNTING_MESSAGE : Nat := 10
def RADIUS_ACCESS_CHALLENGE : Nat := 11
def RADIUS_STATUS_SERVER : Nat := 12
def RADIUS_STATUS_CLIENT : Nat := 13
def RADIUS_VENDOR_SPECIFIC_CODE : Nat := 26
def RADIUS_ASCEND_ACCESS_NEXT_CODE : Nat := 29
def RADIUS_ASCEND_ACCESS_NEW_PIN : Nat := 30
def RADIUS_ASCEND_PASSWORD_EXPIRED : Nat := 32
def RADIUS_ASCEND_ACCESS_EVENT_REQUEST : Nat := 33
def RADIUS_ASCEND_ACCESS_EVENT_RESPONSE : Nat := 34
def RADIUS_DISCONNECT_REQUEST : Nat := 40
def RADIUS_DISCONNECT_REQUEST_ACK : Nat := 41
def RADIUS_DISCONNECT_REQUEST_NAK : Nat := 42
def RADIUS_CHANGE_FILTER_REQUEST : Nat := 43
def RADIUS_CHANGE_FILTER_REQUEST_ACK : Nat := 44
def RADIUS_CHANGE_FILTER_REQUEST_NAK : Nat := 45
def RADIUS_EAP_MESSAGE_CODE : Nat := 79
def RADIUS_RESERVED : Nat := 255

def AUTHENTICATOR_LENGTH : Nat := 16
def RD_HDR_LENGTH : Nat := 4
def HDR_LENGTH : Nat := RD_HDR_LENGTH + AUTHENTICATOR_LENGTH

/-! ## Call keys and call records -/

/-- A `conversation_t *`.  The conversation layer gives every conversation
its own `index`, so a conversation is identified with it and pointer equality
is equality of this value. -/
structure conversation_t where
  index : Nat
  deriving DecidableEq, Repr

/-- The struct `radius_call_info_key`. -/
structure radius_call_info_key where
  code : Nat
  ident : Nat
  conversation : conversation_t
  req_time : nstime_t
  deriving DecidableEq, Repr

/-- The struct `radius_call_t` (packet-radius.h), with the fields that
`dissect_radius` sets. -/
structure radius_call_t where
  code : Nat
  ident : Nat
  req_num : Nat
  rsp_num : Nat
  rspcode : Nat
  req_time : nstime_t
  responded : Bool
  deriving DecidableEq, Repr

/-- The struct `radius_info_t` (packet-radius.h), the record handed to the
tap. -/
structure radius_info_t where
  code : Nat
  ident : Nat
  req_time : nstime_t
  is_duplicate : Bool
  request_available : Bool
  req_num : Nat
  rspcode : Nat
  deriving DecidableEq, Repr

/-- The function `radius_call_equal`: compare two keys.  `key1` is the key
stored in the table and `key2` the key that is looked up. -/
def radius_call_equal (key1 key2 : radius_call_info_key) : Nat :=
  if key1.ident = key2.ident ∧ key1.conversation = key2.conversation then
    if (c_abs (double_to_int (nstime_to_sec (nstime_delta key1.req_time key2.req_time))) : Int) > 5 then 0
    else if key1.code = key2.code then 1
    else if key1.code = RADIUS_ACCESS_REQUEST ∧
        (key2.code = RADIUS_ACCESS_ACCEPT ∨ key2.code = RADIUS_ACCESS_REJECT) then 1
    else if key1.code = RADIUS_ACCOUNTING_REQUEST ∧ key2.code = RADIUS_ACCOUNTING_RESPONSE then 1
    else if key1.code = RADIUS_ACCESS_PASSWORD_REQUEST ∧
        (key2.code = RADIUS_ACCESS_PASSWORD_ACK ∨ key2.code = RADIUS_ACCESS_PASSWORD_REJECT) then 1
    else if key1.code = RADIUS_ASCEND_ACCESS_EVENT_REQUEST ∧
        key2.code = RADIUS_ASCEND_ACCESS_EVENT_RESPONSE then 1
    else if key1.code = RADIUS_DISCONNECT_REQUEST ∧
        (key2.code = RADIUS_DISCONNECT_REQUEST_ACK ∨ key2.code = RADIUS_DISCONNECT_REQUEST_NAK) then 1
    else if key1.code = RADIUS_CHANGE_FILTER_REQUEST ∧
        (key2.code = RADIUS_CHANGE_FILTER_REQUEST_ACK ∨
          key2.code = RADIUS_CHANGE_FILTER_REQUEST_NAK) then 1
    else 0
  else 0

/-- The function `radius_call_hash`; the sum is a `guint`. -/
def radius_call_hash (key : radius_call_info_key) : Nat :=
  (key.ident + key.conversation.index) % 2 ^ 32

/-! ## Buffers -/

/-- A `tvbuff_t`: the captured bytes of the packet. -/
abbrev tvbuff_t := List Nat

def tvb_length (tvb : tvbuff_t) : Nat := tvb.length

/-- The accessor `tvb_get_guint8`; `none` stands for the bounds exception. -/
def tvb_get_guint8 (tvb : tvbuff_t) (offset : Nat) : Option Nat :=
  tvb.get? offset

/-- The accessor `tvb_get_ntohl`: four bytes, big-endian. -/
def tvb_get_ntohl (tvb : tvbuff_t) (offset : Nat) : Option Nat :=
  match tvb.get? offset, tvb.get? (offset + 1), tvb.get? (offset + 2), tvb.get? (offset + 3) with
  | some b0, some b1, some b2, some b3 => some (((b0 * 256 + b1) * 256 + b2) * 256 + b3)
  | _, _, _, _ => none

/-- The accessor `tvb_length_remaining`: bytes from `offset` to the end, `-1`
when `offset` is out of bounds. -/
def tvb_length_remaining (tvb : tvbuff_t) (offset : Nat) : Int :=
  if offset ≤ tvb.length then (tvb.length : Int) - (offset : Int) else -1

def tvb_bytes_exist (tvb : tvbuff_t) (offset length : Nat) : Bool :=
  decide (offset + length ≤ tvb.length)

/-- The accessor `tvb_memcpy`: the `length` bytes at `offset`, `none` for the
bounds exception. -/
def tvb_memcpy (tvb : tvbuff_t) (offset length : Nat) : Option (List Nat) :=
  if offset + length ≤ tvb.length then some ((tvb.drop offset).take length) else none

/-! ## The protocol tree -/

/-- An argument of a printf-style format: a number, a string, or the string
that `tvb_bytes_to_str` makes of some bytes. -/
inductive fmt_arg where
  | u (n : Nat)
  | s (str : String)
  | bytes (b : List Nat)
  deriving DecidableEq, Repr

/-- Formatted text: the format string of the source and its arguments. -/
structure fmt_text where
  fmt : String
  args : List fmt_arg
  deriving DecidableEq, Repr

/-- The header field of a tree item: one of the static `hf_` variables of the
dissector, a field index held by a dictionary entry, or the text-only field of
`proto_tree_add_text`. -/
inductive hf_ref where
  | named (name : String)
  | index (i : Int)
  | text
  deriving DecidableEq, Repr

/-- The value carried by a tree item. -/
inductive field_value where
  | none
  | uint (n : Nat)
  | boolean (b : Bool)
  | time (t : nstime_t)
  | bytes (b : List Nat)
  deriving DecidableEq, Repr

/-- A tree item with its subtree.  `start` and `length` are the byte range as
the dissector passes it, `text` is its display text in the order in which it
was set and appended.  Subtree expansion indices (`ett`) are display state and
are left out. -/
inductive proto_node where
  | mk (hf : hf_ref) (start length : Nat) (value : field_value) (text : List fmt_text)
      (generated hidden : Bool) (children : List proto_node)

/-- An item made by `proto_tree_add_text`. -/
def text_node (start length : Nat) (text : List fmt_text) (generated : Bool)
    (children : List proto_node) : proto_node :=
  proto_node.mk hf_ref.text start length field_value.none text generated false children

def proto_node.children : proto_node → List proto_node
  | proto_node.mk _ _ _ _ _ _ _ c => c

def proto_node.text : proto_node → List fmt_text
  | proto_node.mk _ _ _ _ t _ _ _ => t

def proto_node.start : proto_node → Nat
  | proto_node.mk _ s _ _ _ _ _ _ => s

def proto_node.length : proto_node → Nat
  | proto_node.mk _ _ l _ _ _ _ _ => l

def proto_node.hf : proto_node → hf_ref
  | proto_node.mk h _ _ _ _ _ _ _ => h

def proto_node.value : proto_node → field_value
  | proto_node.mk _ _ _ v _ _ _ _ => v

def proto_node.generated : proto_node → Bool
  | proto_node.mk _ _ _ _ _ g _ _ => g

def proto_node.hidden : proto_node → Bool
  | proto_node.mk _ _ _ _ _ _ h _ => h

/-! ## The dictionary and the preferences -/

/-- What a value dissector leaves behind: the items it added to the AVP's
subtree, the text it appended to the AVP item, and whether it threw. -/
structure avp_out where
  children : List proto_node
  appended : List fmt_text
  exn : Bool

/-- The function type `radius_attr_dissector_t` of the `type` member (one of
`radius_integer`, `radius_string`, ...), already applied to its own
dictionary entry, to the packet, to the shared secret and to the saved
authenticator: what remains are `tvb`, `offset` and `len`. -/
abbrev radius_attr_dissector_t := tvbuff_t → Nat → Nat → avp_out

/-- What an AVP dissector registered through
`radius_register_avp_dissector` returns: the items it added and its string;
`exn` when it threw. -/
structure avp_dissector_out where
  children : List proto_node
  str : String
  exn : Bool

/-- The function type `radius_avp_dissector_t`: it gets the value bytes. -/
abbrev radius_avp_dissector_t := tvbuff_t → avp_dissector_out

/-- The struct `radius_attr_info_t`.  `type` gets the shared secret and the
saved authenticator, the two statics that `radius_string` reads; it is `none`
for the `NULL` that `radius_register_avp_dissector` stores in an entry it
makes. -/
structure radius_attr_info_t where
  name : String
  code : Nat
  encrypt : Bool
  tagged : Bool
  type : Option (String → List Nat → radius_attr_dissector_t)
  dissector : Option radius_avp_dissector_t
  hf : hf_ref
  hf_tag : hf_ref
  hf_len : hf_ref

/-- The struct `radius_vendor_info_t`; the hash table `attrs_by_id` is its
list of entries. -/
structure radius_vendor_info_t where
  name : String
  code : Nat
  attrs_by_id : List (Nat × radius_attr_info_t)

/-- The struct `radius_dictionary_t`, with the two tables that dissection
reads. -/
structure radius_dictionary_t where
  attrs_by_id : List (Nat × radius_attr_info_t)
  vendors_by_id : List (Nat × radius_vendor_info_t)

/-- The type function `radius_octets`: one item for the value, which
`proto_tree_add_item` reads from the buffer, and the bytes as text. -/
def radius_octets (hf : hf_ref) : radius_attr_dissector_t := fun tvb offset len =>
  match tvb_memcpy tvb offset len with
  | some b =>
    { children := [proto_node.mk hf offset len (field_value.bytes b) [] false false []],
      appended := [⟨"%s", [fmt_arg.bytes b]⟩], exn := false }
  | none => { children := [], appended := [], exn := true }

/-- The static `no_dictionary_entry`; its `hf` and `hf_len` are registered
fields, referred to by name. -/
def no_dictionary_entry : radius_attr_info_t :=
  { name := "Unknown-Attribute", code := 0, encrypt := false, tagged := false,
    type := some (fun _ _ => radius_octets (hf_ref.named "no_dictionary_entry.hf")),
    dissector := none,
    hf := hf_ref.named "no_dictionary_entry.hf",
    hf_tag := hf_ref.index (-1),
    hf_len := hf_ref.named "no_dictionary_entry.hf_len" }

/-- The static `no_vendor`. -/
def no_vendor : radius_vendor_info_t :=
  { name := "Unknown Vendor", code := 0, attrs_by_id := [] }

/-- Lookup in a `GHashTable` keyed by `GUINT_TO_POINTER` values. -/
def g_hash_table_lookup_direct {α : Type} (t : List (Nat × α)) (key : Nat) : Option α :=
  match t with
  | [] => none
  | (k, v) :: rest => if k = key then some v else g_hash_table_lookup_direct rest key

/-- What the EAP dissector leaves behind when called through
`call_dissector`. -/
structure eap_out where
  children : List proto_node
  exn : Bool

/-- What `dissect_attribute_value_pairs` reads besides its arguments: the
dictionary, the two preferences, the name table `sminmpec_values` and the EAP
dissector handle (called with the reassembled bytes and their reported
length). -/
structure radius_env where
  dict : radius_dictionary_t
  shared_secret : String
  show_length : Bool
  sminmpec_values : Nat → Option String
  eap_handle : List Nat → Nat → eap_out

/-- The format `fmt` printed with the digits of its one argument: the first
conversion `%x` is replaced by them. -/
def print_hex : List Char → List Char → List Char
  | [], _ => []
  | [c], _ => [c]
  | c :: d :: rest, digits =>
    if c = '%' ∧ d = 'x' then digits ++ rest else c :: print_hex (d :: rest) digits

/-- Modelled from the spec: `val_to_str` (epan/value_string.c) is not among
the sources.  It gives the string that the table has for `v`, and else the
format `fmt` printed with `v`; of the conversions only `%x` occurs in the
formats that these dissectors pass. -/
def val_to_str (v : Nat) (vs : Nat → Option String) (fmt : String) : String :=
  match vs v with
  | some str => str
  | none => String.mk (print_hex fmt.toList (Nat.toDigits 16 v))

/-! ## Attribute value pairs -/

/-- The value part of `add_avp_to_tree`, after the tag has been dealt with:
the registered dissector on a subset of the buffer, or else the `type`
function.  A call through a `NULL` `type` ends the pass like an exception; no
entry made in this file has both members `NULL`. -/
def add_avp_value (env : radius_env) (authenticator : List Nat) (tvb : tvbuff_t)
    (dictionary_entry : radius_attr_info_t) (avp_length offset : Nat) : avp_out :=
  match dictionary_entry.dissector with
  | some dissector =>
    match tvb_memcpy tvb offset avp_length with
    | none => { children := [], appended := [], exn := true }
    | some tvb_value =>
      let r := dissector tvb_value
      if r.exn then { children := r.children, appended := [], exn := true }
      else { children := r.children, appended := [⟨": %s", [fmt_arg.s r.str]⟩], exn := false }
  | none =>
    match dictionary_entry.type with
    | some type =>
      let r := type env.shared_secret authenticator tvb offset avp_length
      { children := r.children, appended := ⟨": ", []⟩ :: r.appended, exn := r.exn }
    | none => { children := [], appended := [⟨": ", []⟩], exn := true }

/-- The function `add_avp_to_tree`. -/
def add_avp_to_tree (env : radius_env) (authenticator : List Nat) (tvb : tvbuff_t)
    (dictionary_entry : radius_attr_info_t) (avp_length offset : Nat) : avp_out :=
  if dictionary_entry.tagged then
    if avp_length < 3 then
      { children := [text_node offset 0 [⟨"AVP too short for tag", []⟩] true []],
        appended := [], exn := false }
    else
      match tvb_get_guint8 tvb offset with
      | none => { children := [], appended := [], exn := true }
      | some tag =>
        if tag ≤ 0x1f then
          let r := add_avp_value env authenticator tvb dictionary_entry (avp_length - 1) (offset + 1)
          { children :=
              proto_node.mk dictionary_entry.hf_tag offset 1 (field_value.uint tag)
                [] false false [] :: r.children,
            appended := ⟨" Tag=0x%.2x", [fmt_arg.u tag]⟩ :: r.appended,
            exn := r.exn }
        else add_avp_value env authenticator tvb dictionary_entry avp_length offset
  else add_avp_value env authenticator tvb dictionary_entry avp_length offset

/-- The generated length item that the `show_length` preference adds. -/
def avp_len_item (env : radius_env) (dictionary_entry : radius_attr_info_t) (avp_length : Nat) :
    List proto_node :=
  if env.show_length then
    [proto_node.mk dictionary_entry.hf_len 0 0 (field_value.uint avp_length)
      [] true false []]
  else []

/-- The locals of `dissect_attribute_value_pairs` that live across
iterations of its loop, with what it has produced so far: `nodes` are the
items added to `tree`, `eap_calls` the buffers handed to the EAP dissector,
each with its reported length. -/
structure avp_state where
  offset : Nat
  length : Nat
  last_eap : Bool
  eap_buffer : Option (List Nat)
  eap_seg_num : Nat
  eap_tot_len_captured : Nat
  eap_tot_len : Nat
  eap_tvb : Option (List Nat × Nat)
  nodes : List proto_node
  eap_calls : List (List Nat × Nat)

/-- How one pass through the loop body ends: with `continue` or by reaching
the end of the body, with a `return` from the function, or with an
exception; `stuck` is the inner loop running out of fuel. -/
inductive avp_step where
  | next (s : avp_state)
  | ret (s : avp_state)
  | throw (s : avp_state)
  | stuck (s : avp_state)

/-- The allocator calls `g_malloc` and `g_realloc` with the new `size`,
followed by the `tvb_memcpy` into the new tail: a request for zero bytes
yields `NULL`. -/
def eap_buffer_grow (eap_buffer : Option (List Nat)) (size : Nat) (bytes : List Nat) :
    Option (List Nat) :=
  if size = 0 then none else some ((eap_buffer.getD []) ++ bytes)

/-- What the vendor-specific inner loop hands back: the items added to the
vendor subtree, the offset it reached, and how it ended (`ret` carries the
"[VSA too short]" item, which goes to the outer tree). -/
structure vsa_out where
  children : List proto_node
  offset : Nat
  ret : Option proto_node
  exn : Bool
  fuel_out : Bool

/-- The inner loop `while (offset < max_offset)` over the sub-attributes of a
vendor-specific AVP.  Every pass that does not leave advances `offset` by at
least 2, so `fuel` passes suffice when `fuel` exceeds `max_offset - offset`. -/
def vsa_loop (env : radius_env) (authenticator : List Nat) (tvb : tvbuff_t)
    (vendor : radius_vendor_info_t) (avp_length max_offset : Nat) :
    Nat → Nat → List proto_node → vsa_out
  | 0, offset, acc => { children := acc, offset := offset, ret := none, exn := false, fuel_out := true }
  | fuel + 1, offset, acc =>
    if offset < max_offset then
      match tvb_get_guint8 tvb offset, tvb_get_guint8 tvb (offset + 1) with
      | some avp_vsa_type, some avp_vsa_len =>
        if avp_vsa_len < 2 then
          { children := acc, offset := offset + 2,
            ret := some (text_node (offset + 2 + 1) 1 [⟨"[VSA too short]", []⟩] false []),
            exn := false, fuel_out := false }
        else
          let dictionary_entry :=
            (g_hash_table_lookup_direct vendor.attrs_by_id avp_vsa_type).getD no_dictionary_entry
          let r := add_avp_to_tree env authenticator tvb dictionary_entry (avp_vsa_len - 2) (offset + 2)
          let avp_item := text_node offset avp_vsa_len
            (⟨"VSA: l=%u t=%s(%u)",
                [fmt_arg.u avp_vsa_len, fmt_arg.s dictionary_entry.name, fmt_arg.u avp_vsa_type]⟩ ::
              r.appended)
            false (avp_len_item env dictionary_entry avp_length ++ r.children)
          if r.exn then
            { children := acc ++ [avp_item], offset := offset + 2, ret := none, exn := true,
              fuel_out := false }
          else
            vsa_loop env authenticator tvb vendor avp_length max_offset fuel
              (offset + 2 + (avp_vsa_len - 2)) (acc ++ [avp_item])
      | _, _ => { children := acc, offset := offset, ret := none, exn := true, fuel_out := false }
    else { children := acc, offset := offset, ret := none, exn := false, fuel_out := false }

/-- The vendor-specific branch of the loop body (`avp_type` is
`RADIUS_VENDOR_SPECIFIC_CODE`); `avp_length` is the length byte, `length` the
remaining length already reduced by it, `head` the text of the AVP item. -/
def avp_vendor_specific (env : radius_env) (authenticator : List Nat) (tvb : tvbuff_t)
    (s : avp_state) (avp_length length : Nat) (head : fmt_text) : avp_step :=
  let offset := s.offset + 2
  let max_offset := offset + (avp_length - 2)
  if avp_length - 2 < 4 then
    avp_step.next { s with
      offset := offset + (avp_length - 2), length := length,
      nodes := s.nodes ++ [text_node s.offset avp_length
        [head, ⟨" [AVP too short; no room for vendor ID]", []⟩] false []] }
  else
    match tvb_get_ntohl tvb offset with
    | none =>
      avp_step.throw { s with
        length := length, nodes := s.nodes ++ [text_node s.offset avp_length [head] false []] }
    | some vendor_id =>
      let found := g_hash_table_lookup_direct env.dict.vendors_by_id vendor_id
      let vendor := found.getD no_vendor
      let vendor_str :=
        match found with
        | some v => v.name
        | none => val_to_str vendor_id env.sminmpec_values "Unknown"
      let r := vsa_loop env authenticator tvb vendor (avp_length - 2 - 4) max_offset
        (max_offset - (offset + 4) + 1) (offset + 4) []
      let avp_item := text_node s.offset avp_length
        [head, ⟨" v=%s(%u)", [fmt_arg.s vendor_str, fmt_arg.u vendor_id]⟩] false r.children
      if r.fuel_out then
        avp_step.stuck { s with length := length, nodes := s.nodes ++ [avp_item] }
      else if r.exn then
        avp_step.throw { s with length := length, nodes := s.nodes ++ [avp_item] }
      else
        match r.ret with
        | some vsa_too_short =>
          avp_step.ret { s with
            offset := r.offset, length := length, nodes := s.nodes ++ [avp_item, vsa_too_short] }
        | none =>
          avp_step.next { s with
            offset := r.offset, length := length, nodes := s.nodes ++ [avp_item] }

/-- The EAP-Message branch of the loop body (`avp_type` is
`RADIUS_EAP_MESSAGE_CODE`). -/
def avp_eap_message (env : radius_env) (tvb : tvbuff_t) (s : avp_state)
    (dictionary_entry : radius_attr_info_t) (avp_length length : Nat) (head : fmt_text) :
    avp_step :=
  let offset := s.offset + 2
  let len_item := avp_len_item env dictionary_entry (avp_length - 2)
  let tvb_len : Int :=
    if ((avp_length - 2 : Nat) : Int) < tvb_length_remaining tvb offset then ((avp_length - 2 : Nat) : Int)
    else tvb_length_remaining tvb offset
  let eap_seg_num := s.eap_seg_num + 1
  if tvb_len < 0 then
    avp_step.throw { s with
      offset := offset, length := length, eap_seg_num := eap_seg_num,
      nodes := s.nodes ++ [text_node s.offset avp_length [head] false len_item] }
  else
    let fragment := text_node offset tvb_len.toNat [⟨"EAP fragment", []⟩] false []
    match s.eap_tvb with
    | some _ =>
      avp_step.next { s with
        offset := offset + (avp_length - 2), length := length, eap_seg_num := eap_seg_num,
        nodes := s.nodes ++ [text_node s.offset avp_length [head, ⟨" (non-consecutive)", []⟩] false
          (len_item ++ [fragment])] }
    | none =>
      match tvb_memcpy tvb offset tvb_len.toNat with
      | none =>
        avp_step.throw { s with
          offset := offset, length := length, eap_seg_num := eap_seg_num,
          nodes := s.nodes ++ [text_node s.offset avp_length [head] false (len_item ++ [fragment])] }
      | some bytes =>
        let eap_buffer := eap_buffer_grow s.eap_buffer (s.eap_tot_len_captured + tvb_len.toNat) bytes
        let eap_tot_len_captured := s.eap_tot_len_captured + tvb_len.toNat
        let eap_tot_len := s.eap_tot_len + (avp_length - 2)
        let last_eap :=
          if tvb_bytes_exist tvb (offset + (avp_length - 2) + 1) 1 then
            match tvb_get_guint8 tvb (offset + (avp_length - 2)) with
            | some next_type => if next_type ≠ RADIUS_EAP_MESSAGE_CODE then true else s.last_eap
            | none => s.last_eap
          else true
        match last_eap, eap_buffer with
        | true, some buf =>
          let r := env.eap_handle buf eap_tot_len
          let s1 : avp_state :=
            { offset := offset + (avp_length - 2), length := length, last_eap := last_eap,
              eap_buffer := none, eap_seg_num := eap_seg_num,
              eap_tot_len_captured := eap_tot_len_captured, eap_tot_len := eap_tot_len,
              eap_tvb := some (buf, eap_tot_len),
              nodes := s.nodes ++ [text_node s.offset avp_length
                [head, ⟨" Last Segment[%u]", [fmt_arg.u eap_seg_num]⟩] false
                (len_item ++ [fragment] ++ r.children)],
              eap_calls := s.eap_calls ++ [(buf, eap_tot_len)] }
          if r.exn then avp_step.throw s1 else avp_step.next s1
        | _, _ =>
          avp_step.next
            { offset := offset + (avp_length - 2), length := length, last_eap := last_eap,
              eap_buffer := eap_buffer, eap_seg_num := eap_seg_num,
              eap_tot_len_captured := eap_tot_len_captured, eap_tot_len := eap_tot_len,
              eap_tvb := none,
              nodes := s.nodes ++ [text_node s.offset avp_length
                [head, ⟨" Segment[%u]", [fmt_arg.u eap_seg_num]⟩] false (len_item ++ [fragment])],
              eap_calls := s.eap_calls }

/-- One pass through the body of `while (length > 0)`; the caller has checked
`length > 0`. -/
def avp_body (env : radius_env) (authenticator : List Nat) (tvb : tvbuff_t) (s : avp_state) :
    avp_step :=
  if s.length < 2 then
    avp_step.ret { s with nodes := s.nodes ++
      [text_node s.offset 0 [⟨"Not enough room in packet for AVP header", []⟩] true []] }
  else
    match tvb_get_guint8 tvb s.offset, tvb_get_guint8 tvb (s.offset + 1) with
    | some avp_type, some avp_length =>
      if avp_length < 2 then
        avp_step.ret { s with nodes := s.nodes ++
          [text_node s.offset 0 [⟨"AVP too short: length %u < 2", [fmt_arg.u avp_length]⟩] true []] }
      else if s.length < avp_length then
        avp_step.ret { s with nodes := s.nodes ++
          [text_node s.offset 0 [⟨"Not enough room in packet for AVP", []⟩] true []] }
      else
        let length := s.length - avp_length
        let dictionary_entry :=
          (g_hash_table_lookup_direct env.dict.attrs_by_id avp_type).getD no_dictionary_entry
        let head : fmt_text :=
          ⟨"AVP: l=%u  t=%s(%u)",
            [fmt_arg.u avp_length, fmt_arg.s dictionary_entry.name, fmt_arg.u avp_type]⟩
        if avp_type = RADIUS_VENDOR_SPECIFIC_CODE then
          avp_vendor_specific env authenticator tvb s avp_length length head
        else if avp_type = RADIUS_EAP_MESSAGE_CODE then
          avp_eap_message env tvb s dictionary_entry avp_length length head
        else
          let r := add_avp_to_tree env authenticator tvb dictionary_entry (avp_length - 2) (s.offset + 2)
          let s1 : avp_state := { s with
            offset := s.offset + 2 + (avp_length - 2), length := length,
            nodes := s.nodes ++ [text_node s.offset avp_length (head :: r.appended) false
              (avp_len_item env dictionary_entry (avp_length - 2) ++ r.children)] }
          if r.exn then avp_step.throw s1 else avp_step.next s1
    | _, _ => avp_step.throw s

/-- How `dissect_attribute_value_pairs` is left: `done` through the end of
the loop and `CLEANUP_CALL_AND_POP`, `returned` through one of the `return`
statements inside the loop, `thrown` by an exception, `no_fuel` when the model
ran out of fuel. -/
inductive avp_exit where
  | done
  | returned
  | thrown
  | no_fuel
  deriving DecidableEq, Repr

/-- The loop `while (length > 0)`.  Every pass that continues lowers `length`
by at least 2, so `length + 1` passes always suffice. -/
def avp_loop (env : radius_env) (authenticator : List Nat) (tvb : tvbuff_t) :
    Nat → avp_state → avp_state × avp_exit
  | 0, s => (s, avp_exit.no_fuel)
  | fuel + 1, s =>
    if s.length > 0 then
      match avp_body env authenticator tvb s with
      | avp_step.next s1 => avp_loop env authenticator tvb fuel s1
      | avp_step.ret s1 => (s1, avp_exit.returned)
      | avp_step.throw s1 => (s1, avp_exit.thrown)
      | avp_step.stuck s1 => (s1, avp_exit.no_fuel)
    else (s, avp_exit.done)

/-- The locals of `dissect_attribute_value_pairs` on entry. -/
def avp_init (offset length : Nat) : avp_state :=
  { offset := offset, length := length, last_eap := false, eap_buffer := none, eap_seg_num := 0,
    eap_tot_len_captured := 0, eap_tot_len := 0, eap_tvb := none, nodes := [], eap_calls := [] }

/-- The function `dissect_attribute_value_pairs`, called with a tree (its
only caller passes one): the final locals, whose `nodes` are the items added
to `tree`, and the way the function was left. -/
def dissect_attribute_value_pairs (env : radius_env) (authenticator : List Nat) (tvb : tvbuff_t)
    (offset length : Nat) : avp_state × avp_exit :=
  avp_loop env authenticator tvb (length + 1) (avp_init offset length)

/-! ## Packets, conversations and the session state -/

/-- The struct `address`. -/
structure address where
  type : Nat
  data : List Nat
  deriving DecidableEq, Repr

/-- The static `null_address` of `dissect_radius` (`AT_NONE`, no data). -/
def null_address : address := { type := 0, data := [] }

/-- The two columns that `dissect_radius` writes; `check_col_protocol` and
`check_col_info` are what `check_col` answers for them. -/
structure column_info where
  check_col_protocol : Bool
  check_col_info : Bool
  col_protocol : List fmt_text
  col_info : List fmt_text
  deriving DecidableEq, Repr

/-- The members of `packet_info` and of its frame data that `dissect_radius`
reads. -/
structure packet_info where
  fd_num : Nat
  abs_ts : nstime_t
  src : address
  dst : address
  ptype : Nat
  srcport : Nat
  destport : Nat
  cinfo : column_info
  deriving DecidableEq, Repr

/-- The conversation layer (epan/conversation.c), which is not among the
sources, over its table type `κ`: `find_conversation` and `conversation_new`
with their arguments in the order of the source (frame number, two addresses,
port type, two ports, options). -/
structure conversation_api (κ : Type) where
  find_conversation : κ → Nat → address → address → Nat → Nat → Nat → Nat → Option conversation_t
  conversation_new : κ → Nat → address → address → Nat → Nat → Nat → Nat → conversation_t × κ

/-- The hash table `radius_calls`: its entries in lookup order. -/
abbrev GHashTable := List (radius_call_info_key × radius_call_t)

/-- The call `g_hash_table_lookup(radius_calls, &radius_call_key)`: the record
of the first entry whose stored key compares equal to the looked-up key. -/
def g_hash_table_lookup : GHashTable → radius_call_info_key → Option radius_call_t
  | [], _ => none
  | (k, v) :: rest, key =>
    if radius_call_equal k key ≠ 0 then some v else g_hash_table_lookup rest key

/-- A write through the pointer that `g_hash_table_lookup` returned: the
record of the first matching entry is replaced, its key stays. -/
def radius_call_store : GHashTable → radius_call_info_key → radius_call_t → GHashTable
  | [], _, _ => []
  | (k, v) :: rest, key, v1 =>
    if radius_call_equal k key ≠ 0 then (k, v1) :: rest
    else (k, v) :: radius_call_store rest key v1

/-- The call `g_hash_table_insert` for a key that no stored key compares
equal to: a new entry at the end of its chain. -/
def g_hash_table_insert (t : GHashTable) (key : radius_call_info_key) (v : radius_call_t) :
    GHashTable :=
  t ++ [(key, v)]

/-- The statics of packet-radius.c that outlive a packet, and the
conversation table. -/
structure session (κ : Type) where
  rad_info : radius_info_t
  authenticator : List Nat
  radius_calls : GHashTable
  conversations : κ

/-- The function `radius_init_protocol`: the calls table is destroyed and
made anew; the memory chunks are not modelled. -/
def radius_init_protocol {κ : Type} (s : session κ) : session κ :=
  { s with radius_calls := [] }

/-- What the `switch (rhcode)` of `dissect_radius` leaves behind. -/
structure call_out (κ : Type) where
  radius_calls : GHashTable
  conversations : κ
  rad_info : radius_info_t
  col_info : List fmt_text
  nodes : List proto_node
  radius_call : Option radius_call_t

/-- The request codes of the first group of `case` labels. -/
def is_request_code (rhcode : Nat) : Bool :=
  rhcode = RADIUS_ACCESS_REQUEST || rhcode = RADIUS_ACCOUNTING_REQUEST ||
  rhcode = RADIUS_ACCESS_PASSWORD_REQUEST || rhcode = RADIUS_ASCEND_ACCESS_EVENT_REQUEST ||
  rhcode = RADIUS_DISCONNECT_REQUEST || rhcode = RADIUS_CHANGE_FILTER_REQUEST

/-- The response codes of the second group of `case` labels. -/
def is_response_code (rhcode : Nat) : Bool :=
  rhcode = RADIUS_ACCESS_ACCEPT || rhcode = RADIUS_ACCESS_REJECT ||
  rhcode = RADIUS_ACCOUNTING_RESPONSE || rhcode = RADIUS_ACCESS_PASSWORD_ACK ||
  rhcode = RADIUS_ACCESS_PASSWORD_REJECT || rhcode = RADIUS_ASCEND_ACCESS_EVENT_RESPONSE ||
  rhcode = RADIUS_DISCONNECT_REQUEST_ACK || rhcode = RADIUS_DISCONNECT_REQUEST_NAK ||
  rhcode = RADIUS_CHANGE_FILTER_REQUEST_ACK || rhcode = RADIUS_CHANGE_FILTER_REQUEST_NAK

/-- An item made by `proto_tree_add_uint`, zero-length, for `rhident`. -/
def uint_node (hf : String) (v : Nat) (text : List fmt_text) (generated hidden : Bool) : proto_node :=
  proto_node.mk (hf_ref.named hf) 0 0 (field_value.uint v) text generated hidden []

/-- The hidden item that marks a request. -/
def req_item : proto_node :=
  proto_node.mk (hf_ref.named "hf_radius_req") 0 0 (field_value.boolean true) [] false true []

/-- The hidden item that marks a response. -/
def rsp_item : proto_node :=
  proto_node.mk (hf_ref.named "hf_radius_rsp") 0 0 (field_value.boolean true) [] false true []

/-- The hidden item that marks a duplicate. -/
def dup_item (rhident : Nat) : proto_node :=
  uint_node "hf_radius_dup" rhident [] false true

/-- The generated item of a duplicate request. -/
def req_dup_item (rhident : Nat) : proto_node :=
  uint_node "hf_radius_req_dup" rhident [] true false

/-- The generated item of a duplicate response. -/
def rsp_dup_item (rhident : Nat) : proto_node :=
  uint_node "hf_radius_rsp_dup" rhident [] true false

/-- The generated item that points from a request to its response. -/
def rsp_frame_item (rsp_num : Nat) : proto_node :=
  uint_node "hf_radius_rsp_frame" rsp_num
    [⟨"The response to this request is in frame %u", [fmt_arg.u rsp_num]⟩] true false

/-- The generated item that points from a response to its request. -/
def req_frame_item (req_num : Nat) : proto_node :=
  uint_node "hf_radius_req_frame" req_num
    [⟨"This is a response to a request in frame %u", [fmt_arg.u req_num]⟩] true false

/-- The generated time item of a response: the time since the request. -/
def time_item (delta : nstime_t) : proto_node :=
  proto_node.mk (hf_ref.named "hf_radius_time") 0 0 (field_value.time delta) [] true false []

/-- The conversation of a request: the one that `find_conversation` finds for
the source address and the ports, or else a new one, with the conversation
table afterwards. -/
def request_conversation {κ : Type} (api : conversation_api κ) (conversations : κ)
    (pinfo : packet_info) : conversation_t × κ :=
  match api.find_conversation conversations pinfo.fd_num pinfo.src null_address
      pinfo.ptype pinfo.srcport pinfo.destport 0 with
  | some c => (c, conversations)
  | none => api.conversation_new conversations pinfo.fd_num pinfo.src null_address
      pinfo.ptype pinfo.srcport pinfo.destport 0

/-- The conversation of a response: the one that `find_conversation` finds
for the destination address and the ports, if any. -/
def response_conversation {κ : Type} (api : conversation_api κ) (conversations : κ)
    (pinfo : packet_info) : Option conversation_t :=
  api.find_conversation conversations pinfo.fd_num null_address pinfo.dst
    pinfo.ptype pinfo.srcport pinfo.destport 0

/-- The record that the request branch stores for a call not seen before. -/
def new_radius_call (pinfo : packet_info) (rhcode rhident : Nat) : radius_call_t :=
  { req_num := pinfo.fd_num, rsp_num := 0, ident := rhident, code := rhcode,
    responded := false, req_time := pinfo.abs_ts, rspcode := 0 }

/-- The request branch of the `switch`: find or make the conversation, look
the call up, flag a duplicate or store a new record. -/
def dissect_request {κ : Type} (api : conversation_api κ) (pinfo : packet_info)
    (rhcode rhident : Nat) (radius_calls : GHashTable) (conversations : κ)
    (rad_info : radius_info_t) (col_info : List fmt_text) : call_out κ :=
  let conversation := (request_conversation api conversations pinfo).1
  let conversations1 := (request_conversation api conversations pinfo).2
  let radius_call_key : radius_call_info_key :=
    { code := rhcode, ident := rhident, conversation := conversation, req_time := pinfo.abs_ts }
  match g_hash_table_lookup radius_calls radius_call_key with
  | some radius_call =>
    let rsp_frame := if radius_call.rsp_num ≠ 0 then [rsp_frame_item radius_call.rsp_num] else []
    if pinfo.fd_num ≠ radius_call.req_num then
      { radius_calls := radius_calls, conversations := conversations1,
        rad_info := { rad_info with is_duplicate := true, req_num := radius_call.req_num },
        col_info :=
          if pinfo.cinfo.check_col_info then
            col_info ++ [⟨", Duplicate Request ID:%u", [fmt_arg.u rhident]⟩]
          else col_info,
        nodes := [req_item, dup_item rhident, req_dup_item rhident] ++ rsp_frame,
        radius_call := some radius_call }
    else
      { radius_calls := radius_calls, conversations := conversations1, rad_info := rad_info,
        col_info := col_info, nodes := req_item :: rsp_frame, radius_call := some radius_call }
  | none =>
    { radius_calls :=
        g_hash_table_insert radius_calls radius_call_key (new_radius_call pinfo rhcode rhident),
      conversations := conversations1, rad_info := rad_info, col_info := col_info,
      nodes := [req_item], radius_call := some (new_radius_call pinfo rhcode rhident) }

/-- The record of a call after a response to it has been dissected:
`responded` is set when the request frame is known, the first response frame
is remembered, the response code is stored. -/
def responded_call (pinfo : packet_info) (rhcode : Nat) (radius_call : radius_call_t) :
    radius_call_t :=
  { radius_call with
    responded := if radius_call.req_num ≠ 0 then true else radius_call.responded,
    rsp_num := if radius_call.rsp_num = 0 then pinfo.fd_num else radius_call.rsp_num,
    rspcode := rhcode }

/-- The test for a duplicate response: a response frame is known, it is not
this frame, and the stored response code is this packet's code. -/
def duplicate_response (pinfo : packet_info) (rhcode : Nat) (radius_call : radius_call_t) : Bool :=
  decide (radius_call.rsp_num ≠ 0) && decide (radius_call.rsp_num ≠ pinfo.fd_num) &&
    decide (radius_call.rspcode = rhcode)

/-- The response branch of the `switch`: look for the conversation and the
call; when found, point to the request, remember the first response and flag
a duplicate one. -/
def dissect_response {κ : Type} (api : conversation_api κ) (pinfo : packet_info)
    (rhcode rhident : Nat) (radius_calls : GHashTable) (conversations : κ)
    (rad_info : radius_info_t) (col_info : List fmt_text) : call_out κ :=
  match response_conversation api conversations pinfo with
  | none =>
    { radius_calls := radius_calls, conversations := conversations, rad_info := rad_info,
      col_info := col_info, nodes := [rsp_item], radius_call := none }
  | some conversation =>
    let radius_call_key : radius_call_info_key :=
      { code := rhcode, ident := rhident, conversation := conversation, req_time := pinfo.abs_ts }
    match g_hash_table_lookup radius_calls radius_call_key with
    | none =>
      { radius_calls := radius_calls, conversations := conversations, rad_info := rad_info,
        col_info := col_info, nodes := [rsp_item], radius_call := none }
    | some radius_call =>
      let available := decide (radius_call.req_num ≠ 0)
      let duplicate := duplicate_response pinfo rhcode radius_call
      { radius_calls :=
          radius_call_store radius_calls radius_call_key (responded_call pinfo rhcode radius_call),
        conversations := conversations,
        rad_info :=
          { rad_info with
            request_available := if available then true else rad_info.request_available,
            req_num := if available then radius_call.req_num else rad_info.req_num,
            is_duplicate := if duplicate then true else rad_info.is_duplicate,
            rspcode := rhcode },
        col_info :=
          if duplicate && pinfo.cinfo.check_col_info then
            col_info ++ [⟨", Duplicate Response ID:%u", [fmt_arg.u rhident]⟩]
          else col_info,
        nodes := [rsp_item] ++
          (if available then
            [req_frame_item radius_call.req_num,
             time_item (nstime_delta pinfo.abs_ts radius_call.req_time)]
           else []) ++
          (if duplicate then [dup_item rhident, rsp_dup_item rhident] else []),
        radius_call := some (responded_call pinfo rhcode radius_call) }

/-- The `switch (rhcode)` of `dissect_radius`. -/
def dissect_calls {κ : Type} (api : conversation_api κ) (pinfo : packet_info)
    (rhcode rhident : Nat) (radius_calls : GHashTable) (conversations : κ)
    (rad_info : radius_info_t) (col_info : List fmt_text) : call_out κ :=
  if is_request_code rhcode then
    dissect_request api pinfo rhcode rhident radius_calls conversations rad_info col_info
  else if is_response_code rhcode then
    dissect_response api pinfo rhcode rhident radius_calls conversations rad_info col_info
  else
    { radius_calls := radius_calls, conversations := conversations, rad_info := rad_info,
      col_info := col_info, nodes := [], radius_call := none }

/-- The table `radius_vals`, searched in order as `val_to_str` does. -/
def radius_vals (v : Nat) : Option String :=
  List.lookup v
    [(RADIUS_ACCESS_REQUEST, "Access-Request"),
     (RADIUS_ACCESS_ACCEPT, "Access-Accept"),
     (RADIUS_ACCESS_REJECT, "Access-Reject"),
     (RADIUS_ACCOUNTING_REQUEST, "Accounting-Request"),
     (RADIUS_ACCOUNTING_RESPONSE, "Accounting-Response"),
     (RADIUS_ACCOUNTING_STATUS, "Accounting-Status"),
     (RADIUS_ACCESS_PASSWORD_REQUEST, "Access-Password-Request"),
     (RADIUS_ACCESS_PASSWORD_ACK, "Access-Password-Ack"),
     (RADIUS_ACCESS_PASSWORD_REJECT, "Access-Password-Reject"),
     (RADIUS_ACCOUNTING_MESSAGE, "Accounting-Message"),
     (RADIUS_ACCESS_CHALLENGE, "Access-challenge"),
     (RADIUS_STATUS_SERVER, "StatusServer"),
     (RADIUS_STATUS_CLIENT, "StatusClient"),
     (RADIUS_VENDOR_SPECIFIC_CODE, "Vendor-Specific"),
     (RADIUS_ASCEND_ACCESS_NEXT_CODE, "Ascend-Access-Next-Code"),
     (RADIUS_ASCEND_ACCESS_NEW_PIN, "Ascend-Access-New-Pin"),
     (RADIUS_ASCEND_PASSWORD_EXPIRED, "Ascend-Password-Expired"),
     (RADIUS_ASCEND_ACCESS_EVENT_REQUEST, "Ascend-Access-Event-Request"),
     (RADIUS_ASCEND_ACCESS_EVENT_RESPONSE, "Ascend-Access-Event-Response"),
     (RADIUS_DISCONNECT_REQUEST, "Disconnect-Request"),
     (RADIUS_DISCONNECT_REQUEST_ACK, "Disconnect-Request ACK"),
     (RADIUS_DISCONNECT_REQUEST_NAK, "Disconnect-Request NAK"),
     (RADIUS_CHANGE_FILTER_REQUEST, "Change-Filter-Request"),
     (RADIUS_CHANGE_FILTER_REQUEST_ACK, "Change-Filter-Request-ACK"),
     (RADIUS_CHANGE_FILTER_REQUEST_NAK, "Change-Filter-Request-NAK"),
     (RADIUS_RESERVED, "Reserved")]

/-- What one call of `dissect_radius` yields: the statics afterwards, the
columns, the protocol item added to the tree (with its subtree), the record
queued for the tap, the buffers handed to the EAP dissector, the way the
attribute loop was left, and whether an exception ended the call. -/
structure dissect_result (κ : Type) where
  session : session κ
  cinfo : column_info
  tree : Option proto_node
  tap : Option radius_info_t
  eap_calls : List (List Nat × Nat)
  avp_exit : Option avp_exit
  exn : Bool

/-- The protocol item `ti` with the subtree `radius_tree`, when there is a
tree. -/
def radius_item (tree : Bool) (rhlength : Nat) (radius_tree : List proto_node) : Option proto_node :=
  if tree then
    some (proto_node.mk (hf_ref.named "proto_radius") 0 rhlength field_value.none [] false false
      radius_tree)
  else none

/-- What the attribute part of `dissect_radius` yields: the items added
to `radius_tree`, the buffers handed to the EAP dissector and the way the
attribute loop was left (`none` when it was not entered). -/
structure attributes_out where
  items : List proto_node
  eap_calls : List (List Nat × Nat)
  exit : Option avp_exit

/-- The block `if (avplength > 0)` of `dissect_radius`: the item
"Attribute Value Pairs" with the attributes as its subtree. -/
def dissect_attributes (env : radius_env) (authenticator : List Nat) (tvb : tvbuff_t)
    (rhlength : Nat) : attributes_out :=
  let avplength := rhlength - HDR_LENGTH
  if avplength > 0 then
    let a := dissect_attribute_value_pairs env authenticator tvb HDR_LENGTH avplength
    { items := [text_node HDR_LENGTH avplength [⟨"Attribute Value Pairs", []⟩] false a.1.nodes],
      eap_calls := a.1.eap_calls, exit := some a.2 }
  else { items := [], eap_calls := [], exit := none }

/-- The part of `dissect_radius` after the header has been checked and the
authenticator saved: the `if (tree)` block with the call bookkeeping and the
attributes, and the tap. `radius_tree` holds the items added so far. -/
def dissect_radius_body {κ : Type} (api : conversation_api κ) (env : radius_env) (s : session κ)
    (tvb : tvbuff_t) (pinfo : packet_info) (tree : Bool) (rhcode rhident rhlength : Nat)
    (rad_info : radius_info_t) (cinfo : column_info) (radius_tree : List proto_node) :
    dissect_result κ :=
  if tree then
    let c := dissect_calls api pinfo rhcode rhident s.radius_calls s.conversations rad_info
      cinfo.col_info
    let rad_info1 : radius_info_t :=
      match c.radius_call with
      | some radius_call => { c.rad_info with req_time := radius_call.req_time }
      | none => c.rad_info
    let a := dissect_attributes env s.authenticator tvb rhlength
    let thrown := decide (a.exit = some avp_exit.thrown ∨ a.exit = some avp_exit.no_fuel)
    { session :=
        { rad_info := rad_info1, authenticator := s.authenticator, radius_calls := c.radius_calls,
          conversations := c.conversations },
      cinfo := { cinfo with col_info := c.col_info },
      tree := radius_item tree rhlength (radius_tree ++ c.nodes ++ a.items),
      tap := if thrown then none else some rad_info1,
      eap_calls := a.eap_calls, avp_exit := a.exit, exn := thrown }
  else
    { session := { s with rad_info := rad_info }, cinfo := cinfo, tree := none,
      tap := some rad_info, eap_calls := [], avp_exit := none, exn := false }

/-- The statements at the head of `dissect_radius` that initialise
`rad_info` for the tap: every member is cleared. -/
def rad_info_init (rad_info : radius_info_t) : radius_info_t :=
  { rad_info with
    code := 0, ident := 0, req_time := { secs := 0, nsecs := 0 }, is_duplicate := false,
    request_available := false, req_num := 0, rspcode := 0 }

/-- The columns after `col_set_str(COL_PROTOCOL)` and `col_clear(COL_INFO)`. -/
def col_init (cinfo : column_info) : column_info :=
  { cinfo with
    col_protocol := if cinfo.check_col_protocol then [⟨"RADIUS", []⟩] else cinfo.col_protocol,
    col_info := if cinfo.check_col_info then [] else cinfo.col_info }

/-- The columns after the `col_add_fstr` that shows code, identifier and
length. -/
def col_header (cinfo : column_info) (rhcode rhident rhlength : Nat) : column_info :=
  { cinfo with
    col_info :=
      if cinfo.check_col_info then
        [⟨"%s(%d) (id=%d, l=%d)",
          [fmt_arg.s (val_to_str rhcode radius_vals "Unknown Packet"), fmt_arg.u rhcode,
           fmt_arg.u rhident, fmt_arg.u rhlength]⟩]
      else cinfo.col_info }

/-- The code and identifier items, the first two of `radius_tree`. -/
def header_items (rhcode rhident : Nat) : List proto_node :=
  [proto_node.mk (hf_ref.named "hf_radius_code") 0 1 (field_value.uint rhcode) [] false false [],
   proto_node.mk (hf_ref.named "hf_radius_id") 1 1 (field_value.uint rhident)
    [⟨"Packet identifier: 0x%01x (%d)", [fmt_arg.u rhident, fmt_arg.u rhident]⟩] false false []]

/-- The length item of a packet whose length field is below `HDR_LENGTH`. -/
def bogus_length_item (rhlength : Nat) : proto_node :=
  proto_node.mk (hf_ref.named "hf_radius_length") 2 2 (field_value.uint rhlength)
    [⟨"Length: %u (bogus, < %u)", [fmt_arg.u rhlength, fmt_arg.u HDR_LENGTH]⟩] false false []

/-- The length item of a packet with a sane length field. -/
def length_item (rhlength : Nat) : proto_node :=
  proto_node.mk (hf_ref.named "hf_radius_length") 2 2 (field_value.uint rhlength) [] false false []

/-- The authenticator item, whose bytes `proto_tree_add_item` reads from the
buffer. -/
def authenticator_item (auth : List Nat) : proto_node :=
  proto_node.mk (hf_ref.named "hf_radius_authenticator") 4 AUTHENTICATOR_LENGTH
    (field_value.bytes auth) [] false false []

/-- The function `dissect_radius`; `tree` tells whether a tree is being
built. -/
def dissect_radius {κ : Type} (api : conversation_api κ) (env : radius_env) (s : session κ)
    (tvb : tvbuff_t) (pinfo : packet_info) (tree : Bool) : dissect_result κ :=
  let rad_info0 := rad_info_init s.rad_info
  let cinfo0 := col_init pinfo.cinfo
  match tvb_memcpy tvb 0 4 with
  | some [rh_code, rh_ident, len_hi, len_lo] =>
    let rhcode := rh_code
    let rhident := rh_ident
    let rhlength := len_hi * 256 + len_lo
    let rad_info1 : radius_info_t := { rad_info0 with code := rhcode, ident := rhident }
    let cinfo1 := col_header cinfo0 rhcode rhident rhlength
    if rhlength < HDR_LENGTH then
      { session := { s with rad_info := rad_info1 }, cinfo := cinfo1,
        tree := radius_item tree rhlength (header_items rhcode rhident ++ [bogus_length_item rhlength]),
        tap := none, eap_calls := [], avp_exit := none, exn := false }
    else
      match tvb_memcpy tvb 4 AUTHENTICATOR_LENGTH with
      | none =>
        { session := { s with rad_info := rad_info1 }, cinfo := cinfo1,
          tree := radius_item tree rhlength (header_items rhcode rhident ++ [length_item rhlength]),
          tap := none, eap_calls := [], avp_exit := none, exn := true }
      | some auth =>
        dissect_radius_body api env { s with authenticator := auth } tvb pinfo tree
          rhcode rhident rhlength rad_info1 cinfo1
          (header_items rhcode rhident ++ [length_item rhlength, authenticator_item auth])
  | _ =>
    { session := { s with rad_info := rad_info0 }, cinfo := cinfo0, tree := none, tap := none,
      eap_calls := [], avp_exit := none, exn := true }

/-! ## Attribute areas -/

/-- The offset just after `k` consecutive attributes that start at `offset`,
each with a type other than vendor-specific and a length byte of at least 2;
`none` when the buffer does not hold `k` such attributes there. -/
def plain_avps_end (tvb : tvbuff_t) : Nat → Nat → Option Nat
  | 0, offset => some offset
  | k + 1, offset =>
    match tvb_get_guint8 tvb offset, tvb_get_guint8 tvb (offset + 1) with
    | some avp_type, some avp_length =>
      if avp_type ≠ RADIUS_VENDOR_SPECIFIC_CODE ∧ 2 ≤ avp_length then
        plain_avps_end tvb k (offset + avp_length)
      else none
    | _, _ => none

/-- The outcome of a pass through the loop body with `d` added to the
remaining length of its state. -/
def avp_step.add_length (d : Nat) : avp_step → avp_step
  | avp_step.next s => avp_step.next { s with length := s.length + d }
  | avp_step.ret s => avp_step.ret { s with length := s.length + d }
  | avp_step.throw s => avp_step.throw { s with length := s.length + d }
  | avp_step.stuck s => avp_step.stuck { s with length := s.length + d }

/-! ## Sample inputs -/

/-- A conversation layer with one conversation, number 0, to which every
packet belongs. -/
def one_conversation : conversation_api Unit :=
  { find_conversation := fun _ _ _ _ _ _ _ _ => some ⟨0⟩,
    conversation_new := fun u _ _ _ _ _ _ _ => (⟨0⟩, u) }

/-- An empty dictionary, the default preferences and an EAP dissector that
adds nothing. -/
def plain_env : radius_env :=
  { dict := { attrs_by_id := [], vendors_by_id := [] }, shared_secret := "", show_length := false,
    sminmpec_values := fun _ => none, eap_handle := fun _ _ => { children := [], exn := false } }

/-- A packet of 20 bytes: code, identifier, length 20 and a zero
authenticator, without attributes. -/
def sample_packet (code ident : Nat) : tvbuff_t :=
  [code, ident, 0, 20] ++ List.replicate 16 0

/-- The frame data of frame `num`, captured at `secs` seconds. -/
def sample_pinfo (num : Nat) (secs : Int) : packet_info :=
  { fd_num := num, abs_ts := { secs := secs, nsecs := 0 },
    src := ⟨1, [10, 0, 0, 1]⟩, dst := ⟨1, [10, 0, 0, 2]⟩,
    ptype := 3, srcport := 1024, destport := 1812,
    cinfo := ⟨true, true, [], []⟩ }

/-- An attribute area of six bytes: a User-Name attribute of length 3 and
then an attribute whose length byte, 9, exceeds the three bytes that are
left. -/
def sample_attributes : tvbuff_t := [1, 3, 65, 2, 9, 66]

/-- The statics after `radius_init_protocol`, before any packet. -/
def fresh_session : session Unit :=
  { rad_info := ⟨0, 0, ⟨0, 0⟩, false, false, 0, 0⟩, authenticator := [], radius_calls := [],
    conversations := () }

/-- The statics after an Access-Request with identifier 5 in frame 1 at time
0 has been dissected with a tree. -/
def session_after_request : session Unit :=
  (dissect_radius one_conversation plain_env fresh_session (sample_packet 1 5) (sample_pinfo 1 0)
    true).session

end Radius

namespace Radius

/-! ## Registration of AVP dissectors -/

/-- The call `g_hash_table_insert` on a table keyed by `GUINT_TO_POINTER`
values: the value of an entry with this key is replaced, otherwise an entry
is added.  A write through a pointer to a stored value is the same
replacement. -/
def g_hash_table_insert_direct {α : Type} :
    List (Nat × α) → Nat → α → List (Nat × α)
  | [], key, v => [(key, v)]
  | (k, x) :: rest, key, v =>
    if k = key then (k, v) :: rest else (k, x) :: g_hash_table_insert_direct rest key v

/-- The dictionary entry that `radius_register_avp_dissector` ends with: the
entry found, or else a new one, with the dissector stored in it.  The new
entry comes from `g_malloc`; the members that the function does not assign
(`tagged`, `hf_tag`) are whatever the memory `junk` held. -/
def registered_entry (junk : radius_attr_info_t) (found : Option radius_attr_info_t)
    (attribute_id : Nat) (radius_avp_dissector : radius_avp_dissector_t) : radius_attr_info_t :=
  match found with
  | some dictionary_entry => { dictionary_entry with dissector := some radius_avp_dissector }
  | none =>
    { junk with
      name := "Unknown-Attribute-" ++ toString attribute_id,
      code := attribute_id,
      encrypt := false,
      type := none,
      hf := no_dictionary_entry.hf,
      hf_len := no_dictionary_entry.hf_len,
      dissector := some radius_avp_dissector }

/-- The vendor that `radius_register_avp_dissector` works on: the one found
in `vendors_by_id`, or else a new one with an empty attribute table. -/
def registered_vendor (sminmpec_values : Nat → Option String) (dict : radius_dictionary_t)
    (vendor_id : Nat) : radius_vendor_info_t :=
  match g_hash_table_lookup_direct dict.vendors_by_id vendor_id with
  | some vendor => vendor
  | none =>
    { name := val_to_str vendor_id sminmpec_values "Unknown" ++ "-" ++ toString vendor_id,
      code := vendor_id, attrs_by_id := [] }

/-- The function `radius_register_avp_dissector`, on the dictionary `dict`
(the tables by name are not modelled).  The dissector is not `NULL`: the
function asserts it. -/
def radius_register_avp_dissector (sminmpec_values : Nat → Option String)
    (junk : radius_attr_info_t) (dict : radius_dictionary_t) (vendor_id attribute_id : Nat)
    (radius_avp_dissector : radius_avp_dissector_t) : radius_dictionary_t :=
  if vendor_id ≠ 0 then
    let vendor := registered_vendor sminmpec_values dict vendor_id
    let dictionary_entry := registered_entry junk
      (g_hash_table_lookup_direct vendor.attrs_by_id attribute_id) attribute_id
      radius_avp_dissector
    { dict with
      vendors_by_id := g_hash_table_insert_direct dict.vendors_by_id vendor_id
        { vendor with
          attrs_by_id :=
            g_hash_table_insert_direct vendor.attrs_by_id attribute_id dictionary_entry } }
  else
    { dict with
      attrs_by_id := g_hash_table_insert_direct dict.attrs_by_id attribute_id
        (registered_entry junk (g_hash_table_lookup_direct dict.attrs_by_id attribute_id)
          attribute_id radius_avp_dissector) }

/-- The attribute table that `vendor_id` selects: the table of the base
dictionary for 0, otherwise the table of that vendor (empty when there is no
such vendor). -/
def attrs_by_id_of (dict : radius_dictionary_t) (vendor_id : Nat) :
    List (Nat × radius_attr_info_t) :=
  if vendor_id ≠ 0 then
    match g_hash_table_lookup_direct dict.vendors_by_id vendor_id with
    | some vendor => vendor.attrs_by_id
    | none => []
  else dict.attrs_by_id

/-! ## The EAP buffer when the attribute loop is left -/

/-- Modelled from the spec: the macros `CLEANUP_PUSH` and
`CLEANUP_CALL_AND_POP` (epan/exceptions.h) are not among the sources.  As the
comments at their two uses say, the handler frees the EAP buffer that has not
been attached to a tvbuff, when an exception unwinds and at
`CLEANUP_CALL_AND_POP`.  This is the buffer that is still allocated, and
attached to nothing, when `dissect_attribute_value_pairs` is left: none after
the end of the loop or an exception, the local `eap_buffer` after a `return`
inside the loop, which passes the handler by. -/
def pending_eap_buffer (r : avp_state × avp_exit) : Option (List Nat) :=
  match r.2 with
  | avp_exit.done => none
  | avp_exit.thrown => none
  | avp_exit.returned => r.1.eap_buffer
  | avp_exit.no_fuel => r.1.eap_buffer

/-! ## Sample packets with attributes -/

/-- A packet with a zero authenticator whose length field covers the header
and the bytes `attrs`, followed by the bytes `padding`. -/
def packet_with_attributes (code ident : Nat) (attrs padding : List Nat) : tvbuff_t :=
  [code, ident, (HDR_LENGTH + attrs.length) / 256, (HDR_LENGTH + attrs.length) % 256] ++
    List.replicate 16 0 ++ attrs ++ padding

/-- An AVP dissector that returns the text "x" and adds nothing. -/
def sample_avp_dissector : radius_avp_dissector_t :=
  fun _ => { children := [], str := "x", exn := false }

/-- An AVP dissector that returns the text "y" and adds nothing. -/
def other_avp_dissector : radius_avp_dissector_t :=
  fun _ => { children := [], str := "y", exn := false }

end Radius

namespace AnsiTcap

/-! ## ANSI TCAP: the statics of packet-ansi_tcap-template.c -/

/-- Modelled from the spec: packet-ansi_tcap.h is not among the sources; the
signature that marks an initialised context. -/
def ANSI_TCAP_CTX_SIGNATURE : Nat := 0x41544341

/-- The member `d` of `ansi_tcap_private_t`, the data that change while a
packet is decoded. -/
structure ansi_tcap_dynamic_t where
  pdu : Int
  OperationCode : Int
  OperationCode_national : Int
  OperationCode_private : Int
  OperationCode_item : Option Nat
  deriving DecidableEq, Repr

/-- The struct `tcaphash_context_t`, with the members that
`dissect_ansi_tcap` reads and writes. -/
structure tcaphash_context_t where
  oid_present : Bool
  oid : String
  subdissector_handle : Option Nat
  callback : Bool
  deriving DecidableEq, Repr

/-- The struct `ansi_tcap_private_t` (packet-ansi_tcap.h); pointers are
`none` when `NULL`. -/
structure ansi_tcap_private_t where
  signature : Nat
  oid_is_present : Bool
  objectApplicationId_oid : Option String
  context : Option tcaphash_context_t
  TransactionID_str : Option String
  d : ansi_tcap_dynamic_t
  deriving DecidableEq, Repr

/-- The file-scope variables that `dissect_ansi_tcap` assigns or reads.  A
pointer into a protocol tree is the number of the frame whose tree it points
into. -/
structure tcap_statics where
  ansi_tcap_private : ansi_tcap_private_t
  gp_tcapsrt_info : Nat
  tcap_subdissector_used : Bool
  requested_subdissector_handle : Option Nat
  gp_tcap_context : Option tcaphash_context_t
  cur_oid : Option String
  tcapext_oid : Option String
  tcap_top_tree : Option Nat
  tcap_stat_tree : Option Nat
  tcap_stat_item : Option Nat
  deriving DecidableEq, Repr

/-- The call `memset(a_tcap_ctx, 0, sizeof(*a_tcap_ctx))`: every member
zero, `FALSE` or `NULL`. -/
def ansi_tcap_private_zero : ansi_tcap_private_t :=
  { signature := 0, oid_is_present := false, objectApplicationId_oid := none, context := none,
    TransactionID_str := none,
    d := { pdu := 0, OperationCode := 0, OperationCode_national := 0,
           OperationCode_private := 0, OperationCode_item := none } }

/-- The function `ansi_tcap_ctx_init`, called on `&ansi_tcap_private`: the
context is cleared and signed, and `oid_is_present` of the static is
cleared. -/
def ansi_tcap_ctx_init (s : tcap_statics) : tcap_statics :=
  { s with
    ansi_tcap_private :=
      { ansi_tcap_private_zero with signature := ANSI_TCAP_CTX_SIGNATURE, oid_is_present := false } }

/-- The members of `packet_info` that `dissect_ansi_tcap` uses: the frame
number, the columns, and whether `private_data` points to
`ansi_tcap_private`. -/
structure tcap_pinfo where
  fd_num : Nat
  cinfo : Radius.column_info
  private_data_is_ansi_tcap : Bool
  deriving DecidableEq, Repr

/-- What `dissect_ansi_tcap` calls and reads from elsewhere: the generated
decoder `dissect_ansi_tcap_PackageType` (packet-ansi_tcap-fn.c), which works
on the statics; the SRT functions `tcapsrt_razinfo` and
`tcapsrt_call_matching`; the lookup in the table "ber.oid"; and the
preferences. -/
structure tcap_env where
  dissect_ansi_tcap_PackageType : tcap_statics → Radius.tvbuff_t → tcap_statics
  tcapsrt_razinfo : Nat
  tcapsrt_call_matching : Radius.tvbuff_t → Nat → Option tcaphash_context_t
  dissector_get_string_handle : String → Option Nat
  g_ansi_tcap_HandleSRT : Bool
  gtcap_DisplaySRT : Bool

/-- The statements of `dissect_ansi_tcap` up to the call of
`dissect_ansi_tcap_PackageType`: the statics and the packet info with which
the decoder is called. -/
def dissect_ansi_tcap_setup (env : tcap_env) (s : tcap_statics) (pinfo : tcap_pinfo)
    (parent_tree : Bool) : tcap_statics × tcap_pinfo :=
  let s1 := ansi_tcap_ctx_init s
  let s2 : tcap_statics :=
    { s1 with tcap_top_tree := if parent_tree then some pinfo.fd_num else none }
  let cinfo : Radius.column_info :=
    { pinfo.cinfo with
      col_protocol :=
        if pinfo.cinfo.check_col_protocol then [⟨"ANSI TCAP", []⟩] else pinfo.cinfo.col_protocol }
  let s3 : tcap_statics :=
    if parent_tree then
      { s2 with tcap_stat_item := some pinfo.fd_num, tcap_stat_tree := some pinfo.fd_num }
    else s2
  ({ s3 with
      cur_oid := none, tcapext_oid := none, gp_tcapsrt_info := env.tcapsrt_razinfo,
      tcap_subdissector_used := false, gp_tcap_context := none },
   { pinfo with cinfo := cinfo, private_data_is_ansi_tcap := true })

/-- The statements of `dissect_ansi_tcap` after the decoder has returned:
the matching of the call when SRT is handled and no subdissector was used. -/
def dissect_ansi_tcap_finish (env : tcap_env) (s : tcap_statics) (tvb : Radius.tvbuff_t) :
    tcap_statics :=
  if env.g_ansi_tcap_HandleSRT && !s.tcap_subdissector_used then
    let p_tcap_context := env.tcapsrt_call_matching tvb s.gp_tcapsrt_info
    let p_tcap_context1 :=
      match p_tcap_context, s.cur_oid with
      | some ctx, some cur_oid =>
        if !ctx.oid_present then
          match env.dissector_get_string_handle cur_oid with
          | some subdissector_handle =>
            some { ctx with oid := cur_oid, subdissector_handle := some subdissector_handle,
                            oid_present := true }
          | none => some { ctx with oid := cur_oid }
        else some ctx
      | c, _ => c
    { s with ansi_tcap_private := { s.ansi_tcap_private with context := p_tcap_context1 } }
  else s

/-- The function `dissect_ansi_tcap`: the statics afterwards. -/
def dissect_ansi_tcap (env : tcap_env) (s : tcap_statics) (tvb : Radius.tvbuff_t)
    (pinfo : tcap_pinfo) (parent_tree : Bool) : tcap_statics :=
  dissect_ansi_tcap_finish env
    (env.dissect_ansi_tcap_PackageType (dissect_ansi_tcap_setup env s pinfo parent_tree).1 tvb) tvb

end AnsiTcap

namespace File

/-! ## The capture file and its list of frames (file.c) -/

/-- The struct `frame_data` (packet.h), with the members that file.c reads
and writes.  A pointer to a frame is the index of the frame in
`capture_file.frames`; `none` is `NULL`. -/
structure frame_data where
  next : Option Nat
  prev : Option Nat
  pkt_len : Nat
  cap_len : Nat
  file_off : Int
  lnk_t : Nat
  abs_secs : Nat
  abs_usecs : Nat
  rel_secs : Nat
  rel_usecs : Nat
  del_secs : Nat
  del_usecs : Nat
  num : Nat
  passed_dfilter : Bool
  row : Int
  encoding : Nat
  pseudo_header : Nat
  cinfo : Bool
  deriving DecidableEq, Repr

/-- The value `CHAR_ASCII` of the enum in packet.h. -/
def CHAR_ASCII : Nat := 0

/-- The struct `wtap_pkthdr`, with the members that `wtap_dispatch_cb`
copies. -/
structure wtap_pkthdr where
  ts_sec : Nat
  ts_usec : Nat
  caplen : Nat
  len : Nat
  pkt_encap : Nat
  pseudo_header : Nat
  deriving DecidableEq, Repr

/-- One call of the callback by `wtap_loop`: the header, the offset in the
file, the bytes, and what the block returned by `g_malloc` holds before it is
written. -/
structure wtap_record where
  phdr : wtap_pkthdr
  offset : Int
  buf : List Nat
  g_malloc : frame_data
  deriving DecidableEq, Repr

/-- A compiled filter together with the dissection that feeds it: the value
of `dfilter_apply` for a frame and its bytes. -/
abbrev dfilter := frame_data → List Nat → Bool

/-- The struct `capture_file` with the members that the reading of a file
uses, the statics `firstsec`, `firstusec`, `prevsec` and `prevusec` of file.c,
whether `filter_list` is non-empty, and the number of rows of the widget
`packet_list`.  `frames` is the memory that holds the frames of the list. -/
structure capture_file where
  frames : List frame_data
  plist : Option Nat
  plist_end : Option Nat
  count : Int
  drops : Nat
  esec : Nat
  eusec : Nat
  rfcode : Option dfilter
  dfcode : Option dfilter
  first_displayed : Option Nat
  last_displayed : Option Nat
  current_frame : Option Nat
  current_frame_is_selected : Bool
  current_row : Int
  firstsec : Nat
  firstusec : Nat
  prevsec : Nat
  prevusec : Nat
  filter_list : Bool
  packet_list : Nat

/-- The value of an `int` expression: two's complement in 32 bits. -/
def to_int (x : Int) : Int := (x + 2 ^ 31) % 2 ^ 32 - 2 ^ 31

/-- The value of a `guint32` expression. -/
def to_guint32 (x : Int) : Nat := (x % 2 ^ 32).toNat

/-- The function `close_cap_file`: the frames are freed, the read filter is
destroyed, the list is empty and nothing is selected. -/
def close_cap_file (cf : capture_file) : capture_file :=
  { cf with frames := [], rfcode := none, plist := none, plist_end := none,
            current_frame_is_selected := false, packet_list := 0 }

/-- The function `open_cap_file` when the file can be opened. -/
def open_cap_file (cf : capture_file) : capture_file :=
  { close_cap_file cf with count := 0, drops := 0, esec := 0, eusec := 0,
                           firstsec := 0, firstusec := 0, prevsec := 0, prevusec := 0 }

/-- The time of a frame minus an earlier time, as `add_packet_to_packet_list`
computes it twice in `guint32`: seconds and microseconds, with a borrow when
the earlier microseconds are the larger. -/
def time_since (abs_secs abs_usecs secs usecs : Nat) : Nat × Nat :=
  if usecs ≤ abs_usecs then
    (to_guint32 (abs_secs - secs), to_guint32 (abs_usecs - usecs))
  else
    (to_guint32 ((to_guint32 (abs_secs - secs) : Int) - 1),
     to_guint32 ((to_guint32 (abs_usecs + 1000000) : Int) - usecs))

/-- The function `add_packet_to_packet_list` for the frame at address `p`:
the frame and the capture file afterwards. -/
def add_packet_to_packet_list (p : Nat) (fdata : frame_data) (cf : capture_file)
    (buf : List Nat) : frame_data × capture_file :=
  let first : Nat × Nat :=
    if cf.firstsec = 0 ∧ cf.firstusec = 0 then (fdata.abs_secs, fdata.abs_usecs)
    else (cf.firstsec, cf.firstusec)
  let e := time_since fdata.abs_secs fdata.abs_usecs first.1 first.2
  let cf1 : capture_file :=
    { cf with firstsec := first.1, firstusec := first.2, esec := e.1, eusec := e.2 }
  let fdata1 : frame_data := { fdata with cinfo := true }
  let passed_dfilter : Bool :=
    if cf.dfcode.isSome ∨ cf.filter_list then
      match cf.dfcode with
      | some dfcode => dfcode fdata1 buf
      | none => true
    else true
  if passed_dfilter then
    let prev : Nat × Nat :=
      if cf.prevsec = 0 ∧ cf.prevusec = 0 then (fdata.abs_secs, fdata.abs_usecs)
      else (cf.prevsec, cf.prevusec)
    let d := time_since fdata.abs_secs fdata.abs_usecs prev.1 prev.2
    let row : Int := cf.packet_list
    ({ fdata with passed_dfilter := true, rel_secs := e.1, rel_usecs := e.2, del_secs := d.1,
                  del_usecs := d.2, row := row, cinfo := false },
     { cf1 with prevsec := fdata.abs_secs, prevusec := fdata.abs_usecs,
                packet_list := cf.packet_list + 1,
                first_displayed := if cf.first_displayed.isNone then some p else cf.first_displayed,
                last_displayed := some p,
                current_row := if cf.current_frame = some p then row else cf.current_row })
  else
    ({ fdata with passed_dfilter := false, row := -1, cinfo := false }, cf1)

/-- The assignment `fd->next = q` for the frame at address `p`. -/
def set_next (frames : List frame_data) (p : Nat) (q : Option Nat) : List frame_data :=
  match frames[p]? with
  | some f => frames.set p { f with next := q }
  | none => frames

/-- The frame that `wtap_dispatch_cb` allocates and fills in for a record. -/
def new_frame (r : wtap_record) : frame_data :=
  { r.g_malloc with
    next := none, prev := none, pkt_len := r.phdr.len, cap_len := r.phdr.caplen,
    file_off := r.offset, lnk_t := r.phdr.pkt_encap, abs_secs := r.phdr.ts_sec % 2 ^ 32,
    abs_usecs := r.phdr.ts_usec % 2 ^ 32, encoding := CHAR_ASCII,
    pseudo_header := r.phdr.pseudo_header, cinfo := false }

/-- The variable `passed` of `wtap_dispatch_cb`: whether the record passes
the read filter, if there is one. -/
def read_filter_passed (rfcode : Option dfilter) (r : wtap_record) : Bool :=
  match rfcode with
  | some rfcode => rfcode (new_frame r) r.buf
  | none => true

/-- The function `wtap_dispatch_cb`, without the progress bar.  The frame
that is linked gets the address after those of the frames there are; a frame
that is not linked is freed. -/
def wtap_dispatch_cb (cf : capture_file) (r : wtap_record) : capture_file :=
  if read_filter_passed cf.rfcode r then
    let p := cf.frames.length
    let frames1 :=
      match cf.plist_end with
      | some plist_end => set_next cf.frames plist_end (some p)
      | none => cf.frames
    let plist1 :=
      match cf.plist_end with
      | some _ => cf.plist
      | none => some p
    let count1 := to_int (cf.count + 1)
    let fdata : frame_data := { new_frame r with prev := cf.plist_end, num := to_guint32 count1 }
    let out := add_packet_to_packet_list p fdata
      { cf with frames := frames1, plist := plist1, plist_end := some p, count := count1 } r.buf
    { out.2 with frames := out.2.frames ++ [out.1] }
  else cf

/-- The function `wtap_loop` on a file that holds the records given: the
callback is called for each in turn. -/
def wtap_loop (cf : capture_file) (records : List wtap_record) : capture_file :=
  records.foldl wtap_dispatch_cb cf

/-- The loop `for (fd = cf->plist; fd != NULL; fd = fd->next)` of file.c:
the frames that it visits from `fd` on, in at most `fuel` steps. -/
def frame_list (frames : List frame_data) : Nat → Option Nat → List frame_data
  | 0, _ => []
  | _ + 1, none => []
  | fuel + 1, some p =>
    match frames[p]? with
    | some f => f :: frame_list frames fuel f.next
    | none => []

/-- The same loop walking backwards, `fd = fd->prev`, from `cf->plist_end`. -/
def frame_list_back (frames : List frame_data) : Nat → Option Nat → List frame_data
  | 0, _ => []
  | _ + 1, none => []
  | fuel + 1, some p =>
    match frames[p]? with
    | some f => f :: frame_list_back frames fuel f.prev
    | none => []

end File

namespace File

/-- The list of frames of a capture file is well formed and has `n` frames:
the counter is `n`, the frame at address `i` has number `i + 1`, the links
lead to the addresses before and after, and `plist` and `plist_end` are the
first and the last address. -/
def plist_ok (cf : capture_file) (n : Nat) : Prop :=
  cf.frames.length = n ∧ cf.count = n ∧
  cf.plist = (if n = 0 then none else some 0) ∧
  cf.plist_end = (if n = 0 then none else some (n - 1)) ∧
  ∀ i f, cf.frames[i]? = some f →
    f.num = i + 1 ∧ f.prev = (if i = 0 then none else some (i - 1)) ∧
    f.next = (if i + 1 = n then none else some (i + 1))

/-- A block of memory as `g_malloc` may return it. -/
def blank_frame : frame_data :=
  { next := some 7, prev := some 7, pkt_len := 0, cap_len := 0, file_off := 0, lnk_t := 0,
    abs_secs := 0, abs_usecs := 0, rel_secs := 0, rel_usecs := 0, del_secs := 0, del_usecs := 0,
    num := 99, passed_dfilter := false, row := 0, encoding := 0, pseudo_header := 0,
    cinfo := false }

/-- A capture file left over from an earlier file, with three frames. -/
def stale_capture_file : capture_file :=
  { frames := [blank_frame, blank_frame, blank_frame], plist := some 0, plist_end := some 2,
    count := 3, drops := 0, esec := 5, eusec := 0, rfcode := none, dfcode := none,
    first_displayed := some 0, last_displayed := some 2, current_frame := some 1,
    current_frame_is_selected := true, current_row := 1, firstsec := 10, firstusec := 0,
    prevsec := 15, prevusec := 0, filter_list := false, packet_list := 3 }

/-- A record of 60 bytes at a file offset, captured at a time in seconds. -/
def sample_record (offset : Int) (secs : Nat) : wtap_record :=
  { phdr := { ts_sec := secs, ts_usec := 0, caplen := 60, len := 60, pkt_encap := 1,
              pseudo_header := 0 },
    offset := offset, buf := List.replicate 60 0, g_malloc := blank_frame }

/-- A read filter that lets pass the frames captured at an even second. -/
def even_second_filter : dfilter := fun fdata _ => fdata.abs_secs % 2 = 0

/-- Four records, the second and the third captured at an odd second. -/
def sample_records : List wtap_record :=
  [sample_record 24 100, sample_record 100 101, sample_record 176 103, sample_record 252 104]

end File

namespace Wtp

/-! ## WTP (packet-wtp.c): buffers, tree items and reassembled fragments -/

/-- A buffer `tvbuff_t`: the captured bytes (each below 256) and the reported
length, which `tvb_new_subset` sets as it is told; it may be less than the
number of captured bytes. -/
structure tvbuff_t where
  data : List Nat
  reported_length : Nat
  deriving DecidableEq, Repr

/-- Modelled from the spec: tvbuff.c is not among the sources.  The check of
an offset that every accessor makes first: the offset may be neither beyond
the reported length (a read past the declared view: `ReportedBoundsError`)
nor beyond the captured bytes (`BoundsError`). -/
def tvb_offset_exists (tvb : tvbuff_t) (offset : Nat) : Bool :=
  decide (offset ≤ tvb.reported_length ∧ offset ≤ tvb.data.length)

/-- Modelled from the spec: the check of a read of `length` bytes at
`offset`: the offset passes `tvb_offset_exists` and the bytes are all
captured. -/
def tvb_bytes_readable (tvb : tvbuff_t) (offset length : Nat) : Bool :=
  tvb_offset_exists tvb offset && decide (offset + length ≤ tvb.data.length)

/-- The accessor `tvb_get_guint8`; `none` stands for the exception thrown on a
read beyond the reported length or outside the captured bytes. -/
def tvb_get_guint8 (tvb : tvbuff_t) (offset : Nat) : Option Nat :=
  if tvb_bytes_readable tvb offset 1 then tvb.data[offset]? else none

/-- The accessor `tvb_get_ntohs`. -/
def tvb_get_ntohs (tvb : tvbuff_t) (offset : Nat) : Option Nat :=
  if tvb_bytes_readable tvb offset 2 then
    match tvb.data[offset]?, tvb.data[offset + 1]? with
    | some hi, some lo => some (hi * 256 + lo)
    | _, _ => none
  else none

/-- The accessor `tvb_length_remaining`: the captured bytes from `offset` on,
`-1` when `offset` is beyond the reported length or beyond the captured
bytes. -/
def tvb_length_remaining (tvb : tvbuff_t) (offset : Nat) : Int :=
  if tvb_offset_exists tvb offset then (tvb.data.length : Int) - (offset : Int) else -1

/-- The call `tvb_new_subset(tvb, backing_offset, -1, reported_length)`: all
captured bytes from the offset on; `none` for the exception thrown when the
offset is beyond the reported length of `tvb` or beyond its captured bytes. -/
def tvb_new_subset (tvb : tvbuff_t) (backing_offset reported_length : Nat) : Option tvbuff_t :=
  if tvb_offset_exists tvb backing_offset then
    some { data := tvb.data.drop backing_offset, reported_length := reported_length }
  else none

/-- The call `tvb_new_real_data(data, length, reported_length)`. -/
def tvb_new_real_data (data : List Nat) (length reported_length : Nat) : tvbuff_t :=
  { data := data.take length, reported_length := reported_length }

/-- The value of a `guint32` passed for a `gint` parameter. -/
def to_gint (x : Nat) : Int := ((x : Int) + 2 ^ 31) % 2 ^ 32 - 2 ^ 31

/-- A tree item with its subtree: the field, the byte range as the dissector
passes it, the value, and the display text when the dissector gives one. -/
inductive proto_node where
  | mk (hf : String) (start length : Int) (value : Radius.field_value)
      (text : List Radius.fmt_text) (children : List proto_node)

def proto_node.hf : proto_node → String
  | proto_node.mk h _ _ _ _ _ => h

def proto_node.start : proto_node → Int
  | proto_node.mk _ s _ _ _ _ => s

def proto_node.length : proto_node → Int
  | proto_node.mk _ _ l _ _ _ => l

def proto_node.value : proto_node → Radius.field_value
  | proto_node.mk _ _ _ v _ _ => v

def proto_node.text : proto_node → List Radius.fmt_text
  | proto_node.mk _ _ _ _ t _ => t

def proto_node.children : proto_node → List proto_node
  | proto_node.mk _ _ _ _ _ c => c

/-- Modelled from the spec: reassemble.h is not among the sources; the flag
for a fragment that overlaps another. -/
def FD_OVERLAP : Nat := 0x0002

/-- Modelled from the spec: the flag for overlapping fragments whose bytes
differ. -/
def FD_OVERLAPCONFLICT : Nat := 0x0004

/-- Modelled from the spec: the flag for more than one tail fragment. -/
def FD_MULTIPLETAILS : Nat := 0x0008

/-- Modelled from the spec: the flag for a fragment that goes past the end of
the message. -/
def FD_TOOLONGFRAGMENT : Nat := 0x0010

/-- The struct `fragment_data` of one fragment in the list of a reassembled
message, with the members that `show_fragments` reads. -/
structure fragment_data where
  frame : Nat
  offset : Nat
  len : Nat
  flags : Nat
  deriving DecidableEq, Repr

/-- The head `fd_head` of a reassembled message: its flags, its data and
length, and the list `fd_head->next ...` of its fragments. -/
structure fragment_head where
  flags : Nat
  len : Nat
  data : List Nat
  next : List fragment_data
  deriving DecidableEq, Repr

/-- An item made by `proto_tree_add_boolean(fet, hf, tvb, 0, 0, TRUE)`. -/
def flag_item (hf : String) : proto_node :=
  proto_node.mk hf 0 0 (Radius.field_value.boolean true) [] []

/-- The body of the loop of `show_fragments` for the fragment `fd`, with
`offset` the sum so far: the item it adds to the subtree of the fragments
item. -/
def fragment_item (offset : Nat) (fd : fragment_data) : proto_node :=
  let label : Radius.fmt_text :=
    ⟨"Frame:%u payload:%u-%u",
     [Radius.fmt_arg.u fd.frame, Radius.fmt_arg.u offset,
      Radius.fmt_arg.u ((offset + fd.len + 2 ^ 32 - 1) % 2 ^ 32)]⟩
  if fd.flags &&& (FD_OVERLAP ||| FD_OVERLAPCONFLICT ||| FD_MULTIPLETAILS |||
      FD_TOOLONGFRAGMENT) ≠ 0 then
    let hf :=
      if fd.flags &&& (FD_OVERLAPCONFLICT ||| FD_MULTIPLETAILS ||| FD_TOOLONGFRAGMENT) ≠ 0 then
        "hf_wtp_fragment_error"
      else "hf_wtp_fragment"
    proto_node.mk hf (to_gint offset) (to_gint fd.len) Radius.field_value.none [label]
      ((if fd.flags &&& FD_OVERLAP ≠ 0 then [flag_item "hf_wtp_fragment_overlap"] else []) ++
       (if fd.flags &&& FD_OVERLAPCONFLICT ≠ 0 then
          [flag_item "hf_wtp_fragment_overlap_conflict"] else []) ++
       (if fd.flags &&& FD_MULTIPLETAILS ≠ 0 then
          [flag_item "hf_wtp_fragment_multiple_tails"] else []) ++
       (if fd.flags &&& FD_TOOLONGFRAGMENT ≠ 0 then
          [flag_item "hf_wtp_fragment_too_long_fragment"] else []))
  else
    proto_node.mk "hf_wtp_fragment" (to_gint offset) (to_gint fd.len) Radius.field_value.none
      [label] []

/-- The loop `for (fd=fd_head->next; fd; fd=fd->next)` of `show_fragments`
from the fragments that remain, with `offset` a `guint32`. -/
def show_fragments_loop (offset : Nat) : List fragment_data → List proto_node
  | [] => []
  | fd :: rest => fragment_item offset fd :: show_fragments_loop ((offset + fd.len) % 2 ^ 32) rest

/-- The function `show_fragments`: the fragments item added to `tree`, if
there is a tree, and the columns afterwards.  Its items carry no value read
from the buffer. -/
def show_fragments (_tvb : tvbuff_t) (cinfo : Radius.column_info) (tree : Bool)
    (fd_head : fragment_head) : Option proto_node × Radius.column_info :=
  (if tree then
     some (proto_node.mk "hf_wtp_fragments" 0 (-1) Radius.field_value.none []
       (show_fragments_loop 0 fd_head.next))
   else none,
   if fd_head.flags &&& (FD_OVERLAPCONFLICT ||| FD_MULTIPLETAILS ||| FD_TOOLONGFRAGMENT) ≠ 0 then
     { cinfo with
       col_info := if cinfo.check_col_info then [⟨"[Illegal fragments]", []⟩] else cinfo.col_info }
   else cinfo)

end Wtp

namespace Wtp

end Wtp

namespace Wtp

/-! ## WTP: the dissector `dissect_wtp_common` -/

/-- Modelled from the spec: packet-wtp.h is not among the sources; the PDU
types carry the numbers that `vals_pdu_type` gives them. -/
def INVOKE : Nat := 1

/-- Modelled from the spec: see `INVOKE`. -/
def RESULT : Nat := 2

/-- Modelled from the spec: see `INVOKE`. -/
def ACK : Nat := 3

/-- Modelled from the spec: see `INVOKE`. -/
def ABORT : Nat := 4

/-- Modelled from the spec: see `INVOKE`. -/
def SEGMENTED_INVOKE : Nat := 5

/-- Modelled from the spec: see `INVOKE`. -/
def SEGMENTED_RESULT : Nat := 6

/-- Modelled from the spec: see `INVOKE`. -/
def NEGATIVE_ACK : Nat := 7

/-- Modelled from the spec: the abort types carry the numbers that
`vals_abort_type` gives them. -/
def PROVIDER : Nat := 0

/-- Modelled from the spec: see `PROVIDER`. -/
def USER : Nat := 1

/-- The table `vals_pdu_type`. -/
def vals_pdu_type (v : Nat) : Option String :=
  match v with
  | 0 => some "Not Allowed"
  | 1 => some "Invoke"
  | 2 => some "Result"
  | 3 => some "Ack"
  | 4 => some "Abort"
  | 5 => some "Segmented Invoke"
  | 6 => some "Segmented Result"
  | 7 => some "Negative Ack"
  | _ => none

/-- The macro `pdu_type`. -/
def pdu_type (octet : Nat) : Nat := (octet >>> 3) &&& 0x0F

/-- The macro `transaction_class`. -/
def transaction_class (octet : Nat) : Nat := octet &&& 0x03

/-- The macro `transmission_trailer`. -/
def transmission_trailer (octet : Nat) : Nat := (octet >>> 1) &&& 0x01

/-- The function `retransmission_indicator`. -/
def retransmission_indicator (octet : Nat) : Nat :=
  if pdu_type octet = INVOKE ∨ pdu_type octet = RESULT ∨ pdu_type octet = ACK ∨
      pdu_type octet = SEGMENTED_INVOKE ∨ pdu_type octet = SEGMENTED_RESULT ∨
      pdu_type octet = NEGATIVE_ACK then
    octet &&& 0x01
  else 0

/-- The members of `packet_info` that the WTP dissector uses. -/
structure packet_info where
  fd_num : Nat
  cinfo : Radius.column_info
  fragmented : Bool
  deriving DecidableEq, Repr

/-- The arguments of one call of `fragment_add_seq`, the table apart. -/
structure fragment_add_seq_call where
  tvb : tvbuff_t
  offset : Nat
  id : Nat
  frag_number : Nat
  frag_data_len : Nat
  more_frags : Bool
  deriving DecidableEq, Repr

/-- One call of the WSP dissector through `call_dissector(wsp_handle, ...)`:
the buffer, `pinfo->fragmented` at the call, and whether there is a tree. -/
structure wsp_call where
  tvb : tvbuff_t
  fragmented : Bool
  tree : Bool
  deriving DecidableEq, Repr

/-- What the WSP dissector leaves behind: the columns, the items it added to
the tree, and whether it threw. -/
structure wsp_out where
  cinfo : Radius.column_info
  nodes : List proto_node
  exn : Bool

/-- What `dissect_wtp_common` calls from elsewhere, over the type `τ` of the
reassembly table: `fragment_add_seq` (reassemble.c) with the table first and
then its arguments in the order of the source, which gives the table
afterwards and the head of the message if it is complete; and the WSP
dissector. -/
structure wtp_env (τ : Type) where
  fragment_add_seq :
    τ → tvbuff_t → Nat → packet_info → Nat → Nat → Nat → Bool → τ × Option fragment_head
  wsp_handle : tvbuff_t → packet_info → Bool → wsp_out

/-- The state that a dissection works on: the packet info, the table
`wtp_fragment_table`, the data sources of the frame, and a record of the calls
of `fragment_add_seq` and of the WSP dissector so far, in order. -/
structure wtp_state (τ : Type) where
  pinfo : packet_info
  wtp_fragment_table : τ
  data_sources : List tvbuff_t
  reassembly : List fragment_add_seq_call
  wsp_calls : List wsp_call

/-- How a call of `dissect_wtp_common` ends. -/
inductive wtp_exit where
  | returned
  | thrown
  | no_fuel
  deriving DecidableEq, Repr

/-- The outcome of `dissect_wtp_common`: the state, the items added to
`tree`, and how it ended. -/
structure wtp_out (τ : Type) where
  state : wtp_state τ
  nodes : List proto_node
  exit : wtp_exit

/-- What the first `switch` of `dissect_wtp_common` sets. -/
structure wtp_header where
  fTTR : Nat
  TID : Nat
  psn : Nat
  clsTransaction : Option Nat
  cbHeader : Nat
  numMissing : Nat
  deriving DecidableEq, Repr

/-- The first `switch (pdut)` of `dissect_wtp_common`, with `offCur = 0`;
`none` when a read throws. -/
def wtp_switch (tvb : tvbuff_t) (b0 pdut : Nat) : Option wtp_header :=
  if pdut = INVOKE then
    match tvb_get_ntohs tvb 1, tvb_get_guint8 tvb 3 with
    | some TID, some b3 =>
      some { fTTR := transmission_trailer b0, TID := TID, psn := 0,
             clsTransaction := some (transaction_class b3), cbHeader := 4, numMissing := 0 }
    | _, _ => none
  else if pdut = SEGMENTED_INVOKE ∨ pdut = SEGMENTED_RESULT then
    match tvb_get_ntohs tvb 1, tvb_get_guint8 tvb 3 with
    | some TID, some psn =>
      some { fTTR := transmission_trailer b0, TID := TID, psn := psn, clsTransaction := none,
             cbHeader := 4, numMissing := 0 }
    | _, _ => none
  else if pdut = ABORT then
    some { fTTR := 0, TID := 0, psn := 0, clsTransaction := none, cbHeader := 4, numMissing := 0 }
  else if pdut = RESULT then
    match tvb_get_ntohs tvb 1 with
    | some TID =>
      some { fTTR := transmission_trailer b0, TID := TID, psn := 0, clsTransaction := none,
             cbHeader := 3, numMissing := 0 }
    | none => none
  else if pdut = ACK then
    some { fTTR := 0, TID := 0, psn := 0, clsTransaction := none, cbHeader := 3, numMissing := 0 }
  else if pdut = NEGATIVE_ACK then
    match tvb_get_guint8 tvb 3 with
    | some numMissing =>
      some { fTTR := 0, TID := 0, psn := 0, clsTransaction := none, cbHeader := numMissing + 4,
             numMissing := numMissing }
    | none => none
  else
    some { fTTR := 0, TID := 0, psn := 0, clsTransaction := none, cbHeader := 0, numMissing := 0 }

/-- The string `szInfo` for the Info column. -/
def szInfo (b0 pdut : Nat) (h : wtp_header) : List Radius.fmt_text :=
  [⟨"WTP %s", [Radius.fmt_arg.s (Radius.val_to_str pdut vals_pdu_type "Unknown PDU type 0x%x")]⟩] ++
  (match h.clsTransaction with
   | some cls => [⟨" Class %d", [Radius.fmt_arg.u cls]⟩]
   | none => []) ++
  (if retransmission_indicator b0 ≠ 0 then [⟨" R", []⟩] else [])

/-- The loop `do ... while (tCon)` that scans the TPIs after a fixed header of
`cbHeader` bytes: the length `vHeader` of the variable part; `none` when a
read throws.  Each round reads a byte further on, so that as many rounds as
there are bytes, and one, always do. -/
def tpi_scan (tvb : tvbuff_t) (cbHeader : Nat) : Nat → Nat → Option Nat
  | 0, _ => none
  | fuel + 1, vHeader =>
    match tvb_get_guint8 tvb (cbHeader + vHeader) with
    | none => none
    | some tByte =>
      if tByte &&& 0x04 ≠ 0 then
        match tvb_get_guint8 tvb (cbHeader + vHeader + 1) with
        | none => none
        | some len =>
          if tByte &&& 0x80 ≠ 0 then tpi_scan tvb cbHeader fuel (vHeader + len + 2)
          else some (vHeader + len + 2)
      else
        if tByte &&& 0x80 ≠ 0 then tpi_scan tvb cbHeader fuel (vHeader + (tByte &&& 0x03) + 1)
        else some (vHeader + (tByte &&& 0x03) + 1)

/-- The length `vHeader` of the variable part of the header. -/
def variable_header (tvb : tvbuff_t) (b0 cbHeader : Nat) : Option Nat :=
  if b0 &&& 0x80 ≠ 0 then tpi_scan tvb cbHeader (tvb.data.length + 1) 0 else some 0

/-- A call `proto_tree_add_item(wtp_tree, hf, tvb, start, length, ...)` for a
field whose value is read from the buffer; `none` when the read throws. -/
def add_item (tvb : tvbuff_t) (hf : String) (start length : Nat) : Option proto_node :=
  if tvb_bytes_readable tvb start length then
    some (proto_node.mk hf start length
      (Radius.field_value.bytes ((tvb.data.drop start).take length)) [] [])
  else none

/-- Calls of `add_item` one after the other: the items added, and whether a
call threw. -/
def add_items (tvb : tvbuff_t) : List (String × Nat × Nat) → List proto_node × Bool
  | [] => ([], false)
  | (hf, start, length) :: rest =>
    match add_item tvb hf start length with
    | none => ([], true)
    | some node => ((add_items tvb rest).1.cons node, (add_items tvb rest).2)

/-- The items for the continue flag and the PDU type and those of the second
`switch (pdut)` of `dissect_wtp_common`, with `offCur = 0`: field, start and
length of each, in order. -/
def header_fields (b0 pdut numMissing : Nat) : List (String × Nat × Nat) :=
  [("hf_wtp_header_flag_continue", 0, 1), ("hf_wtp_header_pdu_type", 0, 1)] ++
  (if pdut = INVOKE then
    [("hf_wtp_header_flag_Trailer", 0, 1), ("hf_wtp_header_flag_RID", 0, 1),
     ("hf_wtp_header_flag_TID_response", 1, 2), ("hf_wtp_header_flag_TID", 1, 2),
     ("hf_wtp_header_Inv_version", 3, 1), ("hf_wtp_header_Inv_flag_TIDNew", 3, 1),
     ("hf_wtp_header_Inv_flag_UP", 3, 1), ("hf_wtp_header_Inv_Reserved", 3, 1),
     ("hf_wtp_header_Inv_TransactionClass", 3, 1)]
  else if pdut = RESULT then
    [("hf_wtp_header_flag_Trailer", 0, 1), ("hf_wtp_header_flag_RID", 0, 1),
     ("hf_wtp_header_flag_TID_response", 1, 2), ("hf_wtp_header_flag_TID", 1, 2)]
  else if pdut = ACK then
    [("hf_wtp_header_Ack_flag_TVETOK", 0, 1), ("hf_wtp_header_flag_RID", 0, 1),
     ("hf_wtp_header_flag_TID_response", 1, 2), ("hf_wtp_header_flag_TID", 1, 2)]
  else if pdut = ABORT then
    [("hf_wtp_header_Abort_type", 0, 1), ("hf_wtp_header_flag_TID_response", 1, 2),
     ("hf_wtp_header_flag_TID", 1, 2)] ++
    (if b0 &&& 0x07 = PROVIDER then [("hf_wtp_header_Abort_reason_provider", 3, 1)]
     else if b0 &&& 0x07 = USER then [("hf_wtp_header_Abort_reason_user", 3, 1)]
     else [])
  else if pdut = SEGMENTED_INVOKE ∨ pdut = SEGMENTED_RESULT then
    [("hf_wtp_header_flag_Trailer", 0, 1), ("hf_wtp_header_flag_RID", 0, 1),
     ("hf_wtp_header_flag_TID_response", 1, 2), ("hf_wtp_header_flag_TID", 1, 2),
     ("hf_wtp_header_sequence_number", 3, 1)]
  else if pdut = NEGATIVE_ACK then
    [("hf_wtp_header_flag_RID", 0, 1), ("hf_wtp_header_flag_TID_response", 1, 2),
     ("hf_wtp_header_flag_TID", 1, 2), ("hf_wtp_header_missing_packets", 3, 1)] ++
    (List.range numMissing).map (fun i => ("hf_wtp_header_sequence_number", 0 + i, 1))
  else [])

/-- The item made by `proto_tree_add_bytes_format` for the variable part of
the header. -/
def variable_part_item (cbHeader vHeader : Nat) : proto_node :=
  proto_node.mk "hf_wtp_header_variable_part" cbHeader vHeader Radius.field_value.none
    [⟨"Header (Variable part) %02X %02X %02X %02X",
      [Radius.fmt_arg.u 0, Radius.fmt_arg.u 1, Radius.fmt_arg.u 2, Radius.fmt_arg.u 3]⟩] []

/-- The call `col_append_str(pinfo->cinfo, COL_INFO, ...)` under
`check_col`. -/
def col_append_info (cinfo : Radius.column_info) (text : List Radius.fmt_text) :
    Radius.column_info :=
  if cinfo.check_col_info then { cinfo with col_info := cinfo.col_info ++ text } else cinfo

end Wtp

namespace Wtp

/-- Whether the payload goes to reassembly: the condition of the `if` in the
hand-off of `dissect_wtp_common`. -/
def to_reassembly (pdut fTTR : Nat) : Bool :=
  decide (pdut = SEGMENTED_INVOKE ∨ pdut = SEGMENTED_RESULT ∨
    ((pdut = INVOKE ∨ pdut = RESULT) ∧ fTTR = 0))

/-- The hand-off at the end of `dissect_wtp_common`, for a payload of
`dataLen` bytes at `dataOffset`: the state afterwards, the items added to
`wtp_tree`, the items added to `tree`, and whether the WSP dissector threw. -/
def wtp_handoff {τ : Type} (env : wtp_env τ) (tvb : tvbuff_t) (st : wtp_state τ) (tree : Bool)
    (pdut : Nat) (h : wtp_header) (info : List Radius.fmt_text) (dataOffset dataLen : Nat) :
    wtp_state τ × List proto_node × List proto_node × Bool :=
  if to_reassembly pdut h.fTTR then
    let save_fragmented := st.pinfo.fragmented
    let pinfo1 : packet_info := { st.pinfo with fragmented := true }
    let r := env.fragment_add_seq st.wtp_fragment_table tvb dataOffset pinfo1 h.TID h.psn dataLen
      (decide (h.fTTR = 0))
    let call : fragment_add_seq_call :=
      { tvb := tvb, offset := dataOffset, id := h.TID, frag_number := h.psn,
        frag_data_len := dataLen, more_frags := decide (h.fTTR = 0) }
    match r.2 with
    | some fd_head =>
      let wsp_tvb := tvb_new_real_data fd_head.data fd_head.len fd_head.len
      let shown := show_fragments wsp_tvb pinfo1.cinfo tree fd_head
      let pinfo2 : packet_info := { pinfo1 with fragmented := false, cinfo := shown.2 }
      let w := env.wsp_handle wsp_tvb pinfo2 tree
      ({ pinfo := { pinfo2 with cinfo := w.cinfo,
                                fragmented := if w.exn then false else save_fragmented },
         wtp_fragment_table := r.1, data_sources := st.data_sources ++ [wsp_tvb],
         reassembly := st.reassembly ++ [call],
         wsp_calls := st.wsp_calls ++ [⟨wsp_tvb, false, tree⟩] },
       shown.1.toList, w.nodes, w.exn)
    | none =>
      ({ pinfo := { pinfo1 with cinfo := col_append_info pinfo1.cinfo info,
                                fragmented := save_fragmented },
         wtp_fragment_table := r.1, data_sources := st.data_sources,
         reassembly := st.reassembly ++ [call], wsp_calls := st.wsp_calls },
       [], [], false)
  else
    match tvb_new_subset tvb dataOffset dataLen with
    | none => (st, [], [], true)
    | some wsp_tvb =>
      let w := env.wsp_handle wsp_tvb st.pinfo tree
      ({ st with pinfo := { st.pinfo with cinfo := w.cinfo },
                 wsp_calls := st.wsp_calls ++ [⟨wsp_tvb, st.pinfo.fragmented, tree⟩] },
       [], w.nodes, w.exn)

/-- The item for the protocol, with its subtree. -/
def wtp_item (length : Nat) (children : List proto_node) : proto_node :=
  proto_node.mk "proto_wtp" 0 length Radius.field_value.none [] children

/-- The function `dissect_wtp_common` for a PDU whose first byte `b0` is not
zero. -/
def dissect_wtp_pdu {τ : Type} (env : wtp_env τ) (tvb : tvbuff_t) (st : wtp_state τ)
    (tree : Bool) (b0 : Nat) : wtp_out τ :=
  let pdut := pdu_type b0
  match wtp_switch tvb b0 pdut with
  | none => { state := st, nodes := [], exit := wtp_exit.thrown }
  | some h =>
    let info := szInfo b0 pdut h
    match variable_header tvb b0 h.cbHeader with
    | none => { state := st, nodes := [], exit := wtp_exit.thrown }
    | some vHeader =>
      let remaining := tvb_length_remaining tvb (h.cbHeader + vHeader)
      let cinfo1 :=
        if remaining ≤ 0 then col_append_info st.pinfo.cinfo info else st.pinfo.cinfo
      let st1 : wtp_state τ := { st with pinfo := { st.pinfo with cinfo := cinfo1 } }
      let items := if tree then add_items tvb (header_fields b0 pdut h.numMissing) else ([], false)
      let variable_part :=
        if tree ∧ b0 &&& 0x80 ≠ 0 then [variable_part_item h.cbHeader vHeader] else []
      if items.2 then
        { state := st1, nodes := [wtp_item (h.cbHeader + vHeader) items.1],
          exit := wtp_exit.thrown }
      else if 0 < remaining then
        let out := wtp_handoff env tvb st1 tree pdut h info (h.cbHeader + vHeader) remaining.toNat
        { state := out.1,
          nodes :=
            (if tree then
               [wtp_item (h.cbHeader + vHeader) (items.1 ++ variable_part ++ out.2.1)]
             else []) ++ out.2.2.1,
          exit := if out.2.2.2 then wtp_exit.thrown else wtp_exit.returned }
      else
        { state := st1,
          nodes :=
            if tree then [wtp_item (h.cbHeader + vHeader) (items.1 ++ variable_part)] else [],
          exit := wtp_exit.returned }

/-- The size of a sub-PDU of concatenated PDUs, read at `offCur`: `vHeader`
and `cbHeader`; `none` when a read throws. -/
def sub_pdu_size (tvb : tvbuff_t) (offCur : Nat) : Option (Nat × Nat) :=
  match tvb_get_guint8 tvb offCur with
  | none => none
  | some b0 =>
    if b0 &&& 0x80 ≠ 0 then
      match tvb_get_guint8 tvb (offCur + 1) with
      | none => none
      | some b1 => some (2, ((b0 &&& 0x7f) <<< 8) ||| b1)
    else some (1, b0)

/-- The loop `while (offCur < (int) tvb_reported_length (tvb))` over
concatenated PDUs; `dissect` is `dissect_wtp_common` for the sub-PDUs and
`children` holds the items added to `wtp_tree` so far. -/
def concatenated_loop {τ : Type} (dissect : tvbuff_t → wtp_state τ → Bool → wtp_out τ)
    (tvb : tvbuff_t) (tree : Bool) :
    Nat → Nat → Nat → wtp_state τ → List proto_node → wtp_state τ × List proto_node × wtp_exit
  | 0, _, _, st, children => (st, children, wtp_exit.no_fuel)
  | fuel + 1, offCur, i, st, children =>
    if offCur < tvb.reported_length then
      match sub_pdu_size tvb offCur with
      | none => (st, children, wtp_exit.thrown)
      | some (vHeader, cbHeader) =>
        match (if tree then (add_item tvb "hf_wtp_header_sub_pdu_size" offCur vHeader).map
                 (fun n => [n]) else some []) with
        | none => (st, children, wtp_exit.thrown)
        | some size_item =>
          let cinfo1 :=
            if 1 < i then col_append_info st.pinfo.cinfo [⟨", ", []⟩] else st.pinfo.cinfo
          let st1 : wtp_state τ := { st with pinfo := { st.pinfo with cinfo := cinfo1 } }
          match tvb_new_subset tvb (offCur + vHeader) cbHeader with
          | none => (st1, children ++ size_item, wtp_exit.thrown)
          | some wsp_tvb =>
            let out := dissect wsp_tvb st1 tree
            if out.exit = wtp_exit.returned then
              concatenated_loop dissect tvb tree fuel (offCur + vHeader + cbHeader) (i + 1)
                out.state (children ++ size_item ++ out.nodes)
            else (out.state, children ++ size_item ++ out.nodes, out.exit)
    else (st, children, wtp_exit.returned)

/-- The function `dissect_wtp_common`, with fuel for the nesting of
concatenated PDUs. -/
def dissect_wtp_common_fuel {τ : Type} (env : wtp_env τ) :
    Nat → tvbuff_t → wtp_state τ → Bool → wtp_out τ
  | 0, _, st, _ => { state := st, nodes := [], exit := wtp_exit.no_fuel }
  | fuel + 1, tvb, st, tree =>
    match tvb_get_guint8 tvb 0 with
    | none => { state := st, nodes := [], exit := wtp_exit.thrown }
    | some b0 =>
      if b0 = 0 then
        let out := concatenated_loop (dissect_wtp_common_fuel env fuel) tvb tree
          (tvb.data.length + 1) 1 1 st []
        { state := out.1, nodes := if tree then [wtp_item 1 out.2.1] else [], exit := out.2.2 }
      else dissect_wtp_pdu env tvb st tree b0

/-- The function `dissect_wtp_common`.  A sub-PDU has at least two bytes
fewer than the PDU that holds it, so the nesting is less deep than the buffer
is long. -/
def dissect_wtp_common {τ : Type} (env : wtp_env τ) (tvb : tvbuff_t) (st : wtp_state τ)
    (tree : Bool) : wtp_out τ :=
  dissect_wtp_common_fuel env (tvb.data.length + 1) tvb st tree

end Wtp

namespace Wtp

/-- A reassembly table that counts the fragments it was given and completes a
message with the fragment that has no more fragments after it, and a WSP
dissector that adds nothing. -/
def sample_env : wtp_env Nat :=
  { fragment_add_seq := fun table tvb offset pinfo _ _ frag_data_len more_frags =>
      (table + 1,
       if more_frags then none
       else some { flags := 0, len := frag_data_len,
                   data := (tvb.data.drop offset).take frag_data_len,
                   next := [⟨pinfo.fd_num, 0, frag_data_len, 0⟩] }),
    wsp_handle := fun _ pinfo _ => { cinfo := pinfo.cinfo, nodes := [], exn := false } }

/-- A state before the first PDU of frame 1. -/
def sample_state : wtp_state Nat :=
  { pinfo := { fd_num := 1, cinfo := ⟨true, true, [], []⟩, fragmented := false },
    wtp_fragment_table := 0, data_sources := [], reassembly := [], wsp_calls := [] }

end Wtp

namespace UsbHub

/-! ## USB hub class requests (packet-usb-hub.c) -/

/-- Modelled from the spec: packet-usb.h is not among the sources; the source
port of a packet that the host sends. -/
def NO_ENDPOINT : Nat := 0xffffffff

/-- Modelled from the spec: direction bit of `bmRequestType`, host to
device. -/
def USB_DIR_OUT : Nat := 0

/-- Modelled from the spec: direction bit of `bmRequestType`, device to
host. -/
def USB_DIR_IN : Nat := 0x80

/-- Modelled from the spec: the request type "class". -/
def RQT_SETUP_TYPE_CLASS : Nat := 1

/-- Modelled from the spec: the recipient "device". -/
def RQT_SETUP_RECIPIENT_DEVICE : Nat := 0

/-- Modelled from the spec: the recipient "other". -/
def RQT_SETUP_RECIPIENT_OTHER : Nat := 3

def USB_HUB_REQUEST_GET_STATUS : Nat := 0
def USB_HUB_REQUEST_CLEAR_FEATURE : Nat := 1
def USB_HUB_REQUEST_SET_FEATURE : Nat := 3
def USB_HUB_REQUEST_GET_DESCRIPTOR : Nat := 6
def USB_HUB_REQUEST_SET_DESCRIPTOR : Nat := 7
def USB_HUB_REQUEST_CLEAR_TT_BUFFER : Nat := 8
def USB_HUB_REQUEST_RESET_TT : Nat := 9
def USB_HUB_REQUEST_GET_TT_STATE : Nat := 10
def USB_HUB_REQUEST_STOP_TT : Nat := 11

/-- The table `setup_request_names_vals`. -/
def setup_request_names_vals (v : Nat) : Option String :=
  if v = USB_HUB_REQUEST_GET_STATUS then some "GET_STATUS"
  else if v = USB_HUB_REQUEST_CLEAR_FEATURE then some "CLEAR_FEATURE"
  else if v = USB_HUB_REQUEST_SET_FEATURE then some "SET_FEATURE"
  else if v = USB_HUB_REQUEST_GET_DESCRIPTOR then some "GET_DESCRIPTOR"
  else if v = USB_HUB_REQUEST_SET_DESCRIPTOR then some "SET_DESCRIPTOR"
  else if v = USB_HUB_REQUEST_CLEAR_TT_BUFFER then some "CLEAR_TT_BUFFER"
  else if v = USB_HUB_REQUEST_GET_TT_STATE then some "GET_TT_STATE"
  else if v = USB_HUB_REQUEST_STOP_TT then some "STOP_TT"
  else none

/-- One statement of a setup dissector.  `item` is
`proto_tree_add_item(tree, hf, tvb, offset, length, TRUE)`, with `assign` when
the result is assigned to the variable `item`; `sub` is
`proto_item_add_subtree(item, ...)` followed by
`proto_tree_add_item(subtree, hf, tvb, offset, length, TRUE)`.  The offsets
count from the argument `offset` of the dissector. -/
inductive tree_op where
  | item (hf : String) (offset length : Nat) (assign : Bool)
  | sub (hf : String) (offset length : Nat)
  deriving DecidableEq, Repr

/-- The end of the bytes that a statement reads. -/
def tree_op.extent : tree_op → Nat
  | tree_op.item _ offset length _ => offset + length
  | tree_op.sub _ offset length => offset + length

/-- The items added to `tree` so far and the position among them of the one
that the variable `item` points to. -/
structure tree_state where
  nodes : List Wtp.proto_node
  item : Option Nat

/-- An item added below the item at a position. -/
def add_child (nodes : List Wtp.proto_node) (i : Nat) (child : Wtp.proto_node) :
    List Wtp.proto_node :=
  match nodes[i]? with
  | some (Wtp.proto_node.mk hf start length value text children) =>
    nodes.set i (Wtp.proto_node.mk hf start length value text (children ++ [child]))
  | none => nodes

/-- The item that `proto_tree_add_item` makes of the bytes of a field. -/
def field_item (tvb : Radius.tvbuff_t) (hf : String) (start length : Nat) : Wtp.proto_node :=
  Wtp.proto_node.mk hf start length (Radius.field_value.bytes ((tvb.drop start).take length))
    [] []

/-- The statements of a setup dissector one after the other, with a tree: the
items afterwards, and whether a read was out of bounds and threw. -/
def run_ops (tvb : Radius.tvbuff_t) (offset : Nat) :
    List tree_op → tree_state → tree_state × Bool
  | [], st => (st, false)
  | tree_op.item hf o length assign :: rest, st =>
    if offset + o + length ≤ tvb.length then
      run_ops tvb offset rest
        { nodes := st.nodes ++ [field_item tvb hf (offset + o) length],
          item := if assign then some st.nodes.length else st.item }
    else (st, true)
  | tree_op.sub hf o length :: rest, st =>
    if offset + o + length ≤ tvb.length then
      run_ops tvb offset rest
        { st with
          nodes :=
            match st.item with
            | some i => add_child st.nodes i (field_item tvb hf (offset + o) length)
            | none => st.nodes }
    else (st, true)

/-- What a setup dissector leaves behind: the items added to `tree` and
whether it threw. -/
structure setup_out where
  nodes : List Wtp.proto_node
  exn : Bool

/-- The common shape of the setup dissectors: nothing for a response, nothing
without a tree, and the statements given for a request. -/
def setup_request (ops : List tree_op) (tree : Bool) (tvb : Radius.tvbuff_t) (offset : Nat)
    (is_request : Bool) : setup_out :=
  if is_request ∧ tree then
    { nodes := (run_ops tvb offset ops { nodes := [], item := none }).1.nodes,
      exn := (run_ops tvb offset ops { nodes := [], item := none }).2 }
  else { nodes := [], exn := false }

/-- The type `usb_setup_dissector`, without the arguments that no dissector
uses. -/
abbrev usb_setup_dissector := Bool → Radius.tvbuff_t → Nat → Bool → setup_out

def dissect_usb_hub_clear_hub_feature : usb_setup_dissector :=
  setup_request
    [tree_op.item "hf_usb_hub_value" 0 2 true, tree_op.sub "hf_usb_hub_hub_feature_selector" 0 2,
     tree_op.item "hf_usb_hub_index" 2 2 true, tree_op.sub "hf_usb_hub_zero" 2 2,
     tree_op.item "hf_usb_hub_length" 4 2 true, tree_op.sub "hf_usb_hub_zero" 4 2]

def dissect_usb_hub_clear_port_feature : usb_setup_dissector :=
  setup_request
    [tree_op.item "hf_usb_hub_value" 0 2 true, tree_op.sub "hf_usb_hub_port_feature_selector" 0 2,
     tree_op.item "hf_usb_hub_index" 2 2 true, tree_op.sub "hf_usb_hub_port" 2 1,
     tree_op.sub "hf_usb_hub_port_selector" 3 1,
     tree_op.item "hf_usb_hub_length" 4 2 true, tree_op.sub "hf_usb_hub_zero" 4 2]

/-- The function `dissect_usb_hub_clear_tt_buffer`; it does not assign the
items for `wIndex` and `wLength`, so their fields go below the item for
`wValue`. -/
def dissect_usb_hub_clear_tt_buffer : usb_setup_dissector :=
  setup_request
    [tree_op.item "hf_usb_hub_value" 0 2 true, tree_op.sub "hf_usb_hub_ep_num" 0 1,
     tree_op.sub "hf_usb_hub_dev_addr" 1 1,
     tree_op.item "hf_usb_hub_index" 2 2 false, tree_op.sub "hf_usb_hub_tt_port" 2 2,
     tree_op.item "hf_usb_hub_length" 4 2 false, tree_op.sub "hf_usb_hub_zero" 4 2]

def dissect_usb_hub_get_hub_descriptor : usb_setup_dissector :=
  setup_request
    [tree_op.item "hf_usb_hub_value" 0 2 true, tree_op.sub "hf_usb_hub_descriptor_index" 0 1,
     tree_op.sub "hf_usb_hub_descriptor_type" 1 1,
     tree_op.item "hf_usb_hub_index" 2 2 true, tree_op.sub "hf_usb_hub_zero" 2 2,
     tree_op.item "hf_usb_hub_length" 4 2 true, tree_op.sub "hf_usb_hub_descriptor_length" 4 2]

def dissect_usb_hub_get_hub_status : usb_setup_dissector :=
  setup_request
    [tree_op.item "hf_usb_hub_value" 0 2 true, tree_op.sub "hf_usb_hub_zero" 0 2,
     tree_op.item "hf_usb_hub_index" 2 2 true, tree_op.sub "hf_usb_hub_zero" 2 2,
     tree_op.item "hf_usb_hub_length" 4 2 false]

def dissect_usb_hub_get_port_status : usb_setup_dissector :=
  setup_request
    [tree_op.item "hf_usb_hub_value" 0 2 true, tree_op.sub "hf_usb_hub_zero" 0 2,
     tree_op.item "hf_usb_hub_index" 2 2 true, tree_op.sub "hf_usb_hub_port" 2 2,
     tree_op.item "hf_usb_hub_length" 4 2 false]

def dissect_usb_hub_get_tt_state : usb_setup_dissector :=
  setup_request
    [tree_op.item "hf_usb_hub_value" 0 2 true, tree_op.sub "hf_usb_hub_tt_flags" 0 1,
     tree_op.item "hf_usb_hub_index" 2 2 true, tree_op.sub "hf_usb_hub_tt_port" 2 1,
     tree_op.item "hf_usb_hub_length" 4 2 true, tree_op.sub "hf_usb_hub_tt_state_length" 4 1]

def dissect_usb_hub_reset_tt : usb_setup_dissector :=
  setup_request
    [tree_op.item "hf_usb_hub_value" 0 2 true, tree_op.sub "hf_usb_hub_zero" 0 1,
     tree_op.item "hf_usb_hub_index" 2 2 true, tree_op.sub "hf_usb_hub_tt_port" 2 1,
     tree_op.item "hf_usb_hub_length" 4 2 true, tree_op.sub "hf_usb_hub_zero" 4 1]

def dissect_usb_hub_set_hub_descriptor : usb_setup_dissector :=
  setup_request
    [tree_op.item "hf_usb_hub_value" 0 2 true, tree_op.sub "hf_usb_hub_descriptor_index" 0 1,
     tree_op.sub "hf_usb_hub_descriptor_type" 1 1,
     tree_op.item "hf_usb_hub_index" 2 2 true, tree_op.sub "hf_usb_hub_zero" 2 2,
     tree_op.item "hf_usb_hub_length" 4 2 true, tree_op.sub "hf_usb_hub_descriptor_length" 4 2]

def dissect_usb_hub_stop_tt : usb_setup_dissector :=
  setup_request
    [tree_op.item "hf_usb_hub_value" 0 2 true, tree_op.sub "hf_usb_hub_zero" 0 1,
     tree_op.item "hf_usb_hub_index" 2 2 true, tree_op.sub "hf_usb_hub_tt_port" 2 2,
     tree_op.item "hf_usb_hub_length" 4 2 true, tree_op.sub "hf_usb_hub_zero" 4 2]

def dissect_usb_hub_set_hub_feature : usb_setup_dissector :=
  setup_request
    [tree_op.item "hf_usb_hub_value" 0 2 true, tree_op.sub "hf_usb_hub_hub_feature_selector" 0 2,
     tree_op.item "hf_usb_hub_index" 2 2 true, tree_op.sub "hf_usb_hub_zero" 2 2,
     tree_op.item "hf_usb_hub_length" 4 2 true, tree_op.sub "hf_usb_hub_zero" 4 2]

def dissect_usb_hub_set_port_feature : usb_setup_dissector :=
  setup_request
    [tree_op.item "hf_usb_hub_value" 0 2 true, tree_op.sub "hf_usb_hub_port_feature_selector" 0 2,
     tree_op.item "hf_usb_hub_index" 2 2 true, tree_op.sub "hf_usb_hub_port" 2 1,
     tree_op.sub "hf_usb_hub_port_selector" 3 1,
     tree_op.item "hf_usb_hub_length" 4 2 true, tree_op.sub "hf_usb_hub_zero" 4 2]

/-- The struct `usb_setup_dissector_table_t`. -/
structure usb_setup_dissector_table_t where
  request_type : Nat
  request : Nat
  dissector : usb_setup_dissector

/-- The table `setup_dissectors`, without the entry that ends it. -/
def setup_dissectors : List usb_setup_dissector_table_t :=
  [⟨USB_DIR_OUT ||| (RQT_SETUP_TYPE_CLASS <<< 5) ||| RQT_SETUP_RECIPIENT_DEVICE,
    USB_HUB_REQUEST_CLEAR_FEATURE, dissect_usb_hub_clear_hub_feature⟩,
   ⟨USB_DIR_OUT ||| (RQT_SETUP_TYPE_CLASS <<< 5) ||| RQT_SETUP_RECIPIENT_OTHER,
    USB_HUB_REQUEST_CLEAR_FEATURE, dissect_usb_hub_clear_port_feature⟩,
   ⟨USB_DIR_OUT ||| (RQT_SETUP_TYPE_CLASS <<< 5) ||| RQT_SETUP_RECIPIENT_OTHER,
    USB_HUB_REQUEST_CLEAR_TT_BUFFER, dissect_usb_hub_clear_tt_buffer⟩,
   ⟨USB_DIR_IN ||| (RQT_SETUP_TYPE_CLASS <<< 5) ||| RQT_SETUP_RECIPIENT_DEVICE,
    USB_HUB_REQUEST_GET_DESCRIPTOR, dissect_usb_hub_get_hub_descriptor⟩,
   ⟨USB_DIR_IN ||| (RQT_SETUP_TYPE_CLASS <<< 5) ||| RQT_SETUP_RECIPIENT_DEVICE,
    USB_HUB_REQUEST_GET_STATUS, dissect_usb_hub_get_hub_status⟩,
   ⟨USB_DIR_IN ||| (RQT_SETUP_TYPE_CLASS <<< 5) ||| RQT_SETUP_RECIPIENT_OTHER,
    USB_HUB_REQUEST_GET_STATUS, dissect_usb_hub_get_port_status⟩,
   ⟨USB_DIR_OUT ||| (RQT_SETUP_TYPE_CLASS <<< 5) ||| RQT_SETUP_RECIPIENT_OTHER,
    USB_HUB_REQUEST_RESET_TT, dissect_usb_hub_reset_tt⟩,
   ⟨USB_DIR_OUT ||| (RQT_SETUP_TYPE_CLASS <<< 5) ||| RQT_SETUP_RECIPIENT_DEVICE,
    USB_HUB_REQUEST_SET_DESCRIPTOR, dissect_usb_hub_set_hub_descriptor⟩,
   ⟨USB_DIR_OUT ||| (RQT_SETUP_TYPE_CLASS <<< 5) ||| RQT_SETUP_RECIPIENT_DEVICE,
    USB_HUB_REQUEST_SET_FEATURE, dissect_usb_hub_set_hub_feature⟩,
   ⟨USB_DIR_OUT ||| (RQT_SETUP_TYPE_CLASS <<< 5) ||| RQT_SETUP_RECIPIENT_OTHER,
    USB_HUB_REQUEST_SET_FEATURE, dissect_usb_hub_set_port_feature⟩,
   ⟨USB_DIR_IN ||| (RQT_SETUP_TYPE_CLASS <<< 5) ||| RQT_SETUP_RECIPIENT_OTHER,
    USB_HUB_REQUEST_GET_TT_STATE, dissect_usb_hub_get_tt_state⟩,
   ⟨USB_DIR_OUT ||| (RQT_SETUP_TYPE_CLASS <<< 5) ||| RQT_SETUP_RECIPIENT_OTHER,
    USB_HUB_REQUEST_STOP_TT, dissect_usb_hub_stop_tt⟩]

/-- The struct `usb_trans_info_t`, with the members that the lookup reads. -/
structure usb_trans_info_t where
  requesttype : Nat
  request : Nat
  deriving DecidableEq, Repr

/-- The members of `packet_info` that `dissect_usb_hub_control` uses. -/
structure packet_info where
  srcport : Nat
  cinfo : Radius.column_info
  usb_trans_info : usb_trans_info_t
  deriving DecidableEq, Repr

/-- The loop over `setup_dissectors`: the dissector of the first entry with
the request type and the request, `none` for `NULL`. -/
def find_dissector (table : List usb_setup_dissector_table_t) (usb_trans_info : usb_trans_info_t) :
    Option usb_setup_dissector :=
  match table with
  | [] => none
  | tmp :: rest =>
    if tmp.request_type = usb_trans_info.requesttype ∧ tmp.request = usb_trans_info.request then
      some tmp.dissector
    else find_dissector rest usb_trans_info

/-- The outcome of `dissect_usb_hub_control`: the value returned, `none` when
an exception ends the function instead; the columns; and the items added to
`tree`. -/
structure control_out where
  ret : Option Bool
  cinfo : Radius.column_info
  nodes : List Wtp.proto_node

/-- The function `dissect_usb_hub_control`. -/
def dissect_usb_hub_control (tvb : Radius.tvbuff_t) (pinfo : packet_info) (tree : Bool) :
    control_out :=
  let is_request := decide (pinfo.srcport = NO_ENDPOINT)
  let usb_trans_info := pinfo.usb_trans_info
  match find_dissector setup_dissectors usb_trans_info with
  | none => { ret := some false, cinfo := pinfo.cinfo, nodes := [] }
  | some dissector =>
    let cinfo1 : Radius.column_info :=
      { pinfo.cinfo with
        col_protocol :=
          if pinfo.cinfo.check_col_protocol then [⟨"USBHUB", []⟩] else pinfo.cinfo.col_protocol }
    let cinfo2 : Radius.column_info :=
      { cinfo1 with
        col_info :=
          if cinfo1.check_col_info then
            [⟨"%s %s",
              [Radius.fmt_arg.s
                 (Radius.val_to_str usb_trans_info.request setup_request_names_vals
                   "Unknown type %x"),
               Radius.fmt_arg.s (if is_request then "Request" else "Response")]⟩]
          else cinfo1.col_info }
    if is_request ∧ tree ∧ ¬ (0 + 1 ≤ tvb.length) then
      { ret := none, cinfo := cinfo2, nodes := [] }
    else
      let request_item :=
        if is_request ∧ tree then [field_item tvb "hf_usb_hub_request" 0 1] else []
      let offset := if is_request then 1 else 0
      let out := dissector tree tvb offset is_request
      { ret := if out.exn then none else some true, cinfo := cinfo2,
        nodes := request_item ++ out.nodes }

end UsbHub

namespace UsbHub

/-- The packet info of a ClearHubFeature request that the host sends, with
both columns writable and empty. -/
def sample_pinfo : packet_info :=
  { srcport := NO_ENDPOINT, cinfo := ⟨true, true, [], []⟩,
    usb_trans_info := { requesttype := 0x20, request := USB_HUB_REQUEST_CLEAR_FEATURE } }

end UsbHub

namespace AnsiTcap

/-! ## ANSI TCAP: the choice of the subdissector -/

/-- What the ANSI MAP dissector leaves behind when called through
`call_dissector(ansi_map_handle, ...)`: the items it added and whether it
threw. -/
structure ansi_map_out where
  nodes : List Wtp.proto_node
  exn : Bool

/-- The outcome of `find_tcap_subdisector`: the value returned, `none` when
the ANSI MAP dissector throws; the items added to `tree`; and the buffers on
which the ANSI MAP dissector was called. -/
structure subdisector_out where
  ret : Option Bool
  nodes : List Wtp.proto_node
  ansi_map_calls : List Radius.tvbuff_t

/-- An item made by `proto_tree_add_text(tree, tvb, 0, -1, fmt, code)` with a
`%u` for the code. -/
def not_implemented_item (fmt : String) (code : Int) : Wtp.proto_node :=
  Wtp.proto_node.mk "text" 0 (-1) Radius.field_value.none
    [⟨fmt, [Radius.fmt_arg.u (File.to_guint32 code)]⟩] []

/-- The function `find_tcap_subdisector`, with the ANSI MAP dissector as a
parameter.  The mask is applied to the bits of the `gint32`. -/
def find_tcap_subdisector (ansi_map_handle : Radius.tvbuff_t → Bool → ansi_map_out)
    (s : tcap_statics) (tvb : Radius.tvbuff_t) (tree : Bool) : subdisector_out :=
  if s.ansi_tcap_private.d.OperationCode = 0 then
    { ret := some false,
      nodes :=
        if tree then
          [not_implemented_item
            "Dissector for ANSI TCAP NATIONAL code:%u not implemented. Contact Wireshark developers if you want this supported"
            s.ansi_tcap_private.d.OperationCode_national]
        else [],
      ansi_map_calls := [] }
  else if s.ansi_tcap_private.d.OperationCode = 1 ∧
      File.to_guint32 s.ansi_tcap_private.d.OperationCode_private &&& 0x0900 ≠ 0x0900 then
    { ret := some false,
      nodes :=
        if tree then
          [not_implemented_item
            "Dissector for ANSI TCAP PRIVATE code:%u not implemented. Contact Wireshark developers if you want this supported"
            s.ansi_tcap_private.d.OperationCode_private]
        else [],
      ansi_map_calls := [] }
  else
    { ret := if (ansi_map_handle tvb tree).exn then none else some false,
      nodes := (ansi_map_handle tvb tree).nodes,
      ansi_map_calls := [tvb] }

/-- The operation family of a private operation code: its high-order byte. -/
def operation_family (OperationCode_private : Int) : Nat :=
  File.to_guint32 OperationCode_private / 256 % 256

/-- The statics after a component with a private operation code was
decoded. -/
def statics_with_private_code (OperationCode_private : Int) : tcap_statics :=
  { ansi_tcap_private :=
      { ansi_tcap_private_zero with
        signature := ANSI_TCAP_CTX_SIGNATURE,
        d := { pdu := 1, OperationCode := 1, OperationCode_national := 0,
               OperationCode_private := OperationCode_private, OperationCode_item := none } },
    gp_tcapsrt_info := 0, tcap_subdissector_used := false,
    requested_subdissector_handle := none, gp_tcap_context := none, cur_oid := none,
    tcapext_oid := none, tcap_top_tree := some 1, tcap_stat_tree := some 1,
    tcap_stat_item := some 1 }

/-- An ANSI MAP dissector that adds one item and does not throw. -/
def sample_ansi_map : Radius.tvbuff_t → Bool → ansi_map_out :=
  fun _ tree =>
    { nodes :=
        if tree then [Wtp.proto_node.mk "proto_ansi_map" 0 (-1) Radius.field_value.none [] []]
        else [],
      exn := false }

end AnsiTcap

namespace File

/-! ## Going to a frame by its number -/

/-- The enum `goto_result_t` (file.h). -/
inductive goto_result_t where
  | NO_SUCH_FRAME
  | FRAME_NOT_DISPLAYED
  | FOUND_FRAME
  deriving DecidableEq, Repr

/-- The loop `for (fd = cf->plist; fd != NULL && fd->num < fnumber;
fd = fd->next)` of `goto_frame`: the value of `fd` at its end, `some none` for
`NULL`, and `none` when the fuel does not reach the end. -/
def goto_frame_loop (frames : List frame_data) (fnumber : Nat) :
    Nat → Option Nat → Option (Option frame_data)
  | 0, _ => none
  | _ + 1, none => some none
  | fuel + 1, some p =>
    match frames[p]? with
    | some fd => if fd.num < fnumber then goto_frame_loop frames fnumber fuel fd.next
                 else some (some fd)
    | none => some none

/-- The outcome of `goto_frame`: the value returned, `none` when the walk
along the list does not end, and the row selected in the packet list, if
any. -/
structure goto_out where
  result : Option goto_result_t
  focus_row : Option Int
  deriving DecidableEq, Repr

/-- The function `goto_frame`.  A list without a cycle has at most as many
frames as the memory holds, so the fuel given reaches its end. -/
def goto_frame (cf : capture_file) (fnumber : Nat) : goto_out :=
  match goto_frame_loop cf.frames fnumber (cf.frames.length + 1) cf.plist with
  | none => { result := none, focus_row := none }
  | some none => { result := some goto_result_t.NO_SUCH_FRAME, focus_row := none }
  | some (some fd) =>
    if ¬ fd.passed_dfilter then
      { result := some goto_result_t.FRAME_NOT_DISPLAYED, focus_row := none }
    else { result := some goto_result_t.FOUND_FRAME, focus_row := some fd.row }

/-- The capture file after the four sample records were read without a read
filter and without a display filter: four frames, all displayed. -/
def sample_capture_file : capture_file :=
  wtap_loop (open_cap_file stale_capture_file) sample_records

/-- A display filter that lets pass the frames captured at an even second. -/
def sample_filtered_capture_file : capture_file :=
  wtap_loop { open_cap_file stale_capture_file with dfcode := some even_second_filter }
    sample_records

end File

namespace File

/-! ## A pass over the packets -/

/-- One round of a pass: `add_packet_to_packet_list` for the frame at an
address with its bytes; the capture file afterwards, and the frames as the
pass has left them so far. -/
def pass_step (acc : capture_file × List frame_data) (x : Nat × frame_data × List Nat) :
    capture_file × List frame_data :=
  ((add_packet_to_packet_list x.1 x.2.1 acc.1 x.2.2).2,
   acc.2 ++ [(add_packet_to_packet_list x.1 x.2.1 acc.1 x.2.2).1])

/-- Rounds of a pass, one after the other. -/
def pass_from (acc : capture_file × List frame_data) (packets : List (Nat × frame_data × List Nat)) :
    capture_file × List frame_data :=
  packets.foldl pass_step acc

/-- A pass over packets, as `colorize_packets` makes it over the frames of
the list and as the reading of a file makes it after `open_cap_file`: the
statics `firstsec`, `firstusec`, `prevsec` and `prevusec` are cleared, then
`add_packet_to_packet_list` is called for each packet in turn. -/
def pass (cf : capture_file) (packets : List (Nat × frame_data × List Nat)) :
    capture_file × List frame_data :=
  pass_from ({ cf with firstsec := 0, firstusec := 0, prevsec := 0, prevusec := 0 }, []) packets

/-- The absolute time of a frame in microseconds. -/
def abs_time (fd : frame_data) : Nat := fd.abs_secs * 1000000 + fd.abs_usecs

/-- The frame displayed last among the frames given, if any was displayed. -/
def last_shown (frames : List frame_data) : Option frame_data :=
  (frames.filter (fun fd => fd.passed_dfilter)).getLast?

/-- A frame read from a file, captured at a time in seconds and
microseconds. -/
def frame_at (num secs usecs : Nat) : Nat × frame_data × List Nat :=
  (num - 1,
   { blank_frame with next := none, prev := none, num := num, abs_secs := secs,
                      abs_usecs := usecs },
   [])

end File

namespace File

/-- A pass of two packets: the first captured at time zero, the second five
seconds later. -/
def packets_from_zero : List (Nat × frame_data × List Nat) :=
  [frame_at 1 0 0, frame_at 2 5 0]

/-- A pass of three packets captured at 10 s, 20 s and 15 s: the third has an
earlier time than the second. -/
def packets_out_of_order : List (Nat × frame_data × List Nat) :=
  [frame_at 1 10 0, frame_at 2 20 0, frame_at 3 15 0]

end File

namespace Radius

/-! ## Ports -/

def UDP_PORT_RADIUS : Nat := 1645
def UDP_PORT_RADIUS_NEW : Nat := 1812
def UDP_PORT_RADACCT : Nat := 1646
def UDP_PORT_RADACCT_NEW : Nat := 1813

/-- The dissector tables (epan/packet.c), which are not among the sources,
over their type `ρ`: `dissector_add` and `dissector_delete` with their
arguments in the order of the source (table name, pattern, handle), and the
lookup of the handle registered in a table for a pattern. -/
structure dissector_api (ρ : Type) where
  dissector_add : ρ → String → Nat → String → ρ
  dissector_delete : ρ → String → Nat → String → ρ
  dissector_get_port_handle : ρ → String → Nat → Option String

/-- Modelled from the spec: the contract of the registry.  A key has at most
one decoder in a table: after `register(table, key, decoder)` the lookup of
the key gives the decoder, after `deregister(table, key)` it gives none, and
neither changes the lookup of another key or in another table. -/
def registry_contract {ρ : Type} (api : dissector_api ρ) : Prop :=
  (∀ t name pattern handle,
    api.dissector_get_port_handle (api.dissector_add t name pattern handle) name pattern =
      some handle) ∧
  (∀ t name pattern handle name2 pattern2, ¬ (name2 = name ∧ pattern2 = pattern) →
    api.dissector_get_port_handle (api.dissector_add t name pattern handle) name2 pattern2 =
      api.dissector_get_port_handle t name2 pattern2) ∧
  (∀ t name pattern handle,
    api.dissector_get_port_handle (api.dissector_delete t name pattern handle) name pattern =
      none) ∧
  (∀ t name pattern handle name2 pattern2, ¬ (name2 = name ∧ pattern2 = pattern) →
    api.dissector_get_port_handle (api.dissector_delete t name pattern handle) name2 pattern2 =
      api.dissector_get_port_handle t name2 pattern2)

/-- The dissector tables and the statics `alt_port` and `alt_port_pref`. -/
structure port_state (ρ : Type) where
  tables : ρ
  alt_port : Nat
  alt_port_pref : Nat

/-- The handle `radius_handle`. -/
def radius_handle : String := "radius"

/-- The calls of `dissector_add` in `proto_reg_handoff_radius`. -/
def proto_reg_handoff_radius {ρ : Type} (api : dissector_api ρ) (tables : ρ) : ρ :=
  api.dissector_add
    (api.dissector_add
      (api.dissector_add
        (api.dissector_add tables "udp.port" UDP_PORT_RADIUS radius_handle)
        "udp.port" UDP_PORT_RADIUS_NEW radius_handle)
      "udp.port" UDP_PORT_RADACCT radius_handle)
    "udp.port" UDP_PORT_RADACCT_NEW radius_handle

/-- The function `reinit_radius`. -/
def reinit_radius {ρ : Type} (api : dissector_api ρ) (s : port_state ρ) : port_state ρ :=
  if s.alt_port_pref ≠ s.alt_port then
    let tables1 :=
      if s.alt_port ≠ 0 then api.dissector_delete s.tables "udp.port" s.alt_port radius_handle
      else s.tables
    let tables2 :=
      if s.alt_port_pref ≠ 0 then
        api.dissector_add tables1 "udp.port" s.alt_port_pref radius_handle
      else tables1
    { tables := tables2, alt_port := s.alt_port_pref, alt_port_pref := s.alt_port_pref }
  else s

/-- A change of the preference "alternate_port" to `value`, after which the
preferences module calls `reinit_radius`. -/
def set_alternate_port {ρ : Type} (api : dissector_api ρ) (s : port_state ρ) (value : Nat) :
    port_state ρ :=
  reinit_radius api { s with alt_port_pref := value }

/-- The state after `proto_reg_handoff_radius`, with both statics 0 as they
are initialised. -/
def after_handoff {ρ : Type} (api : dissector_api ρ) (tables : ρ) : port_state ρ :=
  { tables := proto_reg_handoff_radius api tables, alt_port := 0, alt_port_pref := 0 }

/-- Dissector tables as a list of entries (table name, pattern, handle) with
at most one entry for a name and a pattern. -/
def list_tables : dissector_api (List (String × Nat × String)) :=
  { dissector_add := fun t name pattern handle =>
      (name, pattern, handle) :: t.filter (fun e => ¬ (e.1 = name ∧ e.2.1 = pattern)),
    dissector_delete := fun t name pattern _ =>
      t.filter (fun e => ¬ (e.1 = name ∧ e.2.1 = pattern)),
    dissector_get_port_handle := fun t name pattern =>
      (t.find? (fun e => e.1 = name ∧ e.2.1 = pattern)).map (fun e => e.2.2) }

end Radius

namespace Radius

/-- One of the four ports that `proto_reg_handoff_radius` registers. -/
def is_standard_port (port : Nat) : Prop :=
  port = UDP_PORT_RADIUS ∨ port = UDP_PORT_RADIUS_NEW ∨ port = UDP_PORT_RADACCT ∨
    port = UDP_PORT_RADACCT_NEW

/-- The standard ports are registered, the alternate port is none of them and
is registered unless it is 0, and `alt_port` is `alt_port_pref`. -/
def ports_ok {ρ : Type} (api : dissector_api ρ) (s : port_state ρ) : Prop :=
  (∀ port, is_standard_port port →
    api.dissector_get_port_handle s.tables "udp.port" port = some radius_handle) ∧
  ¬ is_standard_port s.alt_port ∧
  (s.alt_port ≠ 0 →
    api.dissector_get_port_handle s.tables "udp.port" s.alt_port = some radius_handle) ∧
  s.alt_port = s.alt_port_pref

end Radius

namespace Wtp

/-- A Negative Ack with TID 0x1234 that declares two missing packets, with
the sequence numbers 5 and 6. -/
def sample_negative_ack : tvbuff_t :=
  { data := [0x38, 0x12, 0x34, 2, 5, 6], reported_length := 6 }

/-- The ranges and values of the sequence-number items among `nodes`. -/
def sequence_number_items (nodes : List proto_node) : List (Int × Int × Radius.field_value) :=
  (nodes.filter (fun n => n.hf == "hf_wtp_header_sequence_number")).map
    (fun n => (n.start, n.length, n.value))

end Wtp

namespace Radius

/-- A tagged dictionary entry of type octets, as the dictionary loader makes
for an attribute with the tag option. -/
def sample_tagged_entry : radius_attr_info_t :=
  { name := "Tunnel-Type", code := 64, encrypt := false, tagged := true,
    type := some (fun _ _ => radius_octets (hf_ref.index 1)), dissector := none,
    hf := hf_ref.index 1, hf_tag := hf_ref.index 2, hf_len := hf_ref.index 3 }

end Radius

namespace Radius

/-- The number of times the body of `while (length > 0)` is entered in a run
of `avp_loop`: a pass that continues is followed by the rest of the run, a
pass that returns or throws is the last. -/
def avp_loop_passes (env : radius_env) (authenticator : List Nat) (tvb : tvbuff_t) :
    Nat → avp_state → Nat
  | 0, _ => 0
  | fuel + 1, s =>
    if s.length > 0 then
      match avp_body env authenticator tvb s with
      | avp_step.next s1 => avp_loop_passes env authenticator tvb fuel s1 + 1
      | avp_step.ret _ => 1
      | avp_step.throw _ => 1
      | avp_step.stuck _ => 1
    else 0

/-- The number of times `dissect_attribute_value_pairs` enters the body of
its outer loop. -/
def dissect_attribute_value_pairs_passes (env : radius_env) (authenticator : List Nat)
    (tvb : tvbuff_t) (offset length : Nat) : Nat :=
  avp_loop_passes env authenticator tvb (length + 1) (avp_init offset length)

end Radius

namespace Radius

/-- The offset just after `k` consecutive attributes that start at `offset`,
each with a type other than vendor-specific and EAP-Message and a length byte
of at least 2; `none` when the buffer does not hold `k` such attributes
there. -/
def simple_avps_end (tvb : tvbuff_t) : Nat → Nat → Option Nat
  | 0, offset => some offset
  | k + 1, offset =>
    match tvb_get_guint8 tvb offset, tvb_get_guint8 tvb (offset + 1) with
    | some avp_type, some avp_length =>
      if avp_type ≠ RADIUS_VENDOR_SPECIFIC_CODE ∧ avp_type ≠ RADIUS_EAP_MESSAGE_CODE ∧
          2 ≤ avp_length then
        simple_avps_end tvb k (offset + avp_length)
      else none
    | _, _ => none

/-- A `type` function that decodes a value from the bytes of the value alone,
as `radius_integer`, `radius_string` and the others do: on two buffers that
give the same bytes for the value, or both none, it yields the same. -/
def value_local (type : String → List Nat → radius_attr_dissector_t) : Prop :=
  ∀ secret auth tvb1 tvb2 offset len,
    tvb_memcpy tvb1 offset len = tvb_memcpy tvb2 offset len →
    type secret auth tvb1 offset len = type secret auth tvb2 offset len

/-- Every `type` function in the attribute table of the dictionary decodes
from the bytes of the value alone. -/
def dictionary_local (env : radius_env) : Prop :=
  ∀ t entry type, g_hash_table_lookup_direct env.dict.attrs_by_id t = some entry →
    entry.type = some type → value_local type

end Radius

namespace Radius

/-- A dictionary with one tagged attribute of type octets, the default
preferences and an EAP dissector that adds nothing. -/
def tagged_env : radius_env :=
  { dict := { attrs_by_id := [(64, sample_tagged_entry)], vendors_by_id := [] },
    shared_secret := "", show_length := false, sminmpec_values := fun _ => none,
    eap_handle := fun _ _ => { children := [], exn := false } }

/-- An attribute area of nine bytes: a tagged attribute of six bytes (tag 1,
value `41 42 43`) and then an attribute whose length byte, 9, exceeds the
three bytes that are left. -/
def tagged_attributes : tvbuff_t := [64, 6, 1, 0x41, 0x42, 0x43, 2, 9, 0x44]

end Radius

namespace Radius

/-! ## Theorems: comparison of call keys -/

/-- The delta of a time stamp with itself is zero, so its `abs` is not above
the window. -/
theorem window_same_time (t : nstime_t) :
    ¬ (c_abs (double_to_int (nstime_to_sec (nstime_delta t t))) > 5) := by
  simp [nstime_delta, nstime_to_sec, double_to_int, c_abs, INT_MIN]

/-- A conditional with value 1 in its first branch is 1 when the condition
holds or the other branch is 1. -/
theorem ite_one_eq_one (p : Prop) [Decidable p] (x : Nat) :
    (if p then 1 else x) = 1 ↔ (p ∨ x = 1) := by
  by_cases hp : p <;> simp [hp]

/-- A conditional with value 1 in its first branch is 0 or 1 when the other
branch is. -/
theorem ite_one_or_zero (p : Prop) [Decidable p] (x : Nat) (hx : x ≠ 1 → x = 0) :
    (if p then 1 else x) ≠ 1 → (if p then 1 else x) = 0 := by
  by_cases hp : p
  · simp [hp]
  · simpa [hp] using hx

/-- C1: for a stored key `k1` and a looked-up key `k2` with identical
`req_time`, `radius_call_equal` returns 1 exactly when the identifiers and the
conversations agree and the codes are equal or form one of the allowed
request-to-response pairs; in every other case it returns 0. -/
theorem radius_call_equal_same_time (k1 k2 : radius_call_info_key)
    (h : k1.req_time = k2.req_time) :
    (radius_call_equal k1 k2 = 1 ↔
      (k1.ident = k2.ident ∧ k1.conversation = k2.conversation ∧
        (k1.code = k2.code ∨
         (k1.code = RADIUS_ACCESS_REQUEST ∧
            (k2.code = RADIUS_ACCESS_ACCEPT ∨ k2.code = RADIUS_ACCESS_REJECT)) ∨
         (k1.code = RADIUS_ACCOUNTING_REQUEST ∧ k2.code = RADIUS_ACCOUNTING_RESPONSE) ∨
         (k1.code = RADIUS_ACCESS_PASSWORD_REQUEST ∧
            (k2.code = RADIUS_ACCESS_PASSWORD_ACK ∨ k2.code = RADIUS_ACCESS_PASSWORD_REJECT)) ∨
         (k1.code = RADIUS_ASCEND_ACCESS_EVENT_REQUEST ∧
            k2.code = RADIUS_ASCEND_ACCESS_EVENT_RESPONSE) ∨
         (k1.code = RADIUS_DISCONNECT_REQUEST ∧
            (k2.code = RADIUS_DISCONNECT_REQUEST_ACK ∨ k2.code = RADIUS_DISCONNECT_REQUEST_NAK)) ∨
         (k1.code = RADIUS_CHANGE_FILTER_REQUEST ∧
            (k2.code = RADIUS_CHANGE_FILTER_REQUEST_ACK ∨
              k2.code = RADIUS_CHANGE_FILTER_REQUEST_NAK))))) ∧
    (radius_call_equal k1 k2 ≠ 1 → radius_call_equal k1 k2 = 0) := by
  have hw := window_same_time k2.req_time
  unfold radius_call_equal
  rw [h]
  simp only [hw, if_false]
  by_cases hi : k1.ident = k2.ident
  · by_cases hc : k1.conversation = k2.conversation
    · simp only [hi, hc, and_self, if_true, true_and]
      simp only [RADIUS_ACCESS_REQUEST, RADIUS_ACCESS_ACCEPT, RADIUS_ACCESS_REJECT,
        RADIUS_ACCOUNTING_REQUEST, RADIUS_ACCOUNTING_RESPONSE, RADIUS_ACCESS_PASSWORD_REQUEST,
        RADIUS_ACCESS_PASSWORD_ACK, RADIUS_ACCESS_PASSWORD_REJECT,
        RADIUS_ASCEND_ACCESS_EVENT_REQUEST, RADIUS_ASCEND_ACCESS_EVENT_RESPONSE,
        RADIUS_DISCONNECT_REQUEST, RADIUS_DISCONNECT_REQUEST_ACK, RADIUS_DISCONNECT_REQUEST_NAK,
        RADIUS_CHANGE_FILTER_REQUEST, RADIUS_CHANGE_FILTER_REQUEST_ACK,
        RADIUS_CHANGE_FILTER_REQUEST_NAK]
      constructor
      · simp only [ite_one_eq_one]
        simp
      · repeat apply ite_one_or_zero
        simp
    · simp [hc]
  · simp [hi]

/-- The inputs of `radius_call_equal_same_time` exist: an Access-Request
stored at time 7 and an Access-Accept looked up with the same time stamp. -/
theorem radius_call_equal_same_time_witness :
    radius_call_equal ⟨1, 5, ⟨0⟩, ⟨7, 0⟩⟩ ⟨2, 5, ⟨0⟩, ⟨7, 0⟩⟩ = 1 :=
  ((radius_call_equal_same_time ⟨1, 5, ⟨0⟩, ⟨7, 0⟩⟩ ⟨2, 5, ⟨0⟩, ⟨7, 0⟩⟩ rfl).1).2
    ⟨rfl, rfl, Or.inr (Or.inl ⟨rfl, Or.inl rfl⟩)⟩

/-- C2: two keys with equal ident, conversation and code whose request times
are 5.5 s apart compare equal: the double is truncated to the `int` 5 before
`abs`, and 5 is not above the window. -/
theorem radius_call_equal_five_and_a_half :
    radius_call_equal ⟨1, 5, ⟨0⟩, ⟨0, 0⟩⟩ ⟨1, 5, ⟨0⟩, ⟨5, 500000000⟩⟩ = 1 ∧
    radius_call_equal ⟨1, 5, ⟨0⟩, ⟨5, 500000000⟩⟩ ⟨1, 5, ⟨0⟩, ⟨0, 0⟩⟩ = 1 := by
  decide

/-! ## Lemmas: the correlation window -/

/-- In nanoseconds, `nstime_delta b a` is `b - a`, whatever the
normalisation of the two time stamps. -/
theorem nstime_to_sec_delta (b a : nstime_t) :
    nstime_to_sec (nstime_delta b a) = nstime_to_sec b - nstime_to_sec a := by
  unfold nstime_delta nstime_to_sec NS_PER_S
  split_ifs with h1 h2 h3 h4
  · simp only [h1]; ring
  · simp only; ring
  · simp only; ring
  · simp only; ring
  · simp only; ring

/-- The test `abs(nstime_to_sec(&delta)) > (double) 5` succeeds exactly from
six whole seconds on, in either direction, as long as the whole seconds fit
an `int` and are not `INT_MIN`: below 2^31 seconds (2147483648). -/
theorem window_iff (x : Int) :
    c_abs (double_to_int x) > 5 ↔
      ((6000000000 ≤ x ∧ x < 2147483648000000000) ∨
        (x ≤ -6000000000 ∧ -2147483648000000000 < x)) := by
  unfold c_abs double_to_int NS_PER_S INT_MIN
  rcases le_or_lt 0 x with h | h
  · rw [Int.tdiv_eq_ediv h (by norm_num)]
    split_ifs <;> omega
  · have hx : x = -(-x) := by ring
    rw [hx, Int.neg_tdiv, Int.tdiv_eq_ediv (by omega) (by norm_num)]
    split_ifs <;> omega

/-- Two keys whose request times are six seconds or more, and less than 2^31
seconds, apart never compare equal. -/
theorem radius_call_equal_six_seconds (k1 k2 : radius_call_info_key)
    (h : (6 * NS_PER_S ≤ nstime_to_sec k1.req_time - nstime_to_sec k2.req_time ∧
        nstime_to_sec k1.req_time - nstime_to_sec k2.req_time < 2147483648 * NS_PER_S) ∨
      (6 * NS_PER_S ≤ nstime_to_sec k2.req_time - nstime_to_sec k1.req_time ∧
        nstime_to_sec k2.req_time - nstime_to_sec k1.req_time < 2147483648 * NS_PER_S)) :
    radius_call_equal k1 k2 = 0 := by
  have hw : c_abs (double_to_int (nstime_to_sec (nstime_delta k1.req_time k2.req_time))) > 5 := by
    rw [nstime_to_sec_delta, window_iff]
    unfold NS_PER_S at h
    omega
  unfold radius_call_equal
  split_ifs <;> rfl

/-- From 2^31 seconds on, in either direction, the test of the window fails
again: the conversion gives `INT_MIN`, whose `abs` is negative. -/
theorem window_wraps (x : Int)
    (h : 2147483648000000000 ≤ x ∨ x ≤ -2147483648000000000) :
    ¬ (c_abs (double_to_int x) > 5) := by
  rw [window_iff]
  omega

/-- Two keys with equal ident, conversation and code whose request times are
2^31 seconds or more apart compare equal. -/
theorem radius_call_equal_far_apart (k1 k2 : radius_call_info_key)
    (hi : k1.ident = k2.ident) (hc : k1.conversation = k2.conversation)
    (hcode : k1.code = k2.code)
    (h : 2147483648 * NS_PER_S ≤ nstime_to_sec k1.req_time - nstime_to_sec k2.req_time ∨
      2147483648 * NS_PER_S ≤ nstime_to_sec k2.req_time - nstime_to_sec k1.req_time) :
    radius_call_equal k1 k2 = 1 := by
  have hw : ¬ (c_abs (double_to_int (nstime_to_sec (nstime_delta k1.req_time k2.req_time))) > 5) := by
    rw [nstime_to_sec_delta]
    apply window_wraps
    unfold NS_PER_S at h
    omega
  unfold radius_call_equal
  rw [if_pos ⟨hi, hc⟩, if_neg hw, if_pos hcode]

/-- After a write through the pointer, the lookup of the same key yields the
written record. -/
theorem g_hash_table_lookup_store (t : GHashTable) (key : radius_call_info_key)
    (v v1 : radius_call_t) (h : g_hash_table_lookup t key = some v) :
    g_hash_table_lookup (radius_call_store t key v1) key = some v1 := by
  induction t with
  | nil => simp [g_hash_table_lookup] at h
  | cons e rest ih =>
    obtain ⟨k0, v0⟩ := e
    by_cases h0 : radius_call_equal k0 key = 0
    · simp only [g_hash_table_lookup, h0, ne_eq, not_true_eq_false, if_false] at h
      simp [g_hash_table_lookup, radius_call_store, h0, ih h]
    · simp [g_hash_table_lookup, radius_call_store, h0]

theorem radius_call_store_length (t : GHashTable) (key : radius_call_info_key)
    (v1 : radius_call_t) : (radius_call_store t key v1).length = t.length := by
  induction t with
  | nil => simp [radius_call_store]
  | cons e rest ih =>
    obtain ⟨k0, v0⟩ := e
    by_cases h0 : radius_call_equal k0 key = 0
    · simp [radius_call_store, h0, ih]
    · simp [radius_call_store, h0]

/-! ## Lemmas: `dissect_radius` on a packet with a complete header -/

/-- A property of the calls table that holds before `dissect_radius` and
after its `switch`, whatever the packet, holds after `dissect_radius`. -/
theorem dissect_radius_calls_cases {κ : Type} (api : conversation_api κ) (env : radius_env)
    (s : session κ) (tvb : tvbuff_t) (pinfo : packet_info) (tree : Bool) (P : GHashTable → Prop)
    (h0 : P s.radius_calls)
    (h1 : ∀ c i ri ci, P (dissect_calls api pinfo c i s.radius_calls s.conversations ri ci).radius_calls) :
    P (dissect_radius api env s tvb pinfo tree).session.radius_calls := by
  unfold dissect_radius
  dsimp only
  split
  · split_ifs with hlen
    · exact h0
    · split
      · exact h0
      · cases tree
        · simpa [dissect_radius_body] using h0
        · simp only [dissect_radius_body, if_true]
          exact h1 _ _ _ _
  · exact h0

/-- A write through the pointer relates the table before and after entry by
entry: only the record that the lookup found changes. -/
theorem radius_call_store_forall₂ (R : radius_call_info_key × radius_call_t →
      radius_call_info_key × radius_call_t → Prop) (hrefl : ∀ e, R e e)
    (t : GHashTable) (key : radius_call_info_key) (v v1 : radius_call_t)
    (h : g_hash_table_lookup t key = some v) (hv : ∀ k, R (k, v) (k, v1)) :
    List.Forall₂ R t (radius_call_store t key v1) := by
  induction t with
  | nil => simp [g_hash_table_lookup] at h
  | cons e rest ih =>
    obtain ⟨k0, v0⟩ := e
    by_cases h0 : radius_call_equal k0 key = 0
    · simp only [g_hash_table_lookup, h0, ne_eq, not_true_eq_false, if_false] at h
      simp only [radius_call_store, h0, ne_eq, not_true_eq_false, if_false]
      exact List.Forall₂.cons (hrefl _) (ih h)
    · simp only [g_hash_table_lookup, ne_eq, h0, not_false_eq_true, if_true,
        Option.some.injEq] at h
      simp only [radius_call_store, ne_eq, h0, not_false_eq_true, if_true]
      subst h
      exact List.Forall₂.cons (hv _) (List.forall₂_same.mpr (fun e _ => hrefl e))

/-- C8: `dissect_radius` never removes a call record.  The table afterwards
consists of the old entries in their places, each with its key, `req_num`,
`req_time`, `ident` and `code` unchanged and with `rsp_num` either unchanged or
changed from 0 to the current frame number, followed by the entries added; and
`radius_init_protocol` leaves the table empty. -/
theorem call_records_persist {κ : Type} (api : conversation_api κ) (env : radius_env)
    (s : session κ) (tvb : tvbuff_t) (pinfo : packet_info) (tree : Bool) :
    (∃ kept added,
      (dissect_radius api env s tvb pinfo tree).session.radius_calls = kept ++ added ∧
      List.Forall₂
        (fun old new : radius_call_info_key × radius_call_t =>
          new.1 = old.1 ∧ new.2.req_num = old.2.req_num ∧ new.2.req_time = old.2.req_time ∧
          new.2.ident = old.2.ident ∧ new.2.code = old.2.code ∧
          (new.2.rsp_num = old.2.rsp_num ∨
            (old.2.rsp_num = 0 ∧ new.2.rsp_num = pinfo.fd_num)))
        s.radius_calls kept) ∧
    (radius_init_protocol s).radius_calls = [] := by
  refine ⟨?_, rfl⟩
  apply dissect_radius_calls_cases api env s tvb pinfo tree (fun t => ∃ kept added,
      t = kept ++ added ∧
      List.Forall₂
        (fun old new : radius_call_info_key × radius_call_t =>
          new.1 = old.1 ∧ new.2.req_num = old.2.req_num ∧ new.2.req_time = old.2.req_time ∧
          new.2.ident = old.2.ident ∧ new.2.code = old.2.code ∧
          (new.2.rsp_num = old.2.rsp_num ∨
            (old.2.rsp_num = 0 ∧ new.2.rsp_num = pinfo.fd_num)))
        s.radius_calls kept)
  · exact ⟨s.radius_calls, [], by simp, List.forall₂_same.mpr (fun e _ => by simp)⟩
  · intro c i ri ci
    unfold dissect_calls
    split_ifs with hreq hrsp
    · unfold dissect_request
      dsimp only
      split
      · split_ifs <;>
          exact ⟨s.radius_calls, [], by simp, List.forall₂_same.mpr (fun e _ => by simp)⟩
      · exact ⟨s.radius_calls, _, rfl, List.forall₂_same.mpr (fun e _ => by simp)⟩
    · unfold dissect_response
      dsimp only
      split
      · exact ⟨s.radius_calls, [], by simp, List.forall₂_same.mpr (fun e _ => by simp)⟩
      · split
        · exact ⟨s.radius_calls, [], by simp, List.forall₂_same.mpr (fun e _ => by simp)⟩
        · rename_i radius_call hlook
          refine ⟨_, [], (List.append_nil _).symm, ?_⟩
          apply radius_call_store_forall₂ _ (fun e => by simp) _ _ radius_call _ hlook
          intro k
          simp only [responded_call, true_and]
          by_cases h0 : radius_call.rsp_num = 0
          · simp [h0]
          · simp [h0]
    · exact ⟨s.radius_calls, [], by simp, List.forall₂_same.mpr (fun e _ => by simp)⟩

/-- C9: after `radius_init_protocol` and with the same conversation table
`convs`, `dissect_radius` yields the same tree, the same columns, the same tap
record, the same calls to the EAP dissector and the same outcome, whatever the
statics `rad_info`, `authenticator` and `radius_calls` held before the reset;
the statics `rad_info` and `radius_calls` afterwards agree as well. -/
theorem dissect_after_reset {κ : Type} (api : conversation_api κ) (env : radius_env)
    (s1 s2 : session κ) (convs : κ) (tvb : tvbuff_t) (pinfo : packet_info) (tree : Bool) :
    (dissect_radius api env { radius_init_protocol s1 with conversations := convs }
        tvb pinfo tree).tree =
      (dissect_radius api env { radius_init_protocol s2 with conversations := convs }
        tvb pinfo tree).tree ∧
    (dissect_radius api env { radius_init_protocol s1 with conversations := convs }
        tvb pinfo tree).cinfo =
      (dissect_radius api env { radius_init_protocol s2 with conversations := convs }
        tvb pinfo tree).cinfo ∧
    (dissect_radius api env { radius_init_protocol s1 with conversations := convs }
        tvb pinfo tree).tap =
      (dissect_radius api env { radius_init_protocol s2 with conversations := convs }
        tvb pinfo tree).tap ∧
    (dissect_radius api env { radius_init_protocol s1 with conversations := convs }
        tvb pinfo tree).eap_calls =
      (dissect_radius api env { radius_init_protocol s2 with conversations := convs }
        tvb pinfo tree).eap_calls ∧
    (dissect_radius api env { radius_init_protocol s1 with conversations := convs }
        tvb pinfo tree).exn =
      (dissect_radius api env { radius_init_protocol s2 with conversations := convs }
        tvb pinfo tree).exn ∧
    (dissect_radius api env { radius_init_protocol s1 with conversations := convs }
        tvb pinfo tree).session.rad_info =
      (dissect_radius api env { radius_init_protocol s2 with conversations := convs }
        tvb pinfo tree).session.rad_info ∧
    (dissect_radius api env { radius_init_protocol s1 with conversations := convs }
        tvb pinfo tree).session.radius_calls =
      (dissect_radius api env { radius_init_protocol s2 with conversations := convs }
        tvb pinfo tree).session.radius_calls := by
  unfold dissect_radius radius_init_protocol rad_info_init
  dsimp only
  split
  · split_ifs with hlen
    · simp
    · split
      · simp
      · cases tree
        · simp [dissect_radius_body]
        · simp [dissect_radius_body]
  · simp

/-- More fuel does not change a run that ended otherwise than by lack of
fuel. -/
theorem avp_loop_fuel_succ (env : radius_env) (auth : List Nat) (tvb : tvbuff_t) :
    ∀ (n : Nat) (s r : avp_state) (e : avp_exit),
      avp_loop env auth tvb n s = (r, e) → e ≠ avp_exit.no_fuel →
      avp_loop env auth tvb (n + 1) s = (r, e) := by
  intro n
  induction n with
  | zero =>
    intro s r e h he
    simp only [avp_loop, Prod.mk.injEq] at h
    exact absurd h.2.symm he
  | succ n ih =>
    intro s r e h he
    rw [avp_loop] at h ⊢
    split_ifs at h ⊢ with hlen
    · cases hb : avp_body env auth tvb s with
      | next s1 =>
        rw [hb] at h
        simp only at h ⊢
        exact ih s1 r e h he
      | ret s1 => rw [hb] at h; exact h
      | throw s1 => rw [hb] at h; exact h
      | stuck s1 => rw [hb] at h; exact h
    · exact h

theorem avp_loop_fuel_mono (env : radius_env) (auth : List Nat) (tvb : tvbuff_t)
    (n m : Nat) (s r : avp_state) (e : avp_exit)
    (h : avp_loop env auth tvb n s = (r, e)) (he : e ≠ avp_exit.no_fuel) (hnm : n ≤ m) :
    avp_loop env auth tvb m s = (r, e) := by
  induction m with
  | zero =>
    have : n = 0 := by omega
    subst this
    exact h
  | succ m ih =>
    rcases Nat.eq_or_lt_of_le hnm with h1 | h1
    · subst h1; exact h
    · exact avp_loop_fuel_succ env auth tvb m s r e (ih (by omega)) he

/-- The vendor-specific branch passes the remaining length through. -/
theorem avp_vendor_specific_add_length (env : radius_env) (auth : List Nat) (tvb : tvbuff_t)
    (s : avp_state) (al L d : Nat) (head : fmt_text) :
    avp_vendor_specific env auth tvb { s with length := s.length + d } al (L + d) head =
      (avp_vendor_specific env auth tvb s al L head).add_length d := by
  unfold avp_vendor_specific
  dsimp only
  repeat' first | rfl | split

/-- The EAP-Message branch passes the remaining length through. -/
theorem avp_eap_message_add_length (env : radius_env) (tvb : tvbuff_t)
    (s : avp_state) (entry : radius_attr_info_t) (al L d : Nat) (head : fmt_text) :
    avp_eap_message env tvb { s with length := s.length + d } entry al (L + d) head =
      (avp_eap_message env tvb s entry al L head).add_length d := by
  unfold avp_eap_message
  dsimp only
  repeat' first | rfl | split

/-- A pass through the loop body that continues does the same with more
remaining length, which it passes through. -/
theorem avp_body_add_length (env : radius_env) (auth : List Nat) (tvb : tvbuff_t)
    (s s1 : avp_state) (d : Nat) (h : avp_body env auth tvb s = avp_step.next s1) :
    avp_body env auth tvb { s with length := s.length + d } =
      avp_step.next { s1 with length := s1.length + d } := by
  unfold avp_body at h ⊢
  dsimp only at h ⊢
  by_cases h2 : s.length < 2
  · rw [if_pos h2] at h
    cases h
  · rw [if_neg h2] at h
    rw [if_neg (by omega)]
    cases ht : tvb_get_guint8 tvb s.offset with
    | none =>
      rw [ht] at h
      cases h
    | some t =>
      cases hl : tvb_get_guint8 tvb (s.offset + 1) with
      | none =>
        rw [ht, hl] at h
        cases h
      | some l =>
        rw [ht, hl] at h
        dsimp only at h ⊢
        by_cases h3 : l < 2
        · rw [if_pos h3] at h
          cases h
        · rw [if_neg h3] at h
          rw [if_neg h3]
          by_cases h4 : s.length < l
          · rw [if_pos h4] at h
            cases h
          · rw [if_neg h4] at h
            rw [if_neg (by omega)]
            have hL : s.length + d - l = (s.length - l) + d := by omega
            rw [hL]
            by_cases hv : t = RADIUS_VENDOR_SPECIFIC_CODE
            · rw [if_pos hv] at h
              rw [if_pos hv, avp_vendor_specific_add_length, h]
              rfl
            · rw [if_neg hv] at h
              rw [if_neg hv]
              by_cases he : t = RADIUS_EAP_MESSAGE_CODE
              · rw [if_pos he] at h
                rw [if_pos he, avp_eap_message_add_length, h]
                rfl
              · rw [if_neg he] at h
                rw [if_neg he]
                split_ifs at h ⊢ with hexn
                cases h
                rfl

/-- A run that ends through the end of the loop, repeated with `d` more
bytes of remaining length, goes through the same passes and then enters the
body once more, with `d` bytes left; if that pass returns, so does the run. -/
theorem avp_loop_add_length (env : radius_env) (auth : List Nat) (tvb : tvbuff_t) (d : Nat)
    (hd : 0 < d) :
    ∀ (n : Nat) (s sA r : avp_state),
      avp_loop env auth tvb n s = (sA, avp_exit.done) →
      avp_body env auth tvb { sA with length := d } = avp_step.ret r →
      avp_loop env auth tvb (n + 1) { s with length := s.length + d } = (r, avp_exit.returned) := by
  intro n
  induction n with
  | zero =>
    intro s sA r h _
    simp [avp_loop] at h
  | succ n ih =>
    intro s sA r h hr
    rw [avp_loop] at h
    by_cases hlen : s.length > 0
    · rw [if_pos hlen] at h
      cases hb : avp_body env auth tvb s with
      | next s1 =>
        rw [hb] at h
        dsimp only at h
        rw [avp_loop, if_pos (by dsimp only; omega), avp_body_add_length env auth tvb s s1 d hb]
        exact ih s1 sA r h hr
      | ret s1 => rw [hb] at h; simp at h
      | throw s1 => rw [hb] at h; simp at h
      | stuck s1 => rw [hb] at h; simp at h
    · rw [if_neg hlen] at h
      simp only [Prod.mk.injEq, and_true] at h
      subst h
      have h0 : s.length = 0 := by omega
      rw [avp_loop, if_pos (by dsimp only; omega), h0, Nat.zero_add, hr]

/-- When the EAP-Message branch continues, it has consumed exactly the
attribute and added one item. -/
theorem avp_eap_message_next (env : radius_env) (tvb : tvbuff_t) (s : avp_state)
    (entry : radius_attr_info_t) (al L : Nat) (head : fmt_text) :
    ∀ x, avp_eap_message env tvb s entry al L head = avp_step.next x →
      x.offset = s.offset + 2 + (al - 2) ∧ x.length = L ∧
        x.nodes.length = s.nodes.length + 1 := by
  unfold avp_eap_message
  dsimp only
  repeat' split
  all_goals
    intro x hx
    cases hx <;> simp

/-- A pass through the loop body that continues on an attribute that is not
vendor-specific consumes exactly the attribute and adds one item. -/
theorem avp_body_plain (env : radius_env) (auth : List Nat) (tvb : tvbuff_t)
    (s s1 : avp_state) (t l : Nat)
    (ht : tvb_get_guint8 tvb s.offset = some t) (hl : tvb_get_guint8 tvb (s.offset + 1) = some l)
    (hv : t ≠ RADIUS_VENDOR_SPECIFIC_CODE) (h2 : 2 ≤ l)
    (h : avp_body env auth tvb s = avp_step.next s1) :
    s1.offset = s.offset + l ∧ s1.length = s.length - l ∧ l ≤ s.length ∧
      s1.nodes.length = s.nodes.length + 1 := by
  unfold avp_body at h
  dsimp only at h
  rw [ht, hl] at h
  dsimp only at h
  by_cases h1 : s.length < 2
  · rw [if_pos h1] at h
    cases h
  · rw [if_neg h1, if_neg (by omega)] at h
    by_cases h4 : s.length < l
    · rw [if_pos h4] at h
      cases h
    · rw [if_neg h4, if_neg hv] at h
      by_cases he : t = RADIUS_EAP_MESSAGE_CODE
      · rw [if_pos he] at h
        obtain ⟨a, b, c⟩ := avp_eap_message_next env tvb s _ l _ _ s1 h
        exact ⟨by omega, b, by omega, c⟩
      · rw [if_neg he] at h
        split_ifs at h with hexn
        cases h
        exact ⟨by dsimp only; omega, rfl, by omega, by simp⟩

theorem plain_avps_end_ge (tvb : tvbuff_t) :
    ∀ (k offset e : Nat), plain_avps_end tvb k offset = some e → offset ≤ e := by
  intro k
  induction k with
  | zero =>
    intro offset e h
    simp only [plain_avps_end, Option.some.injEq] at h
    omega
  | succ k ih =>
    intro offset e h
    rw [plain_avps_end] at h
    split at h
    · split_ifs at h with hc
      have := ih _ _ h
      omega
    · cases h

/-- A run over `k` attributes that are not vendor-specific, when it ends
through the end of the loop, has added `k` items and stands right after
them. -/
theorem avp_loop_plain (env : radius_env) (auth : List Nat) (tvb : tvbuff_t) :
    ∀ (k n : Nat) (s sA : avp_state),
      plain_avps_end tvb k s.offset = some (s.offset + s.length) →
      avp_loop env auth tvb n s = (sA, avp_exit.done) →
      sA.offset = s.offset + s.length ∧ sA.nodes.length = s.nodes.length + k := by
  intro k
  induction k with
  | zero =>
    intro n s sA hwf h
    simp only [plain_avps_end, Option.some.injEq] at hwf
    have h0 : ¬ s.length > 0 := by omega
    cases n with
    | zero => simp [avp_loop] at h
    | succ n =>
      rw [avp_loop, if_neg h0] at h
      simp only [Prod.mk.injEq, and_true] at h
      subst h
      exact ⟨by omega, rfl⟩
  | succ k ih =>
    intro n s sA hwf h
    rw [plain_avps_end] at hwf
    split at hwf
    · rename_i t l ht hl
      split_ifs at hwf with hc
      have hge := plain_avps_end_ge tvb _ _ _ hwf
      cases n with
      | zero => simp [avp_loop] at h
      | succ n =>
        rw [avp_loop, if_pos (by omega)] at h
        cases hb : avp_body env auth tvb s with
        | next s1 =>
          rw [hb] at h
          dsimp only at h
          obtain ⟨a, b, c, e⟩ := avp_body_plain env auth tvb s s1 t l ht hl hc.1 hc.2 hb
          have hwf1 : plain_avps_end tvb k s1.offset = some (s1.offset + s1.length) := by
            rw [a, b, hwf]
            congr 1
            omega
          obtain ⟨p, q⟩ := ih n s1 sA hwf1 h
          exact ⟨by omega, by omega⟩
        | ret s1 => rw [hb] at h; simp at h
        | throw s1 => rw [hb] at h; simp at h
        | stuck s1 => rw [hb] at h; simp at h
    · cases hwf

/-- The run on `len + d` bytes after a run on `len` bytes that ended through
the end of the loop: it returns when the pass on the `d` bytes left returns. -/
theorem dissect_attribute_value_pairs_add_length (env : radius_env) (auth : List Nat)
    (tvb : tvbuff_t) (offset len d : Nat) (sA r : avp_state) (hd : 0 < d)
    (hA : dissect_attribute_value_pairs env auth tvb offset len = (sA, avp_exit.done))
    (hr : avp_body env auth tvb { sA with length := d } = avp_step.ret r) :
    dissect_attribute_value_pairs env auth tvb offset (len + d) = (r, avp_exit.returned) := by
  unfold dissect_attribute_value_pairs at hA ⊢
  have h1 := avp_loop_add_length env auth tvb d hd (len + 1) (avp_init offset len) sA r hA hr
  exact avp_loop_fuel_mono env auth tvb (len + 1 + 1) (len + d + 1) _ r _ h1 (by decide) (by omega)

/-! ## Theorems: malformed attribute lengths -/

/-- An attribute area that starts with `k` attributes that are not
vendor-specific, each with a length byte of at least 2, `len` bytes in all,
which `dissect_attribute_value_pairs` dissects to the end when the declared
length of the same buffer is `len`, and that goes on for `d > 0` more bytes.
On the whole area the function emits the `k` items of that run and then one
zero-length generated item at the offset of the next attribute, and returns:
"Not enough room in packet for AVP header" when `d = 1`, "AVP too short" when
the length byte is below 2, "Not enough room in packet for AVP" when the
length byte exceeds `d`. -/
theorem avp_length_error_same_buffer (env : radius_env) (auth : List Nat) (tvb : tvbuff_t)
    (offset len d k : Nat) (sA : avp_state)
    (hwf : plain_avps_end tvb k offset = some (offset + len))
    (hA : dissect_attribute_value_pairs env auth tvb offset len = (sA, avp_exit.done))
    (hd : 0 < d) :
    sA.nodes.length = k ∧
    (d = 1 →
      dissect_attribute_value_pairs env auth tvb offset (len + d) =
        ({ sA with
            length := d,
            nodes := sA.nodes ++ [text_node (offset + len) 0
              [⟨"Not enough room in packet for AVP header", []⟩] true []] },
          avp_exit.returned)) ∧
    (∀ t l, 2 ≤ d → tvb_get_guint8 tvb (offset + len) = some t →
      tvb_get_guint8 tvb (offset + len + 1) = some l → l < 2 →
      dissect_attribute_value_pairs env auth tvb offset (len + d) =
        ({ sA with
            length := d,
            nodes := sA.nodes ++ [text_node (offset + len) 0
              [⟨"AVP too short: length %u < 2", [fmt_arg.u l]⟩] true []] },
          avp_exit.returned)) ∧
    (∀ t l, 2 ≤ d → tvb_get_guint8 tvb (offset + len) = some t →
      tvb_get_guint8 tvb (offset + len + 1) = some l → d < l →
      dissect_attribute_value_pairs env auth tvb offset (len + d) =
        ({ sA with
            length := d,
            nodes := sA.nodes ++ [text_node (offset + len) 0
              [⟨"Not enough room in packet for AVP", []⟩] true []] },
          avp_exit.returned)) := by
  obtain ⟨hoff, hk⟩ := avp_loop_plain env auth tvb k (len + 1) (avp_init offset len) sA hwf hA
  simp only [avp_init] at hoff hk
  refine ⟨by simpa using hk, ?_, ?_, ?_⟩
  · intro h1
    apply dissect_attribute_value_pairs_add_length env auth tvb offset len d sA _ hd hA
    unfold avp_body
    dsimp only
    rw [if_pos (by omega), hoff]
  · intro t l h2 ht hl hl2
    apply dissect_attribute_value_pairs_add_length env auth tvb offset len d sA _ hd hA
    unfold avp_body
    dsimp only
    rw [if_neg (by omega), hoff, ht, hl]
    dsimp only
    rw [if_pos hl2]
  · intro t l h2 ht hl hdl
    apply dissect_attribute_value_pairs_add_length env auth tvb offset len d sA _ hd hA
    unfold avp_body
    dsimp only
    rw [if_neg (by omega), hoff, ht, hl]
    dsimp only
    rw [if_neg (by omega), if_pos hdl]

end Radius

namespace Radius

/-! ## Theorems: the length field -/

/-- C11: a packet with at least four captured bytes whose length field is
below `HDR_LENGTH`, dissected with a tree: the tree gets the protocol item
with the code item, the identifier item and one length item marked bogus, and
nothing else (no authenticator item, no attribute item); the calls table and
the conversation table are as before, the attribute loop is not entered, and
the function returns without an exception. -/
theorem bogus_header_length {κ : Type} (api : conversation_api κ) (env : radius_env)
    (s : session κ) (pinfo : packet_info) (c i hi lo : Nat) (rest : List Nat)
    (hlen : hi * 256 + lo < HDR_LENGTH) :
    (dissect_radius api env s (c :: i :: hi :: lo :: rest) pinfo true).tree =
      some (proto_node.mk (hf_ref.named "proto_radius") 0 (hi * 256 + lo) field_value.none []
        false false
        [proto_node.mk (hf_ref.named "hf_radius_code") 0 1 (field_value.uint c) [] false false [],
         proto_node.mk (hf_ref.named "hf_radius_id") 1 1 (field_value.uint i)
          [⟨"Packet identifier: 0x%01x (%d)", [fmt_arg.u i, fmt_arg.u i]⟩] false false [],
         proto_node.mk (hf_ref.named "hf_radius_length") 2 2 (field_value.uint (hi * 256 + lo))
          [⟨"Length: %u (bogus, < %u)", [fmt_arg.u (hi * 256 + lo), fmt_arg.u HDR_LENGTH]⟩]
          false false []]) ∧
    (dissect_radius api env s (c :: i :: hi :: lo :: rest) pinfo true).session.radius_calls =
      s.radius_calls ∧
    (dissect_radius api env s (c :: i :: hi :: lo :: rest) pinfo true).session.conversations =
      s.conversations ∧
    (dissect_radius api env s (c :: i :: hi :: lo :: rest) pinfo true).avp_exit = none ∧
    (dissect_radius api env s (c :: i :: hi :: lo :: rest) pinfo true).exn = false := by
  have h4 : tvb_memcpy (c :: i :: hi :: lo :: rest) 0 4 = some [c, i, hi, lo] := by
    simp [tvb_memcpy]
  unfold dissect_radius
  simp only [h4, if_pos hlen]
  refine ⟨?_, ?_, ?_, ?_, ?_⟩ <;> first | rfl | trivial

/-- The inputs of `bogus_header_length` exist: an Access-Request of four
bytes whose length field says 10. -/
theorem bogus_header_length_witness :
    (0 * 256 + 10 < HDR_LENGTH) ∧
    (dissect_radius one_conversation plain_env fresh_session [1, 5, 0, 10] (sample_pinfo 1 0)
      true).exn = false ∧
    (dissect_radius one_conversation plain_env fresh_session [1, 5, 0, 10] (sample_pinfo 1 0)
      true).session.radius_calls = [] :=
  ⟨by decide,
   (bogus_header_length one_conversation plain_env fresh_session (sample_pinfo 1 0) 1 5 0 10 []
      (by decide)).2.2.2.2,
   (bogus_header_length one_conversation plain_env fresh_session (sample_pinfo 1 0) 1 5 0 10 []
      (by decide)).2.1⟩

/-! ## Theorems: reads beyond the declared lengths -/

/-- C12: two packets whose length field equals the captured length, each
with one vendor-specific attribute.  In the first (28 bytes) the
sub-attribute declares 200 bytes where the attribute has 2 left, and its
value is read from offset 28 on; in the second (27 bytes) the vendor data
ends after the type byte of a sub-attribute, whose length byte is read at
offset 27.  Both reads are outside the attribute and outside the packet, and
the attribute loop is left by the bounds exception. -/
theorem vendor_specific_read_past_end :
    (packet_with_attributes 1 5 [26, 8, 0, 0, 0, 9, 1, 200] []).length = 28 ∧
    tvb_memcpy (packet_with_attributes 1 5 [26, 8, 0, 0, 0, 9, 1, 200] []) 0 4 =
      some [1, 5, 0, 28] ∧
    (dissect_radius one_conversation plain_env fresh_session
      (packet_with_attributes 1 5 [26, 8, 0, 0, 0, 9, 1, 200] []) (sample_pinfo 1 0)
      true).avp_exit = some avp_exit.thrown ∧
    (dissect_radius one_conversation plain_env fresh_session
      (packet_with_attributes 1 5 [26, 8, 0, 0, 0, 9, 1, 200] []) (sample_pinfo 1 0)
      true).exn = true ∧
    (packet_with_attributes 1 5 [26, 7, 0, 0, 0, 9, 1] []).length = 27 ∧
    tvb_memcpy (packet_with_attributes 1 5 [26, 7, 0, 0, 0, 9, 1] []) 0 4 = some [1, 5, 0, 27] ∧
    (dissect_radius one_conversation plain_env fresh_session
      (packet_with_attributes 1 5 [26, 7, 0, 0, 0, 9, 1] []) (sample_pinfo 1 0)
      true).avp_exit = some avp_exit.thrown ∧
    (dissect_radius one_conversation plain_env fresh_session
      (packet_with_attributes 1 5 [26, 7, 0, 0, 0, 9, 1] []) (sample_pinfo 1 0)
      true).exn = true := by
  decide

/-! ## Theorems: EAP-Message attributes -/

/-- C17: a packet with the single attribute EAP-Message (value 1, 2),
followed by two bytes of padding beyond the length field, the first of them
79.  The attribute list is well-formed and its only EAP-Message run ends with
the list, yet the EAP dissector is not called: the look-ahead reads the
padding byte as the type of a next attribute.  Without the padding it is
called once, on the value. -/
theorem eap_not_dissected_before_padding :
    tvb_memcpy (packet_with_attributes 1 5 [79, 4, 1, 2] [79, 0]) 0 4 = some [1, 5, 0, 24] ∧
    plain_avps_end (packet_with_attributes 1 5 [79, 4, 1, 2] [79, 0]) 1 20 = some 24 ∧
    (dissect_radius one_conversation plain_env fresh_session
      (packet_with_attributes 1 5 [79, 4, 1, 2] [79, 0]) (sample_pinfo 1 0)
      true).avp_exit = some avp_exit.done ∧
    (dissect_radius one_conversation plain_env fresh_session
      (packet_with_attributes 1 5 [79, 4, 1, 2] [79, 0]) (sample_pinfo 1 0)
      true).eap_calls = [] ∧
    (dissect_radius one_conversation plain_env fresh_session
      (packet_with_attributes 1 5 [79, 4, 1, 2] []) (sample_pinfo 1 0)
      true).eap_calls = [([1, 2], 2)] := by
  decide

/-- C20: the attribute area holds an EAP-Message attribute (value 1, 2) and
then an attribute whose length byte is 1.  The function leaves through the
`return` for "AVP too short", with the two bytes accumulated in `eap_buffer`,
attached to no tvbuff and not freed. -/
theorem eap_buffer_pending_after_return :
    (dissect_attribute_value_pairs plain_env []
      (packet_with_attributes 1 5 [79, 4, 1, 2, 79, 1] []) 20 6).2 = avp_exit.returned ∧
    (dissect_attribute_value_pairs plain_env []
      (packet_with_attributes 1 5 [79, 4, 1, 2, 79, 1] []) 20 6).1.eap_tvb = none ∧
    (dissect_attribute_value_pairs plain_env []
      (packet_with_attributes 1 5 [79, 4, 1, 2, 79, 1] []) 20 6).1.eap_calls = [] ∧
    pending_eap_buffer (dissect_attribute_value_pairs plain_env []
      (packet_with_attributes 1 5 [79, 4, 1, 2, 79, 1] []) 20 6) = some [1, 2] := by
  decide

end Radius

namespace Radius

/-! ## Lemmas: tables keyed by number -/

theorem g_hash_table_lookup_insert_direct {α : Type} (t : List (Nat × α)) (key : Nat) (v : α) :
    g_hash_table_lookup_direct (g_hash_table_insert_direct t key v) key = some v := by
  induction t with
  | nil => simp [g_hash_table_insert_direct, g_hash_table_lookup_direct]
  | cons e rest ih =>
    obtain ⟨k, x⟩ := e
    by_cases h : k = key
    · simp [g_hash_table_insert_direct, g_hash_table_lookup_direct, h]
    · simp [g_hash_table_insert_direct, g_hash_table_lookup_direct, h, ih]

theorem g_hash_table_lookup_direct_mem {α : Type} (t : List (Nat × α)) (key : Nat) :
    (∃ v, g_hash_table_lookup_direct t key = some v) ↔ key ∈ t.map Prod.fst := by
  induction t with
  | nil => simp [g_hash_table_lookup_direct]
  | cons e rest ih =>
    obtain ⟨k, x⟩ := e
    by_cases h : k = key
    · simp [g_hash_table_lookup_direct, h]
    · have h' : ¬ key = k := fun hk => h hk.symm
      simp only [g_hash_table_lookup_direct, h, if_false, List.map_cons, List.mem_cons, h',
        false_or]
      exact ih

/-- The keys after an insertion: as before when the key was there, otherwise
with the key added at the end. -/
theorem g_hash_table_insert_direct_keys {α : Type} (t : List (Nat × α)) (key : Nat) (v : α) :
    (g_hash_table_insert_direct t key v).map Prod.fst =
      if key ∈ t.map Prod.fst then t.map Prod.fst else t.map Prod.fst ++ [key] := by
  induction t with
  | nil => simp [g_hash_table_insert_direct]
  | cons e rest ih =>
    obtain ⟨k, x⟩ := e
    by_cases h : k = key
    · simp [g_hash_table_insert_direct, h]
    · have h' : ¬ key = k := fun hk => h hk.symm
      simp only [g_hash_table_insert_direct, h, if_false, List.map_cons, ih, List.mem_cons, h',
        false_or]
      split_ifs <;> simp

/-- With unique keys before, the key inserted occurs once afterwards and the
keys are still unique. -/
theorem g_hash_table_insert_direct_count {α : Type} (t : List (Nat × α)) (key : Nat) (v : α)
    (hnodup : (t.map Prod.fst).Nodup) :
    List.count key ((g_hash_table_insert_direct t key v).map Prod.fst) = 1 ∧
    ((g_hash_table_insert_direct t key v).map Prod.fst).Nodup := by
  rw [g_hash_table_insert_direct_keys]
  split_ifs with h
  · exact ⟨List.count_eq_one_of_mem hnodup h, hnodup⟩
  · refine ⟨?_, ?_⟩
    · rw [List.count_append, List.count_eq_zero_of_not_mem h]
      simp
    · rw [List.nodup_append]
      refine ⟨hnodup, List.nodup_singleton _, ?_⟩
      intro a ha hb
      simp only [List.mem_singleton] at hb
      subst hb
      exact h ha

theorem g_hash_table_insert_direct_length {α : Type} (t : List (Nat × α)) (key : Nat) (v v0 : α)
    (h : g_hash_table_lookup_direct t key = some v0) :
    (g_hash_table_insert_direct t key v).length = t.length := by
  induction t with
  | nil => simp [g_hash_table_lookup_direct] at h
  | cons e rest ih =>
    obtain ⟨k, x⟩ := e
    by_cases hk : k = key
    · simp [g_hash_table_insert_direct, hk]
    · simp only [g_hash_table_lookup_direct, hk, if_false] at h
      simp [g_hash_table_insert_direct, hk, ih h]

/-- The table that `vendor_id` selects, after a registration for it: the old
table with the registered entry inserted. -/
theorem attrs_by_id_of_register (sminmpec_values : Nat → Option String)
    (junk : radius_attr_info_t) (dict : radius_dictionary_t) (v a : Nat)
    (d : radius_avp_dissector_t) :
    attrs_by_id_of (radius_register_avp_dissector sminmpec_values junk dict v a d) v =
      g_hash_table_insert_direct (attrs_by_id_of dict v) a
        (registered_entry junk (g_hash_table_lookup_direct (attrs_by_id_of dict v) a) a d) := by
  unfold attrs_by_id_of radius_register_avp_dissector
  by_cases hv : v ≠ 0
  · simp only [hv, if_true, ne_eq, not_false_eq_true, g_hash_table_lookup_insert_direct,
      registered_vendor]
    cases hf : g_hash_table_lookup_direct dict.vendors_by_id v <;> rfl
  · simp only [hv, if_false]

end Radius

namespace Radius

/-! ## Theorems: registration of AVP dissectors -/

/-- C13: after `radius_register_avp_dissector` for vendor `v`, attribute `a`
and dissector `d`, on a dictionary whose table selected by `v` has unique
keys: that table has exactly one entry for `a`, with dissector `d`; if there
was an entry for `a`, the table has as many entries as before and the entry
is the old one with only its dissector changed; and after a second
registration with `d2` the entry for `a` is still single and its dissector is
`d2`. -/
theorem register_avp_dissector_replaces (sminmpec_values : Nat → Option String)
    (junk : radius_attr_info_t) (dict : radius_dictionary_t) (v a : Nat)
    (d d2 : radius_avp_dissector_t)
    (hnodup : ((attrs_by_id_of dict v).map Prod.fst).Nodup) :
    List.count a ((attrs_by_id_of
      (radius_register_avp_dissector sminmpec_values junk dict v a d) v).map Prod.fst) = 1 ∧
    (∃ e, g_hash_table_lookup_direct (attrs_by_id_of
        (radius_register_avp_dissector sminmpec_values junk dict v a d) v) a = some e ∧
      e.dissector = some d ∧
      ∀ e0, g_hash_table_lookup_direct (attrs_by_id_of dict v) a = some e0 →
        (attrs_by_id_of (radius_register_avp_dissector sminmpec_values junk dict v a d) v).length =
          (attrs_by_id_of dict v).length ∧
        e = { e0 with dissector := some d }) ∧
    List.count a ((attrs_by_id_of
      (radius_register_avp_dissector sminmpec_values junk
        (radius_register_avp_dissector sminmpec_values junk dict v a d) v a d2) v).map
        Prod.fst) = 1 ∧
    (∃ e, g_hash_table_lookup_direct (attrs_by_id_of
        (radius_register_avp_dissector sminmpec_values junk
          (radius_register_avp_dissector sminmpec_values junk dict v a d) v a d2) v) a = some e ∧
      e.dissector = some d2 ∧
      (attrs_by_id_of
        (radius_register_avp_dissector sminmpec_values junk
          (radius_register_avp_dissector sminmpec_values junk dict v a d) v a d2) v).length =
        (attrs_by_id_of (radius_register_avp_dissector sminmpec_values junk dict v a d) v).length) := by
  have hdis : ∀ (found : Option radius_attr_info_t) (x : radius_avp_dissector_t),
      (registered_entry junk found a x).dissector = some x := by
    intro found x
    cases found <;> rfl
  obtain ⟨hc1, hn1⟩ := g_hash_table_insert_direct_count (attrs_by_id_of dict v) a
    (registered_entry junk (g_hash_table_lookup_direct (attrs_by_id_of dict v) a) a d) hnodup
  rw [← attrs_by_id_of_register sminmpec_values junk dict v a d] at hc1 hn1
  obtain ⟨hc2, -⟩ := g_hash_table_insert_direct_count
    (attrs_by_id_of (radius_register_avp_dissector sminmpec_values junk dict v a d) v) a
    (registered_entry junk (g_hash_table_lookup_direct
      (attrs_by_id_of (radius_register_avp_dissector sminmpec_values junk dict v a d) v) a) a d2)
    hn1
  rw [← attrs_by_id_of_register sminmpec_values junk _ v a d2] at hc2
  have hl1 : g_hash_table_lookup_direct (attrs_by_id_of
      (radius_register_avp_dissector sminmpec_values junk dict v a d) v) a =
      some (registered_entry junk (g_hash_table_lookup_direct (attrs_by_id_of dict v) a) a d) := by
    rw [attrs_by_id_of_register, g_hash_table_lookup_insert_direct]
  have hl2 : g_hash_table_lookup_direct (attrs_by_id_of
      (radius_register_avp_dissector sminmpec_values junk
        (radius_register_avp_dissector sminmpec_values junk dict v a d) v a d2) v) a =
      some (registered_entry junk (g_hash_table_lookup_direct (attrs_by_id_of
        (radius_register_avp_dissector sminmpec_values junk dict v a d) v) a) a d2) := by
    rw [attrs_by_id_of_register sminmpec_values junk _ v a d2, g_hash_table_lookup_insert_direct]
  refine ⟨hc1, ⟨_, hl1, hdis _ _, ?_⟩, hc2, ⟨_, hl2, hdis _ _, ?_⟩⟩
  · intro e0 he0
    refine ⟨?_, ?_⟩
    · rw [attrs_by_id_of_register]
      exact g_hash_table_insert_direct_length _ _ _ e0 he0
    · rw [he0]
      rfl
  · rw [attrs_by_id_of_register sminmpec_values junk _ v a d2]
    exact g_hash_table_insert_direct_length _ _ _ _ hl1

/-- The inputs of `register_avp_dissector_replaces` exist: on the empty
dictionary, a dissector registered for attribute 5 of vendor 9, and then
another one. -/
theorem register_avp_dissector_replaces_witness :
    ((attrs_by_id_of plain_env.dict 9).map Prod.fst).Nodup ∧
    List.count 5 ((attrs_by_id_of
      (radius_register_avp_dissector plain_env.sminmpec_values no_dictionary_entry
        (radius_register_avp_dissector plain_env.sminmpec_values no_dictionary_entry
          plain_env.dict 9 5 sample_avp_dissector) 9 5 other_avp_dissector) 9).map Prod.fst) = 1 :=
  ⟨by decide,
   (register_avp_dissector_replaces plain_env.sminmpec_values no_dictionary_entry plain_env.dict
      9 5 sample_avp_dissector other_avp_dissector (by decide)).2.2.1⟩

end Radius


namespace AnsiTcap

/-! ## Theorems: the reset of the per-dissection context -/

/-- The record `rad_info` after the reset of `dissect_radius` does not depend
on the record before. -/
theorem rad_info_init_eq (r : Radius.radius_info_t) :
    Radius.rad_info_init r = ⟨0, 0, ⟨0, 0⟩, false, false, 0, 0⟩ := rfl

/-- C18: per-dissection context reset.  Whatever the statics held before,
`dissect_ansi_tcap` calls the decoder `dissect_ansi_tcap_PackageType` with
`ansi_tcap_private` all zero, `FALSE` and `NULL` except for the signature,
with `tcap_subdissector_used = FALSE` and with `gp_tcap_context`, `cur_oid`
and `tcapext_oid` `NULL`; and `dissect_radius` clears the seven fields of
`rad_info` before it reads the packet, so that with a packet of at most
three bytes, too short for the header, the cleared record is what remains, and the result of
dissecting any packet is the same for every prior value of `rad_info`. -/
theorem per_dissection_context_reset {κ : Type} (env : tcap_env) (s : tcap_statics)
    (tvb : Radius.tvbuff_t) (pinfo : tcap_pinfo) (parent_tree : Bool)
    (api : Radius.conversation_api κ) (renv : Radius.radius_env) (rs : Radius.session κ)
    (rtvb : Radius.tvbuff_t) (rpinfo : Radius.packet_info) (tree : Bool)
    (prior : Radius.radius_info_t) :
    dissect_ansi_tcap env s tvb pinfo parent_tree =
      dissect_ansi_tcap_finish env
        (env.dissect_ansi_tcap_PackageType (dissect_ansi_tcap_setup env s pinfo parent_tree).1 tvb)
        tvb ∧
    (dissect_ansi_tcap_setup env s pinfo parent_tree).1.ansi_tcap_private =
      ⟨ANSI_TCAP_CTX_SIGNATURE, false, none, none, none, ⟨0, 0, 0, 0, none⟩⟩ ∧
    (dissect_ansi_tcap_setup env s pinfo parent_tree).1.tcap_subdissector_used = false ∧
    (dissect_ansi_tcap_setup env s pinfo parent_tree).1.gp_tcap_context = none ∧
    (dissect_ansi_tcap_setup env s pinfo parent_tree).1.cur_oid = none ∧
    (dissect_ansi_tcap_setup env s pinfo parent_tree).1.tcapext_oid = none ∧
    Radius.rad_info_init rs.rad_info = ⟨0, 0, ⟨0, 0⟩, false, false, 0, 0⟩ ∧
    (Radius.dissect_radius api renv rs (rtvb.take 3) rpinfo tree).session.rad_info =
      ⟨0, 0, ⟨0, 0⟩, false, false, 0, 0⟩ ∧
    Radius.dissect_radius api renv { rs with rad_info := prior } rtvb rpinfo tree =
      Radius.dissect_radius api renv rs rtvb rpinfo tree := by
  refine ⟨rfl, ?_, ?_, ?_, ?_, ?_, rfl, ?_, rfl⟩
  · unfold dissect_ansi_tcap_setup ansi_tcap_ctx_init ansi_tcap_private_zero
    cases parent_tree <;> rfl
  · unfold dissect_ansi_tcap_setup; cases parent_tree <;> rfl
  · unfold dissect_ansi_tcap_setup; cases parent_tree <;> rfl
  · unfold dissect_ansi_tcap_setup; cases parent_tree <;> rfl
  · unfold dissect_ansi_tcap_setup; cases parent_tree <;> rfl
  · have hlen : (rtvb.take 3).length ≤ 3 := by
      rw [List.length_take]; exact Nat.min_le_left _ _
    have h4 : Radius.tvb_memcpy (rtvb.take 3) 0 4 = none := by
      unfold Radius.tvb_memcpy
      rw [if_neg (by omega)]
    unfold Radius.dissect_radius
    simp only [h4]
    rfl

end AnsiTcap


namespace File

/-! ## Theorems: the numbering of frames -/

/-- A property of both branches of a conditional holds of the conditional. -/
theorem ite_keeps {α : Type} (P : α → Prop) (c : Prop) [Decidable c] (x y : α) (hx : P x)
    (hy : P y) : P (if c then x else y) := by
  split_ifs <;> assumption

/-- What `add_packet_to_packet_list` leaves alone: the number, the links and
the file offset of the frame, and the memory, the list ends, the counter and
the read filter of the capture file. -/
theorem add_packet_to_packet_list_keeps (p : Nat) (fdata : frame_data) (cf : capture_file)
    (buf : List Nat) :
    (add_packet_to_packet_list p fdata cf buf).1.num = fdata.num ∧
    (add_packet_to_packet_list p fdata cf buf).1.prev = fdata.prev ∧
    (add_packet_to_packet_list p fdata cf buf).1.next = fdata.next ∧
    (add_packet_to_packet_list p fdata cf buf).1.file_off = fdata.file_off ∧
    (add_packet_to_packet_list p fdata cf buf).2.frames = cf.frames ∧
    (add_packet_to_packet_list p fdata cf buf).2.plist = cf.plist ∧
    (add_packet_to_packet_list p fdata cf buf).2.plist_end = cf.plist_end ∧
    (add_packet_to_packet_list p fdata cf buf).2.count = cf.count ∧
    (add_packet_to_packet_list p fdata cf buf).2.rfcode = cf.rfcode := by
  unfold add_packet_to_packet_list
  dsimp only
  exact ite_keeps
    (fun out : frame_data × capture_file =>
      out.1.num = fdata.num ∧ out.1.prev = fdata.prev ∧ out.1.next = fdata.next ∧
      out.1.file_off = fdata.file_off ∧ out.2.frames = cf.frames ∧ out.2.plist = cf.plist ∧
      out.2.plist_end = cf.plist_end ∧ out.2.count = cf.count ∧ out.2.rfcode = cf.rfcode)
    _ _ _ ⟨rfl, rfl, rfl, rfl, rfl, rfl, rfl, rfl, rfl⟩ ⟨rfl, rfl, rfl, rfl, rfl, rfl, rfl, rfl, rfl⟩

/-- A record that the read filter rejects changes nothing. -/
theorem wtap_dispatch_cb_rejected (cf : capture_file) (r : wtap_record)
    (h : read_filter_passed cf.rfcode r = false) : wtap_dispatch_cb cf r = cf := by
  unfold wtap_dispatch_cb
  rw [h]
  rfl

/-- The frames after `set_next`: as many, and the same but for the member
`next` of the frame at the address. -/
theorem set_next_getElem? (frames : List frame_data) (p : Nat) (q : Option Nat) (i : Nat) :
    (set_next frames p q)[i]? =
      (frames[i]?).map (fun f => if p = i then { f with next := q } else f) := by
  unfold set_next
  cases hp : frames[p]? with
  | none =>
    dsimp only
    by_cases hpi : p = i
    · subst hpi; rw [hp]; rfl
    · cases frames[i]? <;> simp [hpi]
  | some f =>
    dsimp only
    rw [List.getElem?_set]
    by_cases hpi : p = i
    · subst hpi
      have hlt : p < frames.length := by
        by_contra hge
        rw [List.getElem?_eq_none (Nat.le_of_not_lt hge)] at hp
        cases hp
      simp [hp, hlt]
    · cases frames[i]? <;> simp [hpi]

/-- The length after `set_next`. -/
theorem set_next_length (frames : List frame_data) (p : Nat) (q : Option Nat) :
    (set_next frames p q).length = frames.length := by
  unfold set_next
  cases frames[p]? <;> simp

/-- The file offsets after `set_next`. -/
theorem set_next_file_off (frames : List frame_data) (p : Nat) (q : Option Nat) :
    (set_next frames p q).map frame_data.file_off = frames.map frame_data.file_off := by
  apply List.ext_getElem?
  intro i
  rw [List.getElem?_map, set_next_getElem?, List.getElem?_map]
  cases frames[i]? with
  | none => rfl
  | some f =>
    simp only [Option.map_some']
    split_ifs <;> rfl

/-- The frames after a record that the read filter lets pass: the old ones
with `next` of the last set, and the new frame at the end. -/
theorem wtap_dispatch_cb_accepted (cf : capture_file) (r : wtap_record)
    (h : read_filter_passed cf.rfcode r = true) :
    ∃ fdata : frame_data,
      fdata.num = to_guint32 (to_int (cf.count + 1)) ∧ fdata.prev = cf.plist_end ∧
      fdata.next = none ∧ fdata.file_off = r.offset ∧
      (wtap_dispatch_cb cf r).frames =
        (match cf.plist_end with
         | some plist_end => set_next cf.frames plist_end (some cf.frames.length)
         | none => cf.frames) ++ [fdata] ∧
      (wtap_dispatch_cb cf r).plist =
        (match cf.plist_end with
         | some _ => cf.plist
         | none => some cf.frames.length) ∧
      (wtap_dispatch_cb cf r).plist_end = some cf.frames.length ∧
      (wtap_dispatch_cb cf r).count = to_int (cf.count + 1) ∧
      (wtap_dispatch_cb cf r).rfcode = cf.rfcode := by
  unfold wtap_dispatch_cb
  rw [if_pos h]
  dsimp only
  obtain ⟨h1, h2, h3, h4, h5, h6, h7, h8, h9⟩ :=
    add_packet_to_packet_list_keeps cf.frames.length
      { new_frame r with prev := cf.plist_end, num := to_guint32 (to_int (cf.count + 1)) }
      { cf with
        frames :=
          (match cf.plist_end with
           | some plist_end => set_next cf.frames plist_end (some cf.frames.length)
           | none => cf.frames),
        plist :=
          (match cf.plist_end with
           | some _ => cf.plist
           | none => some cf.frames.length),
        plist_end := some cf.frames.length, count := to_int (cf.count + 1) } r.buf
  exact ⟨_, h1, h2, h3, h4, by rw [h5], h6, h7, h8, h9⟩

/-- The counter after one more frame, while it fits an `int`. -/
theorem count_succ (n : Nat) (h : n + 1 < 2 ^ 31) :
    to_int ((n : Int) + 1) = ((n + 1 : Nat) : Int) ∧
    to_guint32 (to_int ((n : Int) + 1)) = n + 1 := by
  have h1 : to_int ((n : Int) + 1) = ((n + 1 : Nat) : Int) := by
    unfold to_int
    push_cast
    norm_num at h ⊢
    omega
  refine ⟨h1, ?_⟩
  rw [h1]
  unfold to_guint32
  norm_num at h ⊢
  omega

/-- A well-formed list of `n` frames is well formed with `n + 1` frames after
a record that the read filter lets pass, and the new frame is the last. -/
theorem plist_ok_accepted (cf : capture_file) (n : Nat) (r : wtap_record) (hok : plist_ok cf n)
    (hn : n + 1 < 2 ^ 31) (h : read_filter_passed cf.rfcode r = true) :
    plist_ok (wtap_dispatch_cb cf r) (n + 1) ∧
    (wtap_dispatch_cb cf r).frames.map frame_data.file_off =
      cf.frames.map frame_data.file_off ++ [r.offset] ∧
    (wtap_dispatch_cb cf r).rfcode = cf.rfcode := by
  obtain ⟨hlen, hcount, hplist, hend, hframes⟩ := hok
  obtain ⟨fdata, fnum, fprev, fnext, foff, eframes, eplist, eend, ecount, erf⟩ :=
    wtap_dispatch_cb_accepted cf r h
  rw [hcount] at fnum ecount
  rw [(count_succ n hn).2] at fnum
  rw [(count_succ n hn).1] at ecount
  rw [hend] at fprev eframes eplist
  rw [hlen] at eframes eplist eend
  refine ⟨⟨?_, ecount, ?_, ?_, ?_⟩, ?_, erf⟩
  · rw [eframes]
    by_cases h0 : n = 0
    · simp [h0, hlen]
    · simp [h0, hlen, set_next_length]
  · rw [eplist]
    by_cases h0 : n = 0
    · simp [h0]
    · simp [h0, hplist]
  · rw [eend]; simp
  · intro i f hf
    rw [eframes] at hf
    have hlen1 : (match (if n = 0 then none else some (n - 1) : Option Nat) with
        | some plist_end => set_next cf.frames plist_end (some n)
        | none => cf.frames).length = n := by
      by_cases h0 : n = 0
      · simp [h0, hlen]
      · simp [h0, hlen, set_next_length]
    rw [List.getElem?_append, hlen1] at hf
    by_cases hi : i < n
    · rw [if_pos hi] at hf
      have h0 : n ≠ 0 := by omega
      rw [if_neg h0] at hf
      dsimp only at hf
      rw [set_next_getElem?] at hf
      cases hg : cf.frames[i]? with
      | none => rw [hg] at hf; cases hf
      | some g =>
        rw [hg] at hf
        simp only [Option.map_some', Option.some.injEq] at hf
        obtain ⟨gnum, gprev, gnext⟩ := hframes i g hg
        by_cases hlast : n - 1 = i
        · rw [if_pos hlast] at hf
          subst hf
          refine ⟨gnum, gprev, ?_⟩
          have : ¬ (i + 1 = n + 1) := by omega
          simp only [this, if_false]
          congr 1
          omega
        · rw [if_neg hlast] at hf
          subst hf
          refine ⟨gnum, gprev, ?_⟩
          rw [gnext]
          have h1 : ¬ (i + 1 = n) := by omega
          have h2 : ¬ (i + 1 = n + 1) := by omega
          simp only [h1, h2, if_false]
    · rw [if_neg hi] at hf
      have hin : i = n := by
        by_contra hne
        have : i - n ≠ 0 := by omega
        obtain ⟨k, hk⟩ := Nat.exists_eq_succ_of_ne_zero this
        rw [hk] at hf
        simp at hf
      subst hin
      simp only [Nat.sub_self, List.getElem?_cons_zero, Option.some.injEq] at hf
      subst hf
      refine ⟨fnum, ?_, ?_⟩
      · rw [fprev]
      · rw [fnext]; simp
  · rw [eframes, List.map_append]
    congr 1
    · by_cases h0 : n = 0
      · simp [h0]
      · simp [h0, set_next_file_off]
    · simp [foff]

/-- The list stays well formed while `wtap_loop` delivers records: the frames
added are those of the records that the read filter lets pass, in order. -/
theorem plist_ok_wtap_loop (records : List wtap_record) :
    ∀ (cf : capture_file) (n : Nat), plist_ok cf n → n + records.length < 2 ^ 31 →
      plist_ok (wtap_loop cf records)
        (n + (records.filter (read_filter_passed cf.rfcode)).length) ∧
      (wtap_loop cf records).frames.map frame_data.file_off =
        cf.frames.map frame_data.file_off ++
          (records.filter (read_filter_passed cf.rfcode)).map wtap_record.offset := by
  induction records with
  | nil =>
    intro cf n hok _
    exact ⟨hok, by simp [wtap_loop]⟩
  | cons r rest ih =>
    intro cf n hok hn
    simp only [List.length_cons] at hn
    unfold wtap_loop
    rw [List.foldl_cons]
    change plist_ok (wtap_loop (wtap_dispatch_cb cf r) rest) _ ∧
      (wtap_loop (wtap_dispatch_cb cf r) rest).frames.map frame_data.file_off = _
    cases h : read_filter_passed cf.rfcode r with
    | false =>
      rw [wtap_dispatch_cb_rejected cf r h, List.filter_cons_of_neg (by simp [h])]
      exact ih cf n hok (by omega)
    | true =>
      obtain ⟨hok1, hoff, hrf⟩ := plist_ok_accepted cf n r hok (by omega) h
      obtain ⟨hok2, hoff2⟩ := ih (wtap_dispatch_cb cf r) (n + 1) hok1 (by omega)
      rw [hrf] at hok2 hoff2
      rw [List.filter_cons_of_pos (by simp [h])]
      refine ⟨?_, ?_⟩
      · rw [List.length_cons]
        have e : n + ((rest.filter (read_filter_passed cf.rfcode)).length + 1) =
            n + 1 + (rest.filter (read_filter_passed cf.rfcode)).length := by omega
        rw [e]
        exact hok2
      · rw [hoff2, hoff]
        simp

/-- Walking a well-formed list forwards from the frame at address `i` visits
the frames from `i` on. -/
theorem frame_list_drop (frames : List frame_data)
    (hnext : ∀ i f, frames[i]? = some f →
      f.next = (if i + 1 = frames.length then none else some (i + 1))) :
    ∀ (d i : Nat), i + d = frames.length →
      frame_list frames (d + 1) (if i = frames.length then none else some i) = frames.drop i := by
  intro d
  induction d with
  | zero =>
    intro i hi
    have : i = frames.length := by omega
    rw [if_pos this, this, List.drop_length]
    rfl
  | succ d ih =>
    intro i hi
    have hlt : i < frames.length := by omega
    rw [if_neg (by omega)]
    unfold frame_list
    rw [List.getElem?_eq_getElem hlt]
    dsimp only
    rw [hnext i _ (List.getElem?_eq_getElem hlt), ih (i + 1) (by omega)]
    exact (List.drop_eq_getElem_cons hlt).symm

/-- Walking a well-formed list backwards from the frame before address `i`
visits the frames before `i`, last first. -/
theorem frame_list_back_take (frames : List frame_data)
    (hprev : ∀ i f, frames[i]? = some f → f.prev = (if i = 0 then none else some (i - 1))) :
    ∀ (i : Nat), i ≤ frames.length →
      frame_list_back frames (i + 1) (if i = 0 then none else some (i - 1)) =
        (frames.take i).reverse := by
  intro i
  induction i with
  | zero =>
    intro _
    rfl
  | succ i ih =>
    intro hi
    have hlt : i < frames.length := by omega
    rw [if_neg (by omega)]
    unfold frame_list_back
    simp only [Nat.add_sub_cancel]
    rw [List.getElem?_eq_getElem hlt]
    dsimp only
    rw [hprev i _ (List.getElem?_eq_getElem hlt), ih (by omega), List.take_succ,
      List.getElem?_eq_getElem hlt]
    simp only [Option.toList, List.reverse_append, List.reverse_cons, List.reverse_nil,
      List.nil_append, List.singleton_append, List.cons_append]

/-- The list of a capture file that has just been opened is well formed and
empty, whatever read filter is then set. -/
theorem plist_ok_open_cap_file (cf0 : capture_file) (rfcode : Option dfilter) :
    plist_ok { open_cap_file cf0 with rfcode := rfcode } 0 := by
  refine ⟨rfl, rfl, rfl, rfl, ?_⟩
  intro i f hf
  simp [open_cap_file, close_cap_file] at hf

/-- C19: frame numbering.  After `open_cap_file` and the attachment of any
read filter, let `wtap_loop` deliver fewer than 2^31 records to
`wtap_dispatch_cb`.  Then the list holds one frame for each record that the
read filter lets pass, in the order of delivery; the frames carry the numbers
1, 2, ..., n; `cf->count` is n; `plist` is the first and `plist_end` the last
frame, the member `prev` of each frame is the frame before and `next` the
frame after, so that walking from `plist` by `next` visits every frame in
order and walking from `plist_end` by `prev` visits them in reverse; no frame
has number 0; and a record that the read filter rejects leaves the capture
file as it was. -/
theorem frame_numbering (cf0 : capture_file) (rfcode : Option dfilter)
    (records : List wtap_record) (hrecords : records.length < 2 ^ 31) :
    let cf := wtap_loop { open_cap_file cf0 with rfcode := rfcode } records
    let n := (records.filter (read_filter_passed rfcode)).length
    cf.frames.map frame_data.num = List.range' 1 n ∧
    cf.count = n ∧
    cf.frames.length = n ∧
    cf.frames.map frame_data.file_off =
      (records.filter (read_filter_passed rfcode)).map wtap_record.offset ∧
    cf.plist = (if n = 0 then none else some 0) ∧
    cf.plist_end = (if n = 0 then none else some (n - 1)) ∧
    (∀ i f, cf.frames[i]? = some f →
      f.prev = (if i = 0 then none else some (i - 1)) ∧
      f.next = (if i + 1 = n then none else some (i + 1))) ∧
    frame_list cf.frames (n + 1) cf.plist = cf.frames ∧
    frame_list_back cf.frames (n + 1) cf.plist_end = cf.frames.reverse ∧
    (∀ f ∈ cf.frames, f.num ≠ 0) ∧
    (∀ (c : capture_file) (r : wtap_record), read_filter_passed c.rfcode r = false →
      wtap_dispatch_cb c r = c) := by
  intro cf n
  obtain ⟨⟨hlen, hcount, hplist, hend, hframes⟩, hoff⟩ :=
    plist_ok_wtap_loop records _ 0 (plist_ok_open_cap_file cf0 rfcode) (by omega)
  simp only [Nat.zero_add] at hlen hcount hplist hend hframes
  change cf.frames.length = n at hlen
  change cf.count = n at hcount
  change cf.plist = _ at hplist
  change cf.plist_end = _ at hend
  change ∀ i f, cf.frames[i]? = some f → _ at hframes
  change cf.frames.map frame_data.file_off = _ at hoff
  have hnum : cf.frames.map frame_data.num = List.range' 1 n := by
    apply List.ext_getElem?
    intro i
    rw [List.getElem?_map]
    by_cases hi : i < n
    · rw [List.getElem?_eq_getElem (by omega : i < cf.frames.length),
        List.getElem?_eq_getElem (by simpa using hi), List.getElem_range']
      simp only [Option.map_some', Option.some.injEq]
      rw [(hframes i _ (List.getElem?_eq_getElem (by omega : i < cf.frames.length))).1]
      omega
    · rw [List.getElem?_eq_none (by omega), List.getElem?_eq_none (by simp; omega)]
      rfl
  refine ⟨hnum, hcount, hlen, ?_, hplist, hend, fun i f hf => (hframes i f hf).2, ?_, ?_, ?_,
    wtap_dispatch_cb_rejected⟩
  · rw [hoff]
    rfl
  · have h := frame_list_drop cf.frames
      (fun i f hf => by rw [hlen]; exact (hframes i f hf).2.2) n 0 (by omega)
    rw [hlen] at h
    rw [hplist]
    have e : (if 0 = n then none else some 0 : Option Nat) = (if n = 0 then none else some 0) := by
      by_cases h0 : n = 0
      · simp [h0]
      · rw [if_neg h0, if_neg (fun h => h0 h.symm)]
    rw [← e, h]
    rfl
  · have h := frame_list_back_take cf.frames (fun i f hf => (hframes i f hf).2.1) n (by omega)
    rw [hend, h, ← hlen, List.take_length]
  · intro f hf
    obtain ⟨i, hi, rfl⟩ := List.getElem_of_mem hf
    rw [(hframes i _ (List.getElem?_eq_getElem hi)).1]
    omega

/-- The inputs of `frame_numbering` exist: four records read with a filter
that rejects the second and the third leave two frames, numbered 1 and 2, at
the file offsets of the first and the fourth record. -/
theorem frame_numbering_witness :
    sample_records.length < 2 ^ 31 ∧
    (wtap_loop { open_cap_file stale_capture_file with rfcode := some even_second_filter }
      sample_records).frames.map frame_data.num = [1, 2] ∧
    (wtap_loop { open_cap_file stale_capture_file with rfcode := some even_second_filter }
      sample_records).frames.map frame_data.file_off = [24, 252] :=
  ⟨by decide,
   (frame_numbering stale_capture_file (some even_second_filter) sample_records (by decide)).1,
   (frame_numbering stale_capture_file (some even_second_filter) sample_records
      (by decide)).2.2.2.1⟩

end File


namespace Wtp

/-! ## Theorems: the display of reassembled fragments -/

end Wtp


namespace Wtp

/-! ## Theorems: the hand-off to reassembly and to WSP -/

/-- An offset exists when it is neither beyond the reported length nor
beyond the captured bytes. -/
theorem tvb_offset_exists_iff (tvb : tvbuff_t) (offset : Nat) :
    tvb_offset_exists tvb offset = true ↔
      (offset ≤ tvb.reported_length ∧ offset ≤ tvb.data.length) := by
  unfold tvb_offset_exists
  exact decide_eq_true_iff

/-- Bytes are readable when they start at most at the reported length and
are all captured. -/
theorem tvb_bytes_readable_iff (tvb : tvbuff_t) (offset length : Nat) :
    tvb_bytes_readable tvb offset length = true ↔
      (offset ≤ tvb.reported_length ∧ offset + length ≤ tvb.data.length) := by
  unfold tvb_bytes_readable
  rw [Bool.and_eq_true, tvb_offset_exists_iff, decide_eq_true_iff]
  constructor
  · rintro ⟨⟨a, _⟩, c⟩
    exact ⟨a, c⟩
  · rintro ⟨a, c⟩
    exact ⟨⟨a, by omega⟩, c⟩

/-- A byte that `tvb_get_guint8` reads lies within the reported length and
within the captured bytes. -/
theorem tvb_get_guint8_some (tvb : tvbuff_t) (offset b : Nat)
    (h : tvb_get_guint8 tvb offset = some b) :
    offset ≤ tvb.reported_length ∧ offset < tvb.data.length := by
  unfold tvb_get_guint8 at h
  split_ifs at h with hr
  obtain ⟨a, c⟩ := (tvb_bytes_readable_iff tvb offset 1).mp hr
  exact ⟨a, by omega⟩

end Wtp


namespace Wtp

/-- The scan of the TPIs does not run out of fuel: once the fuel exceeds the
bytes that remain, more fuel changes nothing, so that `none` from
`variable_header` always stands for a read that throws. -/
theorem tpi_scan_fuel (tvb : tvbuff_t) (cbHeader : Nat) :
    ∀ fuel vHeader, tvb.data.length < cbHeader + vHeader + fuel →
      tpi_scan tvb cbHeader (fuel + 1) vHeader = tpi_scan tvb cbHeader fuel vHeader := by
  intro fuel
  induction fuel with
  | zero =>
    intro vHeader hlen
    have hnone : tvb_get_guint8 tvb (cbHeader + vHeader) = none := by
      cases hg : tvb_get_guint8 tvb (cbHeader + vHeader) with
      | none => rfl
      | some b =>
        have := (tvb_get_guint8_some tvb _ b hg).2
        omega
    unfold tpi_scan
    rw [hnone]
  | succ fuel ih =>
    intro vHeader hlen
    rw [tpi_scan, tpi_scan]
    cases h1 : tvb_get_guint8 tvb (cbHeader + vHeader) with
    | none => rfl
    | some tByte =>
      dsimp only
      have hlt : cbHeader + vHeader < tvb.data.length :=
        (tvb_get_guint8_some tvb _ tByte h1).2
      split_ifs with h4 h8 h8
      · cases h2 : tvb_get_guint8 tvb (cbHeader + vHeader + 1) with
        | none => rfl
        | some len =>
          dsimp only
          exact ih (vHeader + len + 2) (by omega)
      · rfl
      · exact ih (vHeader + (tByte &&& 0x03) + 1) (by omega)
      · rfl

end Wtp


namespace UsbHub

/-! ## Theorems: the lookup of the class-specific request -/

/-- The lookup finds nothing exactly when no entry of the table has the
request type and the request. -/
theorem find_dissector_eq_none (table : List usb_setup_dissector_table_t) (t : usb_trans_info_t) :
    find_dissector table t = none ↔
      ¬ ∃ e ∈ table, e.request_type = t.requesttype ∧ e.request = t.request := by
  induction table with
  | nil => simp [find_dissector]
  | cons tmp rest ih =>
    unfold find_dissector
    by_cases h : tmp.request_type = t.requesttype ∧ tmp.request = t.request
    · rw [if_pos h]
      simp only [List.mem_cons, exists_eq_or_imp, reduceCtorEq, false_iff, not_not]
      exact Or.inl h
    · rw [if_neg h, ih]
      simp only [List.mem_cons, exists_eq_or_imp, not_or]
      exact ⟨fun hr => ⟨h, hr⟩, fun hr => hr.2⟩

/-- What the lookup finds is the dissector of the first entry of the table
that has the request type and the request. -/
theorem find_dissector_eq_some (table : List usb_setup_dissector_table_t) (t : usb_trans_info_t)
    (d : usb_setup_dissector) (hd : find_dissector table t = some d) :
    ∃ before e after, table = before ++ e :: after ∧
      (∀ x ∈ before, ¬ (x.request_type = t.requesttype ∧ x.request = t.request)) ∧
      e.request_type = t.requesttype ∧ e.request = t.request ∧ d = e.dissector := by
  induction table with
  | nil => simp [find_dissector] at hd
  | cons tmp rest ih =>
    unfold find_dissector at hd
    by_cases h : tmp.request_type = t.requesttype ∧ tmp.request = t.request
    · rw [if_pos h] at hd
      refine ⟨[], tmp, rest, rfl, ?_, h.1, h.2, (Option.some.inj hd).symm⟩
      intro x hx
      cases hx
    · rw [if_neg h] at hd
      obtain ⟨before, e, after, htab, hbefore, h1, h2, h3⟩ := ih hd
      refine ⟨tmp :: before, e, after, by rw [htab]; rfl, ?_, h1, h2, h3⟩
      intro x hx
      rcases List.mem_cons.mp hx with hx | hx
      · rw [hx]; exact h
      · exact hbefore x hx

/-- The statements of a setup dissector throw exactly when one of them reads
past the end of the buffer. -/
theorem run_ops_exn (tvb : Radius.tvbuff_t) (offset : Nat) (ops : List tree_op) :
    ∀ st : tree_state, (run_ops tvb offset ops st).2 = true ↔
      ∃ op ∈ ops, tvb.length < offset + op.extent := by
  induction ops with
  | nil =>
    intro st
    simp [run_ops]
  | cons op rest ih =>
    intro st
    cases op with
    | item hf o length assign =>
      unfold run_ops
      by_cases h : offset + o + length ≤ tvb.length
      · rw [if_pos h, ih]
        simp only [List.mem_cons, exists_eq_or_imp, tree_op.extent]
        constructor
        · intro hr; exact Or.inr hr
        · rintro (hl | hr)
          · omega
          · exact hr
      · rw [if_neg h]
        simp only [List.mem_cons, exists_eq_or_imp, tree_op.extent, true_iff]
        left
        omega
    | sub hf o length =>
      unfold run_ops
      by_cases h : offset + o + length ≤ tvb.length
      · rw [if_pos h, ih]
        simp only [List.mem_cons, exists_eq_or_imp, tree_op.extent]
        constructor
        · intro hr; exact Or.inr hr
        · rintro (hl | hr)
          · omega
          · exact hr
      · rw [if_neg h]
        simp only [List.mem_cons, exists_eq_or_imp, tree_op.extent, true_iff]
        left
        omega

/-- Every dissector of the table is made of statements that read the six
bytes after the request byte, and none beyond. -/
theorem setup_dissectors_ops :
    ∀ e ∈ setup_dissectors, ∃ ops : List tree_op, e.dissector = setup_request ops ∧
      (∀ op ∈ ops, op.extent ≤ 6) ∧ (∃ op ∈ ops, op.extent = 6) := by
  unfold setup_dissectors
  simp only [List.forall_mem_cons, List.not_mem_nil, false_implies, implies_true, and_true]
  refine ⟨⟨_, rfl, by decide, by decide⟩, ⟨_, rfl, by decide, by decide⟩,
    ⟨_, rfl, by decide, by decide⟩, ⟨_, rfl, by decide, by decide⟩,
    ⟨_, rfl, by decide, by decide⟩, ⟨_, rfl, by decide, by decide⟩,
    ⟨_, rfl, by decide, by decide⟩, ⟨_, rfl, by decide, by decide⟩,
    ⟨_, rfl, by decide, by decide⟩, ⟨_, rfl, by decide, by decide⟩,
    ⟨_, rfl, by decide, by decide⟩, ⟨_, rfl, by decide, by decide⟩⟩

/-- A dissector of the table throws exactly when it is called for a request,
with a tree, on a buffer that ends before the six bytes it reads. -/
theorem setup_dissector_exn (e : usb_setup_dissector_table_t) (he : e ∈ setup_dissectors)
    (tree : Bool) (tvb : Radius.tvbuff_t) (offset : Nat) (is_request : Bool) :
    (e.dissector tree tvb offset is_request).exn = true ↔
      is_request = true ∧ tree = true ∧ tvb.length < offset + 6 := by
  obtain ⟨ops, hd, hle, op6, hop6, h6⟩ := setup_dissectors_ops e he
  rw [hd]
  unfold setup_request
  by_cases hc : is_request = true ∧ tree = true
  · rw [if_pos hc]
    dsimp only
    rw [run_ops_exn]
    constructor
    · rintro ⟨op, hop, hlt⟩
      have := hle op hop
      exact ⟨hc.1, hc.2, by omega⟩
    · rintro ⟨_, _, hlt⟩
      exact ⟨op6, hop6, by omega⟩
  · rw [if_neg hc]
    constructor
    · intro h; cases h
    · rintro ⟨h1, h2, _⟩
      exact absurd ⟨h1, h2⟩ hc

/-- C14, counterexample: the table has the entry for ClearHubFeature
(request type 0x20, request 1), but for a request with a tree whose buffer
holds only the first three of the seven setup bytes
`dissect_usb_hub_control` does not return `TRUE`: the read of `wIndex` throws,
after the columns have been written. -/
theorem usb_hub_control_cut_short :
    (∃ e ∈ setup_dissectors,
      e.request_type = sample_pinfo.usb_trans_info.requesttype ∧
      e.request = sample_pinfo.usb_trans_info.request) ∧
    (dissect_usb_hub_control [1, 0, 0] sample_pinfo true).ret = none ∧
    (dissect_usb_hub_control [1, 0, 0] sample_pinfo true).cinfo.col_protocol = [⟨"USBHUB", []⟩] ∧
    (dissect_usb_hub_control [1, 0, 0, 0, 0, 0, 0] sample_pinfo true).ret = some true ∧
    (dissect_usb_hub_control [1, 0, 0] sample_pinfo false).ret = some true := by
  decide

/-- C14: the lookup of the USB hub control request.  For every request type
and request of the transaction, `dissect_usb_hub_control` returns `FALSE`
exactly when `setup_dissectors` has no entry with that request type and
request, and then it has added no item and left the columns alone; it returns
`TRUE` exactly when there is such an entry and the dissection is not cut
short, that is, unless the packet is a request dissected with a tree and the
buffer has fewer than seven bytes, in which case an exception ends it; and
when it returns `TRUE` the items are the request item, for a request with a
tree, followed by those of the dissector of the first matching entry, called
at offset 1 for a request and 0 for a response. -/
theorem usb_hub_control_lookup (tvb : Radius.tvbuff_t) (pinfo : packet_info) (tree : Bool) :
    ((dissect_usb_hub_control tvb pinfo tree).ret = some false ↔
      ¬ ∃ e ∈ setup_dissectors, e.request_type = pinfo.usb_trans_info.requesttype ∧
          e.request = pinfo.usb_trans_info.request) ∧
    ((dissect_usb_hub_control tvb pinfo tree).ret = some false →
      (dissect_usb_hub_control tvb pinfo tree).nodes = [] ∧
      (dissect_usb_hub_control tvb pinfo tree).cinfo = pinfo.cinfo) ∧
    ((dissect_usb_hub_control tvb pinfo tree).ret = some true ↔
      (∃ e ∈ setup_dissectors, e.request_type = pinfo.usb_trans_info.requesttype ∧
          e.request = pinfo.usb_trans_info.request) ∧
      ¬ (pinfo.srcport = NO_ENDPOINT ∧ tree = true ∧ tvb.length < 7)) ∧
    ((dissect_usb_hub_control tvb pinfo tree).ret = some true →
      ∃ before e after, setup_dissectors = before ++ e :: after ∧
        (∀ x ∈ before, ¬ (x.request_type = pinfo.usb_trans_info.requesttype ∧
          x.request = pinfo.usb_trans_info.request)) ∧
        e.request_type = pinfo.usb_trans_info.requesttype ∧
        e.request = pinfo.usb_trans_info.request ∧
        (dissect_usb_hub_control tvb pinfo tree).nodes =
          (if pinfo.srcport = NO_ENDPOINT ∧ tree = true then
             [field_item tvb "hf_usb_hub_request" 0 1] else []) ++
          (e.dissector tree tvb (if pinfo.srcport = NO_ENDPOINT then 1 else 0)
            (decide (pinfo.srcport = NO_ENDPOINT))).nodes) := by
  cases hfind : find_dissector setup_dissectors pinfo.usb_trans_info with
  | none =>
    have hnone := (find_dissector_eq_none _ _).mp hfind
    have hret : (dissect_usb_hub_control tvb pinfo tree).ret = some false := by
      unfold dissect_usb_hub_control
      simp only [hfind]
    have hnodes : (dissect_usb_hub_control tvb pinfo tree).nodes = [] := by
      unfold dissect_usb_hub_control
      simp only [hfind]
    have hcinfo : (dissect_usb_hub_control tvb pinfo tree).cinfo = pinfo.cinfo := by
      unfold dissect_usb_hub_control
      simp only [hfind]
    rw [hret]
    refine ⟨⟨fun _ => hnone, fun _ => rfl⟩, fun _ => ⟨hnodes, hcinfo⟩, ?_, ?_⟩
    · constructor
      · intro h; cases h
      · intro h; exact absurd h.1 hnone
    · intro h; cases h
  | some d =>
    obtain ⟨before, e, after, htab, hbefore, h1, h2, hd⟩ := find_dissector_eq_some _ _ d hfind
    have he : e ∈ setup_dissectors := by rw [htab]; simp
    have hfound : ∃ e ∈ setup_dissectors, e.request_type = pinfo.usb_trans_info.requesttype ∧
        e.request = pinfo.usb_trans_info.request := ⟨e, he, h1, h2⟩
    by_cases hreq : pinfo.srcport = NO_ENDPOINT
    · by_cases htree : tree = true
      · by_cases hlen : tvb.length < 7
        · have hret : (dissect_usb_hub_control tvb pinfo tree).ret = none := by
            unfold dissect_usb_hub_control
            simp only [hfind, hreq, htree, decide_True, true_and]
            by_cases h0 : 0 + 1 ≤ tvb.length
            · simp only [h0, not_true_eq_false, if_false, if_true]
              rw [hd, if_pos ((setup_dissector_exn e he true tvb 1 true).mpr ⟨rfl, rfl, by omega⟩)]
            · simp only [h0, not_false_eq_true, if_true]
          rw [hret]
          refine ⟨⟨fun h => (by cases h), fun h => absurd hfound h⟩, fun h => (by cases h), ?_, ?_⟩
          · constructor
            · intro h; cases h
            · intro h; exact absurd ⟨hreq, htree, hlen⟩ h.2
          · intro h; cases h
        · have hexn : (e.dissector true tvb 1 true).exn = false := by
            rw [Bool.eq_false_iff]
            intro hx
            have := (setup_dissector_exn e he true tvb 1 true).mp hx
            omega
          have h0 : 0 + 1 ≤ tvb.length := by omega
          have hret : (dissect_usb_hub_control tvb pinfo tree).ret = some true := by
            unfold dissect_usb_hub_control
            simp only [hfind, hreq, htree, decide_True, true_and, h0, not_true_eq_false, if_false,
              if_true, hd, hexn, Bool.false_eq_true]
          have hnodes : (dissect_usb_hub_control tvb pinfo tree).nodes =
              [field_item tvb "hf_usb_hub_request" 0 1] ++ (e.dissector true tvb 1 true).nodes := by
            unfold dissect_usb_hub_control
            simp only [hfind, hreq, htree, decide_True, true_and, h0, not_true_eq_false, if_false,
              if_true, hd, and_self]
          rw [hret]
          refine ⟨⟨fun h => (by cases h), fun h => absurd hfound h⟩, fun h => (by cases h), ?_, ?_⟩
          · exact ⟨fun _ => ⟨hfound, fun h => hlen h.2.2⟩, fun _ => rfl⟩
          · intro _
            refine ⟨before, e, after, htab, hbefore, h1, h2, ?_⟩
            rw [hnodes]
            simp only [hreq, htree, and_self, if_true, decide_True]
      · have htree2 : tree = false := by cases tree <;> simp_all
        have hexn : (e.dissector false tvb 1 true).exn = false := by
          rw [Bool.eq_false_iff]
          intro hx
          have := (setup_dissector_exn e he false tvb 1 true).mp hx
          exact absurd this.2.1 (by decide)
        have hret : (dissect_usb_hub_control tvb pinfo tree).ret = some true := by
          unfold dissect_usb_hub_control
          simp only [hfind, hreq, htree2, decide_True, Bool.false_eq_true, false_and, and_false,
            if_false, if_true, hd, hexn]
        have hnodes : (dissect_usb_hub_control tvb pinfo tree).nodes =
            [] ++ (e.dissector false tvb 1 true).nodes := by
          unfold dissect_usb_hub_control
          simp only [hfind, hreq, htree2, decide_True, Bool.false_eq_true, false_and, and_false,
            if_false, if_true, hd]
        rw [hret]
        refine ⟨⟨fun h => (by cases h), fun h => absurd hfound h⟩, fun h => (by cases h), ?_, ?_⟩
        · exact ⟨fun _ => ⟨hfound, fun h => htree h.2.1⟩, fun _ => rfl⟩
        · intro _
          refine ⟨before, e, after, htab, hbefore, h1, h2, ?_⟩
          rw [hnodes, htree2]
          simp only [hreq, Bool.false_eq_true, and_false, if_false, if_true, decide_True]
    · have hexn : (e.dissector tree tvb 0 false).exn = false := by
        rw [Bool.eq_false_iff]
        intro hx
        have := (setup_dissector_exn e he tree tvb 0 false).mp hx
        exact absurd this.1 (by decide)
      have hret : (dissect_usb_hub_control tvb pinfo tree).ret = some true := by
        unfold dissect_usb_hub_control
        simp only [hfind, hreq, decide_False, Bool.false_eq_true, false_and, if_false, hd, hexn]
      have hnodes : (dissect_usb_hub_control tvb pinfo tree).nodes =
          [] ++ (e.dissector tree tvb 0 false).nodes := by
        unfold dissect_usb_hub_control
        simp only [hfind, hreq, decide_False, Bool.false_eq_true, false_and, if_false, hd]
      rw [hret]
      refine ⟨⟨fun h => (by cases h), fun h => absurd hfound h⟩, fun h => (by cases h), ?_, ?_⟩
      · exact ⟨fun _ => ⟨hfound, fun h => hreq h.1⟩, fun _ => rfl⟩
      · intro _
        refine ⟨before, e, after, htab, hbefore, h1, h2, ?_⟩
        rw [hnodes]
        simp only [hreq, false_and, if_false, decide_False]

end UsbHub


namespace Radius

/-! ## Theorems: the hash of call keys -/

/-- Keys that `radius_call_equal` takes for equal have the same identifier
and the same conversation. -/
theorem radius_call_equal_ident (k1 k2 : radius_call_info_key)
    (h : radius_call_equal k1 k2 = 1) :
    k1.ident = k2.ident ∧ k1.conversation = k2.conversation := by
  unfold radius_call_equal at h
  by_cases hc : k1.ident = k2.ident ∧ k1.conversation = k2.conversation
  · exact hc
  · rw [if_neg hc] at h
    cases h

/-- C27: hash and equality of call keys agree.  Two keys for which
`radius_call_equal` returns 1 have the same `radius_call_hash`; the hash is
the same for any two keys with the same identifier and the same conversation
index, whatever their codes and request times; and `radius_call_equal`
returns 1 on a key and itself. -/
theorem radius_call_hash_consistent (k1 k2 : radius_call_info_key) :
    (radius_call_equal k1 k2 = 1 → radius_call_hash k1 = radius_call_hash k2) ∧
    (k1.ident = k2.ident → k1.conversation.index = k2.conversation.index →
      radius_call_hash k1 = radius_call_hash k2) ∧
    radius_call_hash k1 =
      radius_call_hash { k1 with code := k2.code, req_time := k2.req_time } ∧
    radius_call_equal k1 k1 = 1 := by
  refine ⟨?_, ?_, rfl, ?_⟩
  · intro h
    obtain ⟨hi, hc⟩ := radius_call_equal_ident k1 k2 h
    unfold radius_call_hash
    rw [hi, hc]
  · intro hi hc
    unfold radius_call_hash
    rw [hi, hc]
  · have hw := window_same_time k1.req_time
    unfold radius_call_equal
    simp only [hw, if_false, and_self, if_true]

end Radius


namespace AnsiTcap

/-! ## Theorems: the choice of the subdissector -/

/-- When `find_tcap_subdisector` calls the ANSI MAP dissector: never for a
national code; for a private code exactly when bits 8 and 11 of the code are
both set; always for any other value of `OperationCode`.  It returns `FALSE`
whenever it returns. -/
theorem find_tcap_subdisector_calls (ansi_map_handle : Radius.tvbuff_t → Bool → ansi_map_out)
    (s : tcap_statics) (tvb : Radius.tvbuff_t) (tree : Bool) :
    ((find_tcap_subdisector ansi_map_handle s tvb tree).ansi_map_calls = [tvb] ↔
      s.ansi_tcap_private.d.OperationCode ≠ 0 ∧
      (s.ansi_tcap_private.d.OperationCode = 1 →
        File.to_guint32 s.ansi_tcap_private.d.OperationCode_private &&& 0x0900 = 0x0900)) ∧
    ((find_tcap_subdisector ansi_map_handle s tvb tree).ansi_map_calls ≠ [tvb] →
      (find_tcap_subdisector ansi_map_handle s tvb tree).ansi_map_calls = []) ∧
    (find_tcap_subdisector ansi_map_handle s tvb tree).ret ≠ some true := by
  unfold find_tcap_subdisector
  by_cases h0 : s.ansi_tcap_private.d.OperationCode = 0
  · simp [h0]
  · by_cases h1 : s.ansi_tcap_private.d.OperationCode = 1 ∧
        File.to_guint32 s.ansi_tcap_private.d.OperationCode_private &&& 0x0900 ≠ 0x0900
    · obtain ⟨h1a, h1b⟩ := h1
      simp [h1a, h1b]
    · rw [if_neg h0, if_neg h1]
      refine ⟨⟨fun _ => ⟨h0, fun hc => by_contra (fun hne => h1 ⟨hc, hne⟩)⟩, fun _ => rfl⟩,
        fun h => absurd rfl h, ?_⟩
      dsimp only
      split_ifs <;> simp

/-- C23: the private operation code 0x0B05 has operation family 11, not 9,
yet `find_tcap_subdisector` calls the ANSI MAP dissector for it, with a tree
and without: the test `(OperationCode_private & 0x0900) != 0x0900` looks at
two bits of the family only.  For the code 0x0905 of family 9 it calls it as
well, for 0x0805 it adds the "not implemented" item instead; the value
returned is `FALSE` each time. -/
theorem ansi_map_called_for_family_11 :
    operation_family 0x0B05 = 11 ∧
    (find_tcap_subdisector sample_ansi_map (statics_with_private_code 0x0B05) [1, 2, 3]
      true).ansi_map_calls = [[1, 2, 3]] ∧
    (find_tcap_subdisector sample_ansi_map (statics_with_private_code 0x0B05) [1, 2, 3]
      false).ansi_map_calls = [[1, 2, 3]] ∧
    (find_tcap_subdisector sample_ansi_map (statics_with_private_code 0x0B05) [1, 2, 3]
      true).ret = some false ∧
    operation_family 0x0905 = 9 ∧
    (find_tcap_subdisector sample_ansi_map (statics_with_private_code 0x0905) [1, 2, 3]
      true).ansi_map_calls = [[1, 2, 3]] ∧
    operation_family 0x0805 = 8 ∧
    (find_tcap_subdisector sample_ansi_map (statics_with_private_code 0x0805) [1, 2, 3]
      true).ansi_map_calls = [] ∧
    (find_tcap_subdisector sample_ansi_map (statics_with_private_code 0x0805) [1, 2, 3]
      true).ret = some false := by
  decide

end AnsiTcap


namespace File

/-! ## Theorems: going to a frame -/

/-- On a well-formed list, the loop of `goto_frame` started at the frame at
address `i` stops at the frame with number `fnumber`, when that number is
between `i + 1` and the number of frames. -/
theorem goto_frame_loop_found (cf : capture_file) (k : Nat) (hok : plist_ok cf k)
    (fnumber : Nat) (hle : fnumber ≤ k) :
    ∀ (d i fuel : Nat), i + d + 1 = fnumber → d < fuel →
      ∃ fd, cf.frames[fnumber - 1]? = some fd ∧
        goto_frame_loop cf.frames fnumber fuel (some i) = some (some fd) := by
  obtain ⟨hlen, _, _, _, hframes⟩ := hok
  intro d
  induction d with
  | zero =>
    intro i fuel hi hfuel
    obtain ⟨fuel, rfl⟩ := Nat.exists_eq_succ_of_ne_zero (by omega : fuel ≠ 0)
    have hlt : i < cf.frames.length := by omega
    have hidx : fnumber - 1 = i := by omega
    refine ⟨cf.frames[i], by rw [hidx]; exact List.getElem?_eq_getElem hlt, ?_⟩
    unfold goto_frame_loop
    rw [List.getElem?_eq_getElem hlt]
    dsimp only
    have hnum := (hframes i _ (List.getElem?_eq_getElem hlt)).1
    rw [if_neg (by omega)]
  | succ d ih =>
    intro i fuel hi hfuel
    obtain ⟨fuel, rfl⟩ := Nat.exists_eq_succ_of_ne_zero (by omega : fuel ≠ 0)
    have hlt : i < cf.frames.length := by omega
    obtain ⟨fd, hfd, hloop⟩ := ih (i + 1) fuel (by omega) (by omega)
    refine ⟨fd, hfd, ?_⟩
    unfold goto_frame_loop
    rw [List.getElem?_eq_getElem hlt]
    dsimp only
    obtain ⟨hnum, _, hnext⟩ := hframes i _ (List.getElem?_eq_getElem hlt)
    rw [if_pos (by omega), hnext, if_neg (by omega)]
    exact hloop

/-- On a well-formed list, the loop of `goto_frame` for a number greater than
the number of frames runs to the end of the list. -/
theorem goto_frame_loop_end (cf : capture_file) (k : Nat) (hok : plist_ok cf k)
    (fnumber : Nat) (hgt : k < fnumber) :
    ∀ (d i fuel : Nat), i + d = k → d < fuel →
      goto_frame_loop cf.frames fnumber fuel (if i = k then none else some i) = some none := by
  obtain ⟨hlen, _, _, _, hframes⟩ := hok
  intro d
  induction d with
  | zero =>
    intro i fuel hi hfuel
    obtain ⟨fuel, rfl⟩ := Nat.exists_eq_succ_of_ne_zero (by omega : fuel ≠ 0)
    rw [if_pos (by omega)]
    rfl
  | succ d ih =>
    intro i fuel hi hfuel
    obtain ⟨fuel, rfl⟩ := Nat.exists_eq_succ_of_ne_zero (by omega : fuel ≠ 0)
    have hlt : i < cf.frames.length := by omega
    rw [if_neg (by omega)]
    unfold goto_frame_loop
    rw [List.getElem?_eq_getElem hlt]
    dsimp only
    obtain ⟨hnum, _, hnext⟩ := hframes i _ (List.getElem?_eq_getElem hlt)
    rw [if_pos (by omega), hnext]
    exact ih (i + 1) fuel (by omega) (by omega)

/-- What `goto_frame` does on a well-formed list of `k` frames: for a number
from 1 to `k` it looks at the frame with that number and returns
`FRAME_NOT_DISPLAYED` or `FOUND_FRAME` with the row of that frame; for a
number above `k` it returns `NO_SUCH_FRAME`. -/
theorem goto_frame_on_list (cf : capture_file) (k : Nat) (hok : plist_ok cf k) (fnumber : Nat) :
    (1 ≤ fnumber → fnumber ≤ k →
      ∃ fd, cf.frames[fnumber - 1]? = some fd ∧ fd.num = fnumber ∧
        goto_frame cf fnumber =
          (if ¬ fd.passed_dfilter then ⟨some goto_result_t.FRAME_NOT_DISPLAYED, none⟩
           else ⟨some goto_result_t.FOUND_FRAME, some fd.row⟩)) ∧
    (k < fnumber → goto_frame cf fnumber = ⟨some goto_result_t.NO_SUCH_FRAME, none⟩) := by
  have hok2 := hok
  obtain ⟨hlen, _, hplist, _, hframes⟩ := hok2
  constructor
  · intro h1 hle
    obtain ⟨fd, hfd, hloop⟩ :=
      goto_frame_loop_found cf k hok fnumber hle (fnumber - 1) 0 (cf.frames.length + 1) (by omega)
        (by omega)
    refine ⟨fd, hfd, ?_, ?_⟩
    · have := (hframes (fnumber - 1) fd hfd).1
      omega
    · unfold goto_frame
      rw [hplist, if_neg (by omega), hloop]
  · intro hgt
    have hloop := goto_frame_loop_end cf k hok fnumber hgt k 0 (cf.frames.length + 1) (by omega)
      (by omega)
    unfold goto_frame
    rw [hplist]
    have e : (if 0 = k then none else some 0 : Option Nat) = (if k = 0 then none else some 0) := by
      by_cases h0 : k = 0
      · simp [h0]
      · rw [if_neg h0, if_neg (fun h => h0 h.symm)]
    rw [← e, hloop]

/-- C24: in a capture file of four frames, numbered 1 to 4 and all displayed,
no frame has number 0, yet `goto_frame` for the number 0 returns `FOUND_FRAME`
and selects row 0, the row of frame 1: the loop stops at the first frame whose
number is not below the one asked for, and nothing compares the two for
equality.  With a display filter that hides frames 2 and 3 it returns
`FOUND_FRAME` for 0 as well, and `FRAME_NOT_DISPLAYED` for 2.  For the numbers
1 to 4 and for 5 the results are as the comments in the function say. -/
theorem goto_frame_zero :
    sample_capture_file.frames.map frame_data.num = [1, 2, 3, 4] ∧
    sample_capture_file.frames.map frame_data.passed_dfilter = [true, true, true, true] ∧
    goto_frame sample_capture_file 0 = ⟨some goto_result_t.FOUND_FRAME, some 0⟩ ∧
    goto_frame sample_capture_file 1 = ⟨some goto_result_t.FOUND_FRAME, some 0⟩ ∧
    goto_frame sample_capture_file 4 = ⟨some goto_result_t.FOUND_FRAME, some 3⟩ ∧
    goto_frame sample_capture_file 5 = ⟨some goto_result_t.NO_SUCH_FRAME, none⟩ ∧
    sample_filtered_capture_file.frames.map frame_data.passed_dfilter =
      [true, false, false, true] ∧
    goto_frame sample_filtered_capture_file 0 = ⟨some goto_result_t.FOUND_FRAME, some 0⟩ ∧
    goto_frame sample_filtered_capture_file 2 =
      ⟨some goto_result_t.FRAME_NOT_DISPLAYED, none⟩ := by
  decide

end File


namespace File

/-! ## Theorems: relative times -/

/-- The difference of two times as `add_packet_to_packet_list` computes it is
exact when the earlier time is not the later one and both microsecond fields
are proper. -/
theorem time_since_exact (abs_secs abs_usecs secs usecs : Nat) (hs : abs_secs < 2 ^ 32)
    (hu : abs_usecs < 1000000) (hu0 : usecs < 1000000)
    (hle : secs * 1000000 + usecs ≤ abs_secs * 1000000 + abs_usecs) :
    (time_since abs_secs abs_usecs secs usecs).1 * 1000000 +
        (time_since abs_secs abs_usecs secs usecs).2 =
      abs_secs * 1000000 + abs_usecs - (secs * 1000000 + usecs) ∧
    (time_since abs_secs abs_usecs secs usecs).2 < 1000000 := by
  unfold time_since
  norm_num at hs
  by_cases h : usecs ≤ abs_usecs
  · rw [if_pos h]
    have hsec : secs ≤ abs_secs := by omega
    have e1 : to_guint32 ((abs_secs : Int) - secs) = abs_secs - secs := by
      unfold to_guint32
      norm_num
      omega
    have e2 : to_guint32 ((abs_usecs : Int) - usecs) = abs_usecs - usecs := by
      unfold to_guint32
      norm_num
      omega
    dsimp only
    rw [e1, e2]
    constructor
    · omega
    · omega
  · rw [if_neg h]
    have hsec : secs < abs_secs := by omega
    have e1 : to_guint32 ((abs_secs : Int) - secs) = abs_secs - secs := by
      unfold to_guint32
      norm_num
      omega
    have e3 : to_guint32 ((abs_usecs : Int) + 1000000) = abs_usecs + 1000000 := by
      unfold to_guint32
      norm_num
      omega
    dsimp only
    rw [e1, e3]
    have e4 : to_guint32 (((abs_secs - secs : Nat) : Int) - 1) = abs_secs - secs - 1 := by
      unfold to_guint32
      norm_num
      omega
    have e5 : to_guint32 (((abs_usecs + 1000000 : Nat) : Int) - usecs) =
        abs_usecs + 1000000 - usecs := by
      unfold to_guint32
      norm_num
      omega
    rw [e4, e5]
    constructor
    · omega
    · omega

/-- What `add_packet_to_packet_list` computes: the time of the first packet
is kept, or taken from this packet when none is held; the elapsed time is the
difference to it; the times of the frame are left alone; and when the frame
is displayed its delta is the difference to the time held for the previous
displayed packet, or to its own when none is held, and its time is held from
then on. -/
theorem add_packet_to_packet_list_times (p : Nat) (fd : frame_data) (cf : capture_file)
    (buf : List Nat) :
    (add_packet_to_packet_list p fd cf buf).2.firstsec =
      (if cf.firstsec = 0 ∧ cf.firstusec = 0 then fd.abs_secs else cf.firstsec) ∧
    (add_packet_to_packet_list p fd cf buf).2.firstusec =
      (if cf.firstsec = 0 ∧ cf.firstusec = 0 then fd.abs_usecs else cf.firstusec) ∧
    ((add_packet_to_packet_list p fd cf buf).2.esec,
      (add_packet_to_packet_list p fd cf buf).2.eusec) =
      time_since fd.abs_secs fd.abs_usecs
        (if cf.firstsec = 0 ∧ cf.firstusec = 0 then fd.abs_secs else cf.firstsec)
        (if cf.firstsec = 0 ∧ cf.firstusec = 0 then fd.abs_usecs else cf.firstusec) ∧
    (add_packet_to_packet_list p fd cf buf).1.abs_secs = fd.abs_secs ∧
    (add_packet_to_packet_list p fd cf buf).1.abs_usecs = fd.abs_usecs ∧
    ((add_packet_to_packet_list p fd cf buf).1.passed_dfilter = true →
      (add_packet_to_packet_list p fd cf buf).2.prevsec = fd.abs_secs ∧
      (add_packet_to_packet_list p fd cf buf).2.prevusec = fd.abs_usecs ∧
      ((add_packet_to_packet_list p fd cf buf).1.del_secs,
        (add_packet_to_packet_list p fd cf buf).1.del_usecs) =
        time_since fd.abs_secs fd.abs_usecs
          (if cf.prevsec = 0 ∧ cf.prevusec = 0 then fd.abs_secs else cf.prevsec)
          (if cf.prevsec = 0 ∧ cf.prevusec = 0 then fd.abs_usecs else cf.prevusec) ∧
      (add_packet_to_packet_list p fd cf buf).1.rel_secs =
        (add_packet_to_packet_list p fd cf buf).2.esec ∧
      (add_packet_to_packet_list p fd cf buf).1.rel_usecs =
        (add_packet_to_packet_list p fd cf buf).2.eusec) ∧
    ((add_packet_to_packet_list p fd cf buf).1.passed_dfilter = false →
      (add_packet_to_packet_list p fd cf buf).2.prevsec = cf.prevsec ∧
      (add_packet_to_packet_list p fd cf buf).2.prevusec = cf.prevusec) := by
  unfold add_packet_to_packet_list
  dsimp only
  refine ite_keeps
    (fun out : frame_data × capture_file =>
      out.2.firstsec = (if cf.firstsec = 0 ∧ cf.firstusec = 0 then fd.abs_secs else cf.firstsec) ∧
      out.2.firstusec =
        (if cf.firstsec = 0 ∧ cf.firstusec = 0 then fd.abs_usecs else cf.firstusec) ∧
      (out.2.esec, out.2.eusec) =
        time_since fd.abs_secs fd.abs_usecs
          (if cf.firstsec = 0 ∧ cf.firstusec = 0 then fd.abs_secs else cf.firstsec)
          (if cf.firstsec = 0 ∧ cf.firstusec = 0 then fd.abs_usecs else cf.firstusec) ∧
      out.1.abs_secs = fd.abs_secs ∧ out.1.abs_usecs = fd.abs_usecs ∧
      (out.1.passed_dfilter = true →
        out.2.prevsec = fd.abs_secs ∧ out.2.prevusec = fd.abs_usecs ∧
        (out.1.del_secs, out.1.del_usecs) =
          time_since fd.abs_secs fd.abs_usecs
            (if cf.prevsec = 0 ∧ cf.prevusec = 0 then fd.abs_secs else cf.prevsec)
            (if cf.prevsec = 0 ∧ cf.prevusec = 0 then fd.abs_usecs else cf.prevusec) ∧
        out.1.rel_secs = out.2.esec ∧ out.1.rel_usecs = out.2.eusec) ∧
      (out.1.passed_dfilter = false → out.2.prevsec = cf.prevsec ∧ out.2.prevusec = cf.prevusec))
    _ _ _ ?_ ?_
  · refine ⟨?_, ?_, ?_, rfl, rfl, fun _ => ⟨rfl, rfl, ?_, rfl, rfl⟩, fun h => (by cases h)⟩
    · dsimp only; split_ifs <;> rfl
    · dsimp only; split_ifs <;> rfl
    · dsimp only; split_ifs <;> rfl
    · dsimp only; split_ifs <;> rfl
  · refine ⟨?_, ?_, ?_, rfl, rfl, fun h => (by cases h), fun _ => ⟨rfl, rfl⟩⟩
    · dsimp only; split_ifs <;> rfl
    · dsimp only; split_ifs <;> rfl
    · dsimp only; split_ifs <;> rfl

/-- A pass over packets and one more is the pass followed by one round. -/
theorem pass_from_snoc (acc : capture_file × List frame_data)
    (ps : List (Nat × frame_data × List Nat)) (x : Nat × frame_data × List Nat) :
    pass_from acc (ps ++ [x]) = pass_step (pass_from acc ps) x := by
  unfold pass_from
  rw [List.foldl_append]
  rfl

/-- Once the time of a first packet is held, a pass keeps it. -/
theorem pass_from_first_kept (ps : List (Nat × frame_data × List Nat)) :
    ∀ acc : capture_file × List frame_data, ¬ (acc.1.firstsec = 0 ∧ acc.1.firstusec = 0) →
      (pass_from acc ps).1.firstsec = acc.1.firstsec ∧
      (pass_from acc ps).1.firstusec = acc.1.firstusec := by
  induction ps with
  | nil => intro acc _; exact ⟨rfl, rfl⟩
  | cons x rest ih =>
    intro acc h
    obtain ⟨h1, h2, _⟩ := add_packet_to_packet_list_times x.1 x.2.1 acc.1 x.2.2
    rw [if_neg h] at h1 h2
    have hstep : ¬ ((pass_step acc x).1.firstsec = 0 ∧ (pass_step acc x).1.firstusec = 0) := by
      unfold pass_step
      dsimp only
      rw [h1, h2]
      exact h
    obtain ⟨i1, i2⟩ := ih (pass_step acc x) hstep
    have e : pass_from acc (x :: rest) = pass_from (pass_step acc x) rest := rfl
    rw [e, i1, i2]
    unfold pass_step
    exact ⟨h1, h2⟩

/-- The frames that a pass has left have the times of the packets given. -/
theorem pass_from_times (ps : List (Nat × frame_data × List Nat)) :
    ∀ acc : capture_file × List frame_data,
      (pass_from acc ps).2.map abs_time = acc.2.map abs_time ++ ps.map (fun x => abs_time x.2.1) := by
  induction ps with
  | nil => intro acc; simp [pass_from]
  | cons x rest ih =>
    intro acc
    obtain ⟨_, _, _, h4, h5, _⟩ := add_packet_to_packet_list_times x.1 x.2.1 acc.1 x.2.2
    have e : pass_from acc (x :: rest) = pass_from (pass_step acc x) rest := rfl
    have ht : abs_time (add_packet_to_packet_list x.1 x.2.1 acc.1 x.2.2).1 = abs_time x.2.1 := by
      unfold abs_time
      rw [h4, h5]
    rw [e, ih]
    unfold pass_step
    simp only [List.map_append, List.map_cons, List.map_nil, List.append_assoc,
      List.singleton_append]
    rw [ht]

/-- The frame displayed last, after one more frame. -/
theorem last_shown_append (frames : List frame_data) (fd : frame_data) :
    last_shown (frames ++ [fd]) = if fd.passed_dfilter then some fd else last_shown frames := by
  unfold last_shown
  rw [List.filter_append]
  by_cases h : fd.passed_dfilter = true
  · simp [h, List.filter]
  · simp [h, List.filter]

/-- The time held for the previous displayed packet is that of the frame
displayed last in the pass, and zero while none was displayed. -/
theorem pass_from_prev (ps : List (Nat × frame_data × List Nat)) :
    ∀ acc : capture_file × List frame_data,
      (acc.1.prevsec, acc.1.prevusec) =
        (match last_shown acc.2 with
         | some q => (q.abs_secs, q.abs_usecs)
         | none => (0, 0)) →
      ((pass_from acc ps).1.prevsec, (pass_from acc ps).1.prevusec) =
        (match last_shown (pass_from acc ps).2 with
         | some q => (q.abs_secs, q.abs_usecs)
         | none => (0, 0)) := by
  induction ps with
  | nil => intro acc h; exact h
  | cons x rest ih =>
    intro acc h
    have e : pass_from acc (x :: rest) = pass_from (pass_step acc x) rest := rfl
    rw [e]
    apply ih
    obtain ⟨_, _, _, h4, h5, hshown, hhidden⟩ :=
      add_packet_to_packet_list_times x.1 x.2.1 acc.1 x.2.2
    unfold pass_step
    dsimp only
    rw [last_shown_append]
    cases hp : (add_packet_to_packet_list x.1 x.2.1 acc.1 x.2.2).1.passed_dfilter with
    | true =>
      obtain ⟨p1, p2, _⟩ := hshown hp
      simp only [if_true]
      rw [p1, p2, h4, h5]
    | false =>
      obtain ⟨p1, p2⟩ := hhidden hp
      simp only [Bool.false_eq_true, if_false]
      rw [p1, p2]
      exact h

/-- C25, counterexample: in a pass whose first packet was captured at time
zero, the elapsed time of a second packet captured five seconds later is 0,
not 5: zero is what the statics hold when no first packet has been seen.  And
in a pass over packets captured at 10 s, 20 s and 15 s, all displayed, the
third packet is not earlier than the first, yet its delta to the packet
displayed before it is 2^32 - 5 seconds. -/
theorem relative_time_counterexamples :
    (pass stale_capture_file packets_from_zero).1.esec = 0 ∧
    (pass stale_capture_file packets_from_zero).1.eusec = 0 ∧
    (pass stale_capture_file packets_out_of_order).2.map frame_data.passed_dfilter =
      [true, true, true] ∧
    (pass stale_capture_file packets_out_of_order).1.esec = 5 ∧
    (pass stale_capture_file packets_out_of_order).2.map frame_data.del_secs =
      [0, 10, 4294967291] := by
  decide

/-- C25: relative time arithmetic.  In a pass over packets, take a packet
`x` with seconds below 2^32 and microseconds below 1,000,000 that is not
earlier than the first packet of the pass, whose microseconds are below
1,000,000 as well and whose time, unless `x` is itself the first packet, is
not zero.  After `add_packet_to_packet_list` for `x`, `cf->esec` and
`cf->eusec` are exactly the time of `x` minus the time of the first packet,
with `eusec` below 1,000,000.  If `x` is displayed and no packet was displayed
before it in the pass, its delta is zero; if the packet displayed last before
it has a time that is not zero and not later than that of `x`, with
microseconds below 1,000,000, then `del_secs` and `del_usecs` of `x` are
exactly the time of `x` minus the time of that packet. -/
theorem relative_time (cf : capture_file) (ps : List (Nat × frame_data × List Nat))
    (x : Nat × frame_data × List Nat) (first : frame_data)
    (hfirst : ((ps ++ [x]).head?).map (fun y => y.2.1) = some first)
    (hnz : ps ≠ [] → ¬ (first.abs_secs = 0 ∧ first.abs_usecs = 0))
    (hfu : first.abs_usecs < 1000000)
    (hs : x.2.1.abs_secs < 2 ^ 32) (hu : x.2.1.abs_usecs < 1000000)
    (hle : abs_time first ≤ abs_time x.2.1) :
    (pass cf (ps ++ [x])).1.esec * 1000000 + (pass cf (ps ++ [x])).1.eusec =
      abs_time x.2.1 - abs_time first ∧
    (pass cf (ps ++ [x])).1.eusec < 1000000 ∧
    (pass cf (ps ++ [x])).2.map abs_time = (ps ++ [x]).map (fun y => abs_time y.2.1) ∧
    ∀ out, (pass cf (ps ++ [x])).2.getLast? = some out → out.passed_dfilter = true →
      (last_shown (pass cf ps).2 = none → out.del_secs = 0 ∧ out.del_usecs = 0) ∧
      (∀ q, last_shown (pass cf ps).2 = some q → ¬ (q.abs_secs = 0 ∧ q.abs_usecs = 0) →
        q.abs_usecs < 1000000 → abs_time q ≤ abs_time x.2.1 →
        out.del_secs * 1000000 + out.del_usecs = abs_time x.2.1 - abs_time q ∧
        out.del_usecs < 1000000) := by
  have hsnoc : pass cf (ps ++ [x]) = pass_step (pass cf ps) x := pass_from_snoc _ ps x
  obtain ⟨t1, t2, t3, t4, t5, tshown, _⟩ :=
    add_packet_to_packet_list_times x.1 x.2.1 (pass cf ps).1 x.2.2
  have hheld : (if (pass cf ps).1.firstsec = 0 ∧ (pass cf ps).1.firstusec = 0
        then x.2.1.abs_secs else (pass cf ps).1.firstsec) = first.abs_secs ∧
      (if (pass cf ps).1.firstsec = 0 ∧ (pass cf ps).1.firstusec = 0
        then x.2.1.abs_usecs else (pass cf ps).1.firstusec) = first.abs_usecs := by
    cases ps with
    | nil =>
      have hf : x.2.1 = first := by simpa using hfirst
      have h0 : (pass cf []).1.firstsec = 0 ∧ (pass cf []).1.firstusec = 0 := ⟨rfl, rfl⟩
      rw [if_pos h0, if_pos h0, hf]
      exact ⟨rfl, rfl⟩
    | cons y rest =>
      have hf : y.2.1 = first := by simpa using hfirst
      have hnz2 := hnz (by simp)
      rw [← hf] at hnz2
      obtain ⟨y1, y2, _⟩ := add_packet_to_packet_list_times y.1 y.2.1
        { cf with firstsec := 0, firstusec := 0, prevsec := 0, prevusec := 0 } y.2.2
      have h00 : (0 : Nat) = 0 ∧ (0 : Nat) = 0 := ⟨rfl, rfl⟩
      rw [if_pos h00] at y1 y2
      have e : pass cf (y :: rest) = pass_from (pass_step
          ({ cf with firstsec := 0, firstusec := 0, prevsec := 0, prevusec := 0 }, []) y) rest := rfl
      have hstep : ¬ ((pass_step
          ({ cf with firstsec := 0, firstusec := 0, prevsec := 0, prevusec := 0 }, []) y).1.firstsec
            = 0 ∧ (pass_step
          ({ cf with firstsec := 0, firstusec := 0, prevsec := 0, prevusec := 0 }, []) y).1.firstusec
            = 0) := by
        unfold pass_step
        dsimp only
        rw [y1, y2]
        exact hnz2
      obtain ⟨k1, k2⟩ := pass_from_first_kept rest _ hstep
      have f1 : (pass cf (y :: rest)).1.firstsec = first.abs_secs := by
        rw [e, k1]
        unfold pass_step
        dsimp only
        rw [y1, hf]
      have f2 : (pass cf (y :: rest)).1.firstusec = first.abs_usecs := by
        rw [e, k2]
        unfold pass_step
        dsimp only
        rw [y2, hf]
      rw [← hf] at hnz
      have hne : ¬ ((pass cf (y :: rest)).1.firstsec = 0 ∧
          (pass cf (y :: rest)).1.firstusec = 0) := by
        rw [f1, f2, ← hf]
        exact hnz2
      rw [if_neg hne, if_neg hne]
      exact ⟨f1, f2⟩
  rw [hheld.1, hheld.2] at t3
  have hexact := time_since_exact x.2.1.abs_secs x.2.1.abs_usecs first.abs_secs first.abs_usecs
    hs hu hfu hle
  rw [← t3] at hexact
  have hprev : ((pass cf ps).1.prevsec, (pass cf ps).1.prevusec) =
      (match last_shown (pass cf ps).2 with
       | some q => (q.abs_secs, q.abs_usecs)
       | none => (0, 0)) :=
    pass_from_prev ps
      ({ cf with firstsec := 0, firstusec := 0, prevsec := 0, prevusec := 0 }, []) rfl
  refine ⟨?_, ?_, ?_, ?_⟩
  · rw [hsnoc]
    exact hexact.1
  · rw [hsnoc]
    exact hexact.2
  · unfold pass
    rw [pass_from_times]
    rfl
  · intro out hout hpassed
    have hlast : out = (add_packet_to_packet_list x.1 x.2.1 (pass cf ps).1 x.2.2).1 := by
      rw [hsnoc] at hout
      unfold pass_step at hout
      dsimp only at hout
      rw [List.getLast?_append] at hout
      simpa using hout.symm
    rw [hlast] at hpassed ⊢
    obtain ⟨_, _, tdel, _, _⟩ := tshown hpassed
    constructor
    · intro hnone
      have hp0 : (pass cf ps).1.prevsec = 0 ∧ (pass cf ps).1.prevusec = 0 := by
        have := hprev
        rw [hnone] at this
        exact ⟨congrArg Prod.fst this, congrArg Prod.snd this⟩
      rw [if_pos hp0, if_pos hp0] at tdel
      have hz := time_since_exact x.2.1.abs_secs x.2.1.abs_usecs x.2.1.abs_secs x.2.1.abs_usecs
        hs hu hu (le_refl _)
      rw [← tdel] at hz
      dsimp only at hz
      omega
    · intro q hq hqnz hqu hqle
      have hpq : (pass cf ps).1.prevsec = q.abs_secs ∧ (pass cf ps).1.prevusec = q.abs_usecs := by
        have := hprev
        rw [hq] at this
        exact ⟨congrArg Prod.fst this, congrArg Prod.snd this⟩
      have hne : ¬ ((pass cf ps).1.prevsec = 0 ∧ (pass cf ps).1.prevusec = 0) := by
        rw [hpq.1, hpq.2]
        exact hqnz
      rw [if_neg hne, if_neg hne, hpq.1, hpq.2] at tdel
      have hz := time_since_exact x.2.1.abs_secs x.2.1.abs_usecs q.abs_secs q.abs_usecs
        hs hu hqu hqle
      rw [← tdel] at hz
      exact hz

/-- The inputs of `relative_time` exist: a packet captured at 12.1 s in a
pass whose first packet was captured at 10.9 s has an elapsed time of
1,200,000 microseconds, with a borrow from the seconds. -/
theorem relative_time_witness :
    (frame_at 1 10 900000).2.1.abs_usecs < 1000000 ∧
    (frame_at 2 12 100000).2.1.abs_secs < 2 ^ 32 ∧
    (frame_at 2 12 100000).2.1.abs_usecs < 1000000 ∧
    abs_time (frame_at 1 10 900000).2.1 ≤ abs_time (frame_at 2 12 100000).2.1 ∧
    (pass stale_capture_file ([frame_at 1 10 900000] ++ [frame_at 2 12 100000])).1.esec * 1000000 +
      (pass stale_capture_file ([frame_at 1 10 900000] ++ [frame_at 2 12 100000])).1.eusec =
        1200000 ∧
    (pass stale_capture_file ([frame_at 1 10 900000] ++ [frame_at 2 12 100000])).1.eusec <
      1000000 :=
  ⟨by decide, by decide, by decide, by decide,
   (relative_time stale_capture_file [frame_at 1 10 900000] (frame_at 2 12 100000)
      (frame_at 1 10 900000).2.1 rfl (fun _ => (by decide)) (by decide) (by decide) (by decide)
      (by decide)).1,
   (relative_time stale_capture_file [frame_at 1 10 900000] (frame_at 2 12 100000)
      (frame_at 1 10 900000).2.1 rfl (fun _ => (by decide)) (by decide) (by decide) (by decide)
      (by decide)).2.1⟩

end File


namespace Radius

/-! ## Theorems: the registration of ports -/

/-- The lookup in a list of entries from which other entries were removed. -/
theorem find_filter_other (t : List (String × Nat × String)) (name name2 : String)
    (pattern pattern2 : Nat) (h : ¬ (name2 = name ∧ pattern2 = pattern)) :
    (t.filter (fun e => ¬ (e.1 = name ∧ e.2.1 = pattern))).find?
        (fun e => e.1 = name2 ∧ e.2.1 = pattern2) =
      t.find? (fun e => e.1 = name2 ∧ e.2.1 = pattern2) := by
  induction t with
  | nil => rfl
  | cons e rest ih =>
    by_cases he : e.1 = name ∧ e.2.1 = pattern
    · have hne : ¬ (e.1 = name2 ∧ e.2.1 = pattern2) := by
        rintro ⟨h1, h2⟩
        exact h ⟨h1.symm.trans he.1, h2.symm.trans he.2⟩
      rw [List.filter_cons_of_neg (by simp [he]), List.find?_cons_of_neg _ (by simpa using hne)]
      exact ih
    · rw [List.filter_cons, if_pos (decide_eq_true he)]
      by_cases h2 : e.1 = name2 ∧ e.2.1 = pattern2
      · rw [List.find?_cons_of_pos _ (by simpa using h2),
          List.find?_cons_of_pos _ (by simpa using h2)]
      · rw [List.find?_cons_of_neg _ (by simpa using h2),
          List.find?_cons_of_neg _ (by simpa using h2)]
        exact ih

/-- The lookup of a key in a list of entries from which it was removed. -/
theorem find_filter_same (t : List (String × Nat × String)) (name : String) (pattern : Nat) :
    (t.filter (fun e => ¬ (e.1 = name ∧ e.2.1 = pattern))).find?
        (fun e => e.1 = name ∧ e.2.1 = pattern) = none := by
  rw [List.find?_eq_none]
  intro e he
  have := (List.mem_filter.mp he).2
  exact fun hc => (of_decide_eq_true this) (of_decide_eq_true hc)

/-- The tables kept as a list fulfil the contract of the registry. -/
theorem list_tables_contract : registry_contract list_tables := by
  refine ⟨?_, ?_, ?_, ?_⟩
  · intro t name pattern handle
    simp [list_tables]
  · intro t name pattern handle name2 pattern2 h
    have hne : ¬ (name = name2 ∧ pattern = pattern2) := fun hc => h ⟨hc.1.symm, hc.2.symm⟩
    simp only [list_tables]
    rw [List.find?_cons_of_neg _ (by simpa using hne), find_filter_other t name name2 pattern pattern2 h]
  · intro t name pattern handle
    simp only [list_tables]
    rw [find_filter_same]
    rfl
  · intro t name pattern handle name2 pattern2 h
    simp only [list_tables]
    rw [find_filter_other t name name2 pattern pattern2 h]

/-- After `reinit_radius`, `alt_port` is `alt_port_pref`. -/
theorem reinit_radius_alt_port {ρ : Type} (api : dissector_api ρ) (s : port_state ρ) :
    (reinit_radius api s).alt_port = (reinit_radius api s).alt_port_pref ∧
    (reinit_radius api s).alt_port_pref = s.alt_port_pref := by
  unfold reinit_radius
  by_cases h : s.alt_port_pref ≠ s.alt_port
  · rw [if_pos h]
    exact ⟨rfl, rfl⟩
  · rw [if_neg h]
    exact ⟨(not_not.mp h).symm, rfl⟩

/-- After `proto_reg_handoff_radius` the four standard ports are
registered. -/
theorem after_handoff_ok {ρ : Type} (api : dissector_api ρ) (hlaws : registry_contract api)
    (tables : ρ) : ports_ok api (after_handoff api tables) := by
  obtain ⟨hadd, hadd2, _, _⟩ := hlaws
  refine ⟨?_, ?_, fun h => absurd rfl h, rfl⟩
  · intro port hp
    unfold after_handoff proto_reg_handoff_radius
    dsimp only
    unfold is_standard_port UDP_PORT_RADIUS UDP_PORT_RADIUS_NEW UDP_PORT_RADACCT
      UDP_PORT_RADACCT_NEW at hp
    unfold UDP_PORT_RADIUS UDP_PORT_RADIUS_NEW UDP_PORT_RADACCT UDP_PORT_RADACCT_NEW
    rcases hp with hp | hp | hp | hp <;> subst hp
    · rw [hadd2 _ _ _ _ _ _ (by simp), hadd2 _ _ _ _ _ _ (by simp), hadd2 _ _ _ _ _ _ (by simp),
        hadd]
    · rw [hadd2 _ _ _ _ _ _ (by simp), hadd2 _ _ _ _ _ _ (by simp), hadd]
    · rw [hadd2 _ _ _ _ _ _ (by simp), hadd]
    · rw [hadd]
  · unfold after_handoff is_standard_port UDP_PORT_RADIUS UDP_PORT_RADIUS_NEW UDP_PORT_RADACCT
      UDP_PORT_RADACCT_NEW
    simp

/-- A change of the alternate port to a value that is not a standard port
keeps the standard ports registered. -/
theorem set_alternate_port_ok {ρ : Type} (api : dissector_api ρ) (hlaws : registry_contract api)
    (s : port_state ρ) (value : Nat) (hok : ports_ok api s) (hv : ¬ is_standard_port value) :
    ports_ok api (set_alternate_port api s value) := by
  obtain ⟨hadd, hadd2, hdel, hdel2⟩ := hlaws
  obtain ⟨hstd, halt, hreg, heq⟩ := hok
  unfold set_alternate_port reinit_radius
  dsimp only
  by_cases hc : value ≠ s.alt_port
  · rw [if_pos hc]
    refine ⟨?_, hv, ?_, rfl⟩
    · intro port hp
      have hpv : ¬ ("udp.port" = "udp.port" ∧ port = value) := fun h => hv (h.2 ▸ hp)
      have hpa : ¬ ("udp.port" = "udp.port" ∧ port = s.alt_port) := fun h => halt (h.2 ▸ hp)
      dsimp only
      by_cases hv0 : value ≠ 0
      · rw [if_pos hv0, hadd2 _ _ _ _ _ _ hpv]
        by_cases ha0 : s.alt_port ≠ 0
        · rw [if_pos ha0, hdel2 _ _ _ _ _ _ hpa]
          exact hstd port hp
        · rw [if_neg ha0]
          exact hstd port hp
      · rw [if_neg hv0]
        by_cases ha0 : s.alt_port ≠ 0
        · rw [if_pos ha0, hdel2 _ _ _ _ _ _ hpa]
          exact hstd port hp
        · rw [if_neg ha0]
          exact hstd port hp
    · intro hv0
      dsimp only at hv0 ⊢
      rw [if_pos hv0, hadd]
  · rw [if_neg hc]
    have hva : value = s.alt_port := not_not.mp hc
    exact ⟨hstd, halt, hreg, hva.symm⟩

/-- As long as the alternate port is never set to a standard port, the
standard ports stay registered through any sequence of changes. -/
theorem ports_stay_registered {ρ : Type} (api : dissector_api ρ) (hlaws : registry_contract api)
    (values : List Nat) :
    ∀ s : port_state ρ, ports_ok api s → (∀ v ∈ values, ¬ is_standard_port v) →
      ports_ok api (values.foldl (set_alternate_port api) s) := by
  induction values with
  | nil => intro s hok _; exact hok
  | cons v rest ih =>
    intro s hok hvals
    rw [List.foldl_cons]
    exact ih _ (set_alternate_port_ok api hlaws s v hok (hvals v (List.mem_cons_self _ _)))
      (fun w hw => hvals w (List.mem_cons_of_mem _ hw))

/-- C28: with tables that keep at most one handle per port, as the registry
does, let the alternate port be set to the standard port 1812 and then to 0
(or to 2000), each time followed by `reinit_radius`.  After
`proto_reg_handoff_radius` and after the first change port 1812 is
registered; after the second it is not: `reinit_radius` deletes the old
alternate port from "udp.port" without regard to the standard ports.  The
other three standard ports are still registered, and `alt_port` is
`alt_port_pref`. -/
theorem standard_port_unregistered {ρ : Type} (api : dissector_api ρ)
    (hlaws : registry_contract api) (tables : ρ) :
    api.dissector_get_port_handle (after_handoff api tables).tables "udp.port"
      UDP_PORT_RADIUS_NEW = some radius_handle ∧
    api.dissector_get_port_handle
      (set_alternate_port api (after_handoff api tables) UDP_PORT_RADIUS_NEW).tables "udp.port"
      UDP_PORT_RADIUS_NEW = some radius_handle ∧
    api.dissector_get_port_handle
      (set_alternate_port api
        (set_alternate_port api (after_handoff api tables) UDP_PORT_RADIUS_NEW) 0).tables
      "udp.port" UDP_PORT_RADIUS_NEW = none ∧
    (set_alternate_port api
      (set_alternate_port api (after_handoff api tables) UDP_PORT_RADIUS_NEW) 0).alt_port = 0 ∧
    (set_alternate_port api
      (set_alternate_port api (after_handoff api tables) UDP_PORT_RADIUS_NEW) 0).alt_port_pref =
        0 ∧
    api.dissector_get_port_handle
      (set_alternate_port api
        (set_alternate_port api (after_handoff api tables) UDP_PORT_RADIUS_NEW) 2000).tables
      "udp.port" UDP_PORT_RADIUS_NEW = none ∧
    api.dissector_get_port_handle
      (set_alternate_port api
        (set_alternate_port api (after_handoff api tables) UDP_PORT_RADIUS_NEW) 2000).tables
      "udp.port" 2000 = some radius_handle := by
  obtain ⟨hadd, hadd2, hdel, hdel2⟩ := hlaws
  have h0 := (after_handoff_ok api ⟨hadd, hadd2, hdel, hdel2⟩ tables).1 UDP_PORT_RADIUS_NEW
    (Or.inr (Or.inl rfl))
  have e1 : set_alternate_port api (after_handoff api tables) UDP_PORT_RADIUS_NEW =
      ⟨api.dissector_add (after_handoff api tables).tables "udp.port" UDP_PORT_RADIUS_NEW
        radius_handle, UDP_PORT_RADIUS_NEW, UDP_PORT_RADIUS_NEW⟩ := by
    unfold set_alternate_port reinit_radius after_handoff UDP_PORT_RADIUS_NEW
    simp
  have e2 : set_alternate_port api
      (set_alternate_port api (after_handoff api tables) UDP_PORT_RADIUS_NEW) 0 =
      ⟨api.dissector_delete (api.dissector_add (after_handoff api tables).tables "udp.port"
        UDP_PORT_RADIUS_NEW radius_handle) "udp.port" UDP_PORT_RADIUS_NEW radius_handle, 0, 0⟩ := by
    rw [e1]
    unfold set_alternate_port reinit_radius UDP_PORT_RADIUS_NEW
    simp
  have e3 : set_alternate_port api
      (set_alternate_port api (after_handoff api tables) UDP_PORT_RADIUS_NEW) 2000 =
      ⟨api.dissector_add (api.dissector_delete (api.dissector_add
        (after_handoff api tables).tables "udp.port" UDP_PORT_RADIUS_NEW radius_handle)
        "udp.port" UDP_PORT_RADIUS_NEW radius_handle) "udp.port" 2000 radius_handle,
        2000, 2000⟩ := by
    rw [e1]
    unfold set_alternate_port reinit_radius UDP_PORT_RADIUS_NEW
    simp
  refine ⟨h0, ?_, ?_, ?_, ?_, ?_, ?_⟩
  · rw [e1]
    exact hadd _ _ _ _
  · rw [e2]
    exact hdel _ _ _ _
  · rw [e2]
  · rw [e2]
  · rw [e3]
    dsimp only
    rw [hadd2 _ _ _ _ _ _ (by unfold UDP_PORT_RADIUS_NEW; simp)]
    exact hdel _ _ _ _
  · rw [e3]
    exact hadd _ _ _ _

/-- The inputs of `standard_port_unregistered` exist: with the tables kept as
a list, starting from no entry, port 1812 has no handle after the two
changes. -/
theorem standard_port_unregistered_witness :
    registry_contract list_tables ∧
    list_tables.dissector_get_port_handle
      (set_alternate_port list_tables
        (set_alternate_port list_tables (after_handoff list_tables []) UDP_PORT_RADIUS_NEW)
        0).tables
      "udp.port" UDP_PORT_RADIUS_NEW = none :=
  ⟨list_tables_contract, (standard_port_unregistered list_tables list_tables_contract []).2.2.1⟩

end Radius

namespace Wtp

/-! ## Theorems: the layout of a Negative Ack -/

/-- The fixed header of a Negative Ack whose byte 3 is `n` has `n + 4`
bytes. -/
theorem wtp_switch_negative_ack (tvb : tvbuff_t) (b0 n : Nat)
    (h3 : tvb_get_guint8 tvb 3 = some n) :
    wtp_switch tvb b0 NEGATIVE_ACK = some ⟨0, 0, 0, none, n + 4, n⟩ := by
  unfold wtp_switch
  rw [h3]
  rfl

/-- The items of a Negative Ack with `n` missing packets: the four of the
fixed part, and `n` sequence-number items of which the `i`-th starts at
offset `i`. -/
theorem header_fields_negative_ack (b0 n : Nat) :
    header_fields b0 NEGATIVE_ACK n =
      [("hf_wtp_header_flag_continue", 0, 1), ("hf_wtp_header_pdu_type", 0, 1),
       ("hf_wtp_header_flag_RID", 0, 1), ("hf_wtp_header_flag_TID_response", 1, 2),
       ("hf_wtp_header_flag_TID", 1, 2), ("hf_wtp_header_missing_packets", 3, 1)] ++
      (List.range n).map (fun i => ("hf_wtp_header_sequence_number", i, 1)) := by
  unfold header_fields NEGATIVE_ACK INVOKE RESULT ACK ABORT SEGMENTED_INVOKE SEGMENTED_RESULT
  simp

/-- C30: for the Negative Ack `38 12 34 02 05 06`, whose byte 3 declares two
missing packets with the sequence numbers 5 and 6 at offsets 4 and 5,
`dissect_wtp_common` uses a fixed header of 2 + 4 = 6 bytes and returns, and
it adds two sequence-number items, but these cover the bytes at offsets 0 and
1 (the values 0x38 and 0x12 of the first header bytes), not those at offsets
4 and 5: the loop adds them at `offCur + i`. -/
theorem negative_ack_sequence_numbers :
    pdu_type 0x38 = NEGATIVE_ACK ∧
    tvb_get_guint8 sample_negative_ack 3 = some 2 ∧
    wtp_switch sample_negative_ack 0x38 NEGATIVE_ACK = some ⟨0, 0, 0, none, 6, 2⟩ ∧
    (dissect_wtp_common sample_env sample_negative_ack sample_state true).exit =
      wtp_exit.returned ∧
    (dissect_wtp_common sample_env sample_negative_ack sample_state true).nodes.map
      (fun n => (n.hf, n.start, n.length)) = [("proto_wtp", 0, 6)] ∧
    (dissect_wtp_common sample_env sample_negative_ack sample_state true).nodes.flatMap
      (fun n => sequence_number_items n.children) =
      [(0, 1, Radius.field_value.bytes [0x38]), (1, 1, Radius.field_value.bytes [0x12])] ∧
    (dissect_wtp_common sample_env sample_negative_ack sample_state true).nodes.flatMap
      (fun n => sequence_number_items n.children) ≠
      [(4, 1, Radius.field_value.bytes [5]), (5, 1, Radius.field_value.bytes [6])] := by
  decide

end Wtp

namespace Radius

/-! ## Theorems: tagged attributes -/

/-- C29: `add_avp_to_tree` on a payload of `avp_length` bytes at `offset`.
For an entry marked tagged: (a) when `avp_length < 3` it adds only the
generated text item "AVP too short for tag" (at `offset`, of length 0),
appends nothing and decodes no value; (b) otherwise, when the first payload
byte `tag` is at most 0x1f, it adds a tag item for that byte at `offset`,
appends the tag text, and the value is decoded from the `avp_length - 1`
bytes at `offset + 1`; (c) otherwise, when the byte exceeds 0x1f, it adds no
tag item and the value is decoded from all `avp_length` bytes at `offset`.
For an entry not marked tagged the value is always decoded from the
`avp_length` bytes at `offset`. -/
theorem add_avp_to_tree_tagged (env : radius_env) (authenticator : List Nat) (tvb : tvbuff_t)
    (dictionary_entry : radius_attr_info_t) (avp_length offset : Nat) :
    (dictionary_entry.tagged = true → avp_length < 3 →
      (add_avp_to_tree env authenticator tvb dictionary_entry avp_length offset).children =
        [text_node offset 0 [⟨"AVP too short for tag", []⟩] true []] ∧
      (add_avp_to_tree env authenticator tvb dictionary_entry avp_length offset).appended = [] ∧
      (add_avp_to_tree env authenticator tvb dictionary_entry avp_length offset).exn = false) ∧
    (∀ tag, dictionary_entry.tagged = true → 3 ≤ avp_length →
      tvb_get_guint8 tvb offset = some tag → tag ≤ 0x1f →
      (add_avp_to_tree env authenticator tvb dictionary_entry avp_length offset).children =
        proto_node.mk dictionary_entry.hf_tag offset 1 (field_value.uint tag) [] false false [] ::
          (add_avp_value env authenticator tvb dictionary_entry (avp_length - 1)
            (offset + 1)).children ∧
      (add_avp_to_tree env authenticator tvb dictionary_entry avp_length offset).appended =
        ⟨" Tag=0x%.2x", [fmt_arg.u tag]⟩ ::
          (add_avp_value env authenticator tvb dictionary_entry (avp_length - 1)
            (offset + 1)).appended ∧
      (add_avp_to_tree env authenticator tvb dictionary_entry avp_length offset).exn =
        (add_avp_value env authenticator tvb dictionary_entry (avp_length - 1) (offset + 1)).exn) ∧
    (∀ tag, dictionary_entry.tagged = true → 3 ≤ avp_length →
      tvb_get_guint8 tvb offset = some tag → 0x1f < tag →
      add_avp_to_tree env authenticator tvb dictionary_entry avp_length offset =
        add_avp_value env authenticator tvb dictionary_entry avp_length offset) ∧
    (dictionary_entry.tagged = false →
      add_avp_to_tree env authenticator tvb dictionary_entry avp_length offset =
        add_avp_value env authenticator tvb dictionary_entry avp_length offset) := by
  refine ⟨?_, ?_, ?_, ?_⟩
  · intro ht hl
    unfold add_avp_to_tree
    rw [if_pos ht, if_pos hl]
    exact ⟨rfl, rfl, rfl⟩
  · intro tag ht hl hb hle
    unfold add_avp_to_tree
    rw [if_pos ht, if_neg (Nat.not_lt.mpr hl), hb]
    dsimp only
    rw [if_pos hle]
    exact ⟨rfl, rfl, rfl⟩
  · intro tag ht hl hb hgt
    unfold add_avp_to_tree
    rw [if_pos ht, if_neg (Nat.not_lt.mpr hl), hb]
    dsimp only
    rw [if_neg (Nat.not_le.mpr hgt)]
  · intro ht
    unfold add_avp_to_tree
    rw [if_neg (by rw [ht]; exact Bool.false_ne_true)]

/-- The three cases of `add_avp_to_tree_tagged` on a tagged entry of type
octets: a payload of two bytes gives the text item only; the payload
`01 41 42` gives the tag item for 1 and the value `41 42` at offset 1; the
payload `41 42 43` gives the value of three bytes at offset 0 and no tag
item. -/
theorem add_avp_to_tree_tagged_witness :
    (add_avp_to_tree plain_env [] [1, 0x41] sample_tagged_entry 2 0).children =
      [text_node 0 0 [⟨"AVP too short for tag", []⟩] true []] ∧
    (add_avp_to_tree plain_env [] [1, 0x41, 0x42] sample_tagged_entry 3 0).children =
      [proto_node.mk (hf_ref.index 2) 0 1 (field_value.uint 1) [] false false [],
       proto_node.mk (hf_ref.index 1) 1 2 (field_value.bytes [0x41, 0x42]) [] false false []] ∧
    add_avp_to_tree plain_env [] [0x41, 0x42, 0x43] sample_tagged_entry 3 0 =
      ⟨[proto_node.mk (hf_ref.index 1) 0 3 (field_value.bytes [0x41, 0x42, 0x43]) [] false false
          []],
        [⟨": ", []⟩, ⟨"%s", [fmt_arg.bytes [0x41, 0x42, 0x43]]⟩], false⟩ :=
  ⟨((add_avp_to_tree_tagged plain_env [] [1, 0x41] sample_tagged_entry 2 0).1 rfl
      (by decide)).1,
   ((add_avp_to_tree_tagged plain_env [] [1, 0x41, 0x42] sample_tagged_entry 3 0).2.1 1 rfl
      (by decide) rfl (by decide)).1,
   (add_avp_to_tree_tagged plain_env [] [0x41, 0x42, 0x43] sample_tagged_entry 3 0).2.2.1 0x41 rfl
      (by decide) rfl (by decide)⟩

end Radius

namespace Radius

/-! ## Theorems: bytes after the declared lengths -/

/-- C22: two packets of 26 captured bytes with the length field 24 and the
single attribute EAP-Message (value 1, 2); they agree on their first 24 bytes
and differ only in the byte at offset 24, which is padding (79 in the one, 1
in the other).  The results differ: with 79 the attribute item reads
" Segment[1]" and the EAP dissector is not called, with 1 it reads
" Last Segment[1]" and the EAP dissector is called on the value, whose items
go under the attribute. -/
theorem padding_changes_result :
    (packet_with_attributes 1 5 [79, 4, 1, 2] [79, 0]).length = 26 ∧
    (packet_with_attributes 1 5 [79, 4, 1, 2] [1, 0]).length = 26 ∧
    tvb_memcpy (packet_with_attributes 1 5 [79, 4, 1, 2] [79, 0]) 0 4 = some [1, 5, 0, 24] ∧
    (packet_with_attributes 1 5 [79, 4, 1, 2] [79, 0]).take 24 =
      (packet_with_attributes 1 5 [79, 4, 1, 2] [1, 0]).take 24 ∧
    (((dissect_radius one_conversation plain_env fresh_session
      (packet_with_attributes 1 5 [79, 4, 1, 2] [79, 0]) (sample_pinfo 1 0)
      true).tree.toList.flatMap proto_node.children).flatMap proto_node.children).map
        proto_node.text =
      [[⟨"AVP: l=%u  t=%s(%u)", [fmt_arg.u 4, fmt_arg.s "Unknown-Attribute", fmt_arg.u 79]⟩,
        ⟨" Segment[%u]", [fmt_arg.u 1]⟩]] ∧
    (((dissect_radius one_conversation plain_env fresh_session
      (packet_with_attributes 1 5 [79, 4, 1, 2] [1, 0]) (sample_pinfo 1 0)
      true).tree.toList.flatMap proto_node.children).flatMap proto_node.children).map
        proto_node.text =
      [[⟨"AVP: l=%u  t=%s(%u)", [fmt_arg.u 4, fmt_arg.s "Unknown-Attribute", fmt_arg.u 79]⟩,
        ⟨" Last Segment[%u]", [fmt_arg.u 1]⟩]] ∧
    (dissect_radius one_conversation plain_env fresh_session
      (packet_with_attributes 1 5 [79, 4, 1, 2] [79, 0]) (sample_pinfo 1 0)
      true).eap_calls = [] ∧
    (dissect_radius one_conversation plain_env fresh_session
      (packet_with_attributes 1 5 [79, 4, 1, 2] [1, 0]) (sample_pinfo 1 0)
      true).eap_calls = [([1, 2], 2)] := by
  decide

/-- C26: an attribute area of 12 bytes at offset 0, followed by four more
captured bytes: a vendor-specific AVP of 8 bytes whose only sub-attribute
declares 6 bytes where the AVP has 2 left, and then an AVP of 4 bytes at
offset 8.  After the first pass of the outer loop `length` is 4 but `offset`
is 12, not 8: `offset + length` is 16 and no longer the 12 of the start.  The
second pass takes its AVP from offset 12, outside the area, and the AVP at
offset 8 gets no item. -/
theorem offset_length_sum_broken :
    (avp_init 0 12).offset + (avp_init 0 12).length = 12 ∧
    (avp_loop plain_env [] [26, 8, 0, 0, 0, 9, 1, 6, 1, 4, 65, 66, 1, 4, 67, 68] 1
      (avp_init 0 12)).2 = avp_exit.no_fuel ∧
    (avp_loop plain_env [] [26, 8, 0, 0, 0, 9, 1, 6, 1, 4, 65, 66, 1, 4, 67, 68] 1
      (avp_init 0 12)).1.offset = 12 ∧
    (avp_loop plain_env [] [26, 8, 0, 0, 0, 9, 1, 6, 1, 4, 65, 66, 1, 4, 67, 68] 1
      (avp_init 0 12)).1.length = 4 ∧
    (dissect_attribute_value_pairs plain_env []
      [26, 8, 0, 0, 0, 9, 1, 6, 1, 4, 65, 66, 1, 4, 67, 68] 0 12).2 = avp_exit.done ∧
    (dissect_attribute_value_pairs plain_env []
      [26, 8, 0, 0, 0, 9, 1, 6, 1, 4, 65, 66, 1, 4, 67, 68] 0 12).1.nodes.map
        (fun n => (n.start, n.length)) = [(0, 8), (12, 4)] ∧
    (dissect_attribute_value_pairs plain_env []
      [26, 8, 0, 0, 0, 9, 1, 6, 1, 4, 65, 66, 1, 4, 67, 68] 0 12).1.offset = 16 := by
  decide

end Radius

namespace Radius

/-! ## Theorems: the attribute loops end -/

/-- The inner loop over vendor sub-attributes does not run out of fuel when
it has more fuel than there are bytes up to `max_offset`: every pass that
continues moves `offset` on by the sub-attribute length, which is at least
2. -/
theorem vsa_loop_fuel (env : radius_env) (auth : List Nat) (tvb : tvbuff_t)
    (vendor : radius_vendor_info_t) (avp_length max_offset : Nat) :
    ∀ (fuel offset : Nat) (acc : List proto_node), max_offset - offset < fuel →
      (vsa_loop env auth tvb vendor avp_length max_offset fuel offset acc).fuel_out = false := by
  intro fuel
  induction fuel with
  | zero => intro offset acc h; omega
  | succ fuel ih =>
    intro offset acc h
    rw [vsa_loop]
    by_cases ho : offset < max_offset
    · rw [if_pos ho]
      cases ht : tvb_get_guint8 tvb offset with
      | none => rfl
      | some t =>
        cases hl : tvb_get_guint8 tvb (offset + 1) with
        | none => rfl
        | some l =>
          dsimp only
          by_cases h2 : l < 2
          · rw [if_pos h2]
          · rw [if_neg h2]
            split
            · rfl
            · exact ih _ _ (by omega)
    · rw [if_neg ho]

/-- A pass of the inner loop that continues: the next pass starts at
`offset + avp_vsa_len`, at least 2 bytes further on. -/
theorem vsa_loop_advance (env : radius_env) (auth : List Nat) (tvb : tvbuff_t)
    (vendor : radius_vendor_info_t) (avp_length max_offset fuel offset t l : Nat)
    (acc : List proto_node) (ho : offset < max_offset)
    (ht : tvb_get_guint8 tvb offset = some t) (hl : tvb_get_guint8 tvb (offset + 1) = some l)
    (h2 : 2 ≤ l)
    (hexn : (add_avp_to_tree env auth tvb
      ((g_hash_table_lookup_direct vendor.attrs_by_id t).getD no_dictionary_entry) (l - 2)
      (offset + 2)).exn = false) :
    (∃ item, vsa_loop env auth tvb vendor avp_length max_offset (fuel + 1) offset acc =
        vsa_loop env auth tvb vendor avp_length max_offset fuel (offset + l) (acc ++ [item])) ∧
      offset + 2 ≤ offset + l := by
  constructor
  · rw [vsa_loop, if_pos ho, ht, hl]
    dsimp only
    rw [if_neg (by omega), hexn]
    have e : offset + 2 + (l - 2) = offset + l := by omega
    rw [e]
    exact ⟨_, rfl⟩
  · omega

/-- The vendor-specific branch never gets stuck, and when it continues the
remaining length is the one it was given. -/
theorem avp_vendor_specific_step (env : radius_env) (auth : List Nat) (tvb : tvbuff_t)
    (s : avp_state) (al L : Nat) (head : fmt_text) :
    (∀ x, avp_vendor_specific env auth tvb s al L head ≠ avp_step.stuck x) ∧
    (∀ x, avp_vendor_specific env auth tvb s al L head = avp_step.next x → x.length = L) := by
  have hf := vsa_loop_fuel env auth tvb
  unfold avp_vendor_specific
  dsimp only
  by_cases h4 : al - 2 < 4
  · rw [if_pos h4]
    exact ⟨fun x h => (by cases h), fun x h => (by cases h; rfl)⟩
  · rw [if_neg h4]
    cases hv : tvb_get_ntohl tvb (s.offset + 2) with
    | none => exact ⟨fun x h => (by cases h), fun x h => (by cases h)⟩
    | some vendor_id =>
      dsimp only
      rw [hf _ _ _ _ _ _ (by omega)]
      simp only [Bool.false_eq_true, if_false]
      split
      · exact ⟨fun x h => (by cases h), fun x h => (by cases h)⟩
      · split
        · exact ⟨fun x h => (by cases h), fun x h => (by cases h)⟩
        · exact ⟨fun x h => (by cases h), fun x h => (by cases h; rfl)⟩

/-- The EAP-Message branch never gets stuck. -/
theorem avp_eap_message_not_stuck (env : radius_env) (tvb : tvbuff_t) (s : avp_state)
    (entry : radius_attr_info_t) (al L : Nat) (head : fmt_text) :
    ∀ x, avp_eap_message env tvb s entry al L head ≠ avp_step.stuck x := by
  unfold avp_eap_message
  dsimp only
  repeat' split
  all_goals
    intro x hx
    cases hx

/-- A pass through the body of the outer loop never gets stuck, and a pass
that continues has lowered `length` by the length byte of the AVP, which is
at least 2 and at most `length`. -/
theorem avp_body_step (env : radius_env) (auth : List Nat) (tvb : tvbuff_t) (s : avp_state) :
    (∀ x, avp_body env auth tvb s ≠ avp_step.stuck x) ∧
    (∀ x, avp_body env auth tvb s = avp_step.next x →
      ∃ avp_length, tvb_get_guint8 tvb (s.offset + 1) = some avp_length ∧ 2 ≤ avp_length ∧
        avp_length ≤ s.length ∧ x.length = s.length - avp_length) := by
  unfold avp_body
  by_cases h2 : s.length < 2
  · rw [if_pos h2]
    exact ⟨fun x h => (by cases h), fun x h => (by cases h)⟩
  · rw [if_neg h2]
    cases ht : tvb_get_guint8 tvb s.offset with
    | none => exact ⟨fun x h => (by cases h), fun x h => (by cases h)⟩
    | some t =>
      cases hl : tvb_get_guint8 tvb (s.offset + 1) with
      | none => exact ⟨fun x h => (by cases h), fun x h => (by cases h)⟩
      | some l =>
        dsimp only
        by_cases h3 : l < 2
        · rw [if_pos h3]
          exact ⟨fun x h => (by cases h), fun x h => (by cases h)⟩
        · rw [if_neg h3]
          by_cases h4 : s.length < l
          · rw [if_pos h4]
            exact ⟨fun x h => (by cases h), fun x h => (by cases h)⟩
          · rw [if_neg h4]
            by_cases hv : t = RADIUS_VENDOR_SPECIFIC_CODE
            · rw [if_pos hv]
              have hs := avp_vendor_specific_step env auth tvb s l (s.length - l)
                ⟨"AVP: l=%u  t=%s(%u)",
                  [fmt_arg.u l,
                   fmt_arg.s ((g_hash_table_lookup_direct env.dict.attrs_by_id t).getD
                     no_dictionary_entry).name, fmt_arg.u t]⟩
              exact ⟨hs.1, fun x h => ⟨l, rfl, by omega, by omega, hs.2 x h⟩⟩
            · rw [if_neg hv]
              by_cases he : t = RADIUS_EAP_MESSAGE_CODE
              · rw [if_pos he]
                refine ⟨avp_eap_message_not_stuck env tvb s _ l (s.length - l) _, fun x h => ?_⟩
                exact ⟨l, rfl, by omega, by omega,
                  (avp_eap_message_next env tvb s _ l (s.length - l) _ x h).2.1⟩
              · rw [if_neg he]
                split
                · exact ⟨fun x h => (by cases h), fun x h => (by cases h)⟩
                · exact ⟨fun x h => (by cases h),
                    fun x h => (by cases h; exact ⟨l, rfl, by omega, by omega, rfl⟩)⟩

/-- The outer loop does not run out of fuel when twice the fuel exceeds
`length`, and it enters its body at most `(length + 1) / 2` times. -/
theorem avp_loop_ends (env : radius_env) (auth : List Nat) (tvb : tvbuff_t) :
    ∀ (fuel : Nat) (s : avp_state), s.length < 2 * fuel →
      (avp_loop env auth tvb fuel s).2 ≠ avp_exit.no_fuel ∧
      avp_loop_passes env auth tvb fuel s ≤ (s.length + 1) / 2 := by
  intro fuel
  induction fuel with
  | zero => intro s h; omega
  | succ fuel ih =>
    intro s h
    rw [avp_loop, avp_loop_passes]
    by_cases hlen : s.length > 0
    · rw [if_pos hlen, if_pos hlen]
      have hb := avp_body_step env auth tvb s
      cases hs : avp_body env auth tvb s with
      | next s1 =>
        obtain ⟨l, _, hl2, hle, hx⟩ := hb.2 s1 hs
        have hi := ih s1 (by omega)
        dsimp only
        exact ⟨hi.1, by omega⟩
      | ret s1 => exact ⟨by simp, by dsimp only; omega⟩
      | throw s1 => exact ⟨by simp, by dsimp only; omega⟩
      | stuck s1 => exact absurd hs (hb.1 s1)
    · rw [if_neg hlen, if_neg hlen]
      exact ⟨by simp, Nat.zero_le _⟩

/-- C21, as stated: the outer loop does not always run at most `length / 2`
times.  With a declared length of 1 the body is entered once (it returns with
"Not enough room in packet for AVP header"), and 1 / 2 is 0; with a declared
length of 3 and an AVP of 2 bytes it is entered twice, and 3 / 2 is 1. -/
theorem avp_passes_counterexample :
    (dissect_attribute_value_pairs plain_env [] [] 0 1).2 = avp_exit.returned ∧
    dissect_attribute_value_pairs_passes plain_env [] [] 0 1 = 1 ∧
    ¬ (dissect_attribute_value_pairs_passes plain_env [] [] 0 1 ≤ 1 / 2) ∧
    (dissect_attribute_value_pairs plain_env [] [1, 2, 0] 0 3).2 = avp_exit.returned ∧
    dissect_attribute_value_pairs_passes plain_env [] [1, 2, 0] 0 3 = 2 ∧
    ¬ (dissect_attribute_value_pairs_passes plain_env [] [1, 2, 0] 0 3 ≤ 3 / 2) := by
  decide

/-- C21, amended: for every buffer, start offset and declared length,
`dissect_attribute_value_pairs` ends (by the end of the loop, a `return` or
an exception, never by lack of fuel), and any fuel from `length / 2 + 1` on
gives the same run; the body of the outer loop is entered at most
`(length + 1) / 2` times; a pass that continues has lowered `length` by the
length byte of the AVP, which is at least 2 and at most `length`; no pass
gets stuck in the vendor-specific inner loop, which with more fuel than there
are bytes up to `max_offset` never runs out of it. -/
theorem avp_parsing_terminates (env : radius_env) (authenticator : List Nat) (tvb : tvbuff_t)
    (offset length : Nat) :
    (dissect_attribute_value_pairs env authenticator tvb offset length).2 ≠ avp_exit.no_fuel ∧
    (∀ fuel, length / 2 + 1 ≤ fuel →
      avp_loop env authenticator tvb fuel (avp_init offset length) =
        dissect_attribute_value_pairs env authenticator tvb offset length) ∧
    dissect_attribute_value_pairs_passes env authenticator tvb offset length ≤ (length + 1) / 2 ∧
    (∀ s x, avp_body env authenticator tvb s = avp_step.next x →
      ∃ avp_length, tvb_get_guint8 tvb (s.offset + 1) = some avp_length ∧ 2 ≤ avp_length ∧
        avp_length ≤ s.length ∧ x.length = s.length - avp_length) ∧
    (∀ s x, avp_body env authenticator tvb s ≠ avp_step.stuck x) ∧
    (∀ vendor avp_length max_offset fuel o acc, max_offset - o < fuel →
      (vsa_loop env authenticator tvb vendor avp_length max_offset fuel o acc).fuel_out =
        false) := by
  have hinit : (avp_init offset length).length = length := rfl
  have h1 := avp_loop_ends env authenticator tvb (length + 1) (avp_init offset length)
    (by rw [hinit]; omega)
  have h0 := avp_loop_ends env authenticator tvb (length / 2 + 1) (avp_init offset length)
    (by rw [hinit]; omega)
  rw [hinit] at h1
  refine ⟨h1.1, ?_, h1.2, fun s x h => (avp_body_step env authenticator tvb s).2 x h,
    fun s x => (avp_body_step env authenticator tvb s).1 x,
    fun vendor avp_length max_offset fuel o acc h =>
      vsa_loop_fuel env authenticator tvb vendor avp_length max_offset fuel o acc h⟩
  intro fuel hfuel
  have hm := fun m (hm : length / 2 + 1 ≤ m) =>
    avp_loop_fuel_mono env authenticator tvb (length / 2 + 1) m (avp_init offset length) _ _
      rfl h0.1 hm
  unfold dissect_attribute_value_pairs
  rw [hm fuel hfuel, hm (length + 1) (by omega)]

end Radius

namespace Radius

/-! ## Lemmas: buffers that agree on a prefix -/

/-- A read of bytes that end within the first `m` bytes sees only these. -/
theorem tvb_memcpy_take (tvb : tvbuff_t) (m offset len : Nat) (h : offset + len ≤ m) :
    tvb_memcpy (tvb.take m) offset len = tvb_memcpy tvb offset len := by
  unfold tvb_memcpy
  rw [List.length_take]
  by_cases hl : offset + len ≤ tvb.length
  · rw [if_pos (by omega), if_pos hl, List.drop_take, List.take_take]
    congr 2
    omega
  · rw [if_neg (by omega), if_neg hl]

/-- A read of a byte within the first `m` bytes sees only these. -/
theorem tvb_get_guint8_take (tvb : tvbuff_t) (m offset : Nat) (h : offset < m) :
    tvb_get_guint8 (tvb.take m) offset = tvb_get_guint8 tvb offset := by
  unfold tvb_get_guint8
  rw [List.get?_eq_getElem?, List.get?_eq_getElem?, List.getElem?_take, if_pos h]

/-- Two buffers with the same first `m` bytes give the same bytes within
them. -/
theorem tvb_memcpy_agree (tvb1 tvb2 : tvbuff_t) (m offset len : Nat)
    (hag : tvb1.take m = tvb2.take m) (h : offset + len ≤ m) :
    tvb_memcpy tvb1 offset len = tvb_memcpy tvb2 offset len := by
  rw [← tvb_memcpy_take tvb1 m offset len h, ← tvb_memcpy_take tvb2 m offset len h, hag]

theorem tvb_get_guint8_agree (tvb1 tvb2 : tvbuff_t) (m offset : Nat)
    (hag : tvb1.take m = tvb2.take m) (h : offset < m) :
    tvb_get_guint8 tvb1 offset = tvb_get_guint8 tvb2 offset := by
  rw [← tvb_get_guint8_take tvb1 m offset h, ← tvb_get_guint8_take tvb2 m offset h, hag]

/-! ## Lemmas: attributes decoded from their own bytes -/

/-- The type function of `no_dictionary_entry` decodes from the value
bytes. -/
theorem radius_octets_local (hf : hf_ref) (tvb1 tvb2 : tvbuff_t) (offset len : Nat)
    (h : tvb_memcpy tvb1 offset len = tvb_memcpy tvb2 offset len) :
    radius_octets hf tvb1 offset len = radius_octets hf tvb2 offset len := by
  unfold radius_octets
  rw [h]

/-- The dictionary entry used for an attribute type, found or the default,
has a local type function when the dictionary has. -/
theorem dictionary_entry_local (env : radius_env) (hlocal : dictionary_local env) (t : Nat) :
    ∀ type, ((g_hash_table_lookup_direct env.dict.attrs_by_id t).getD
      no_dictionary_entry).type = some type → value_local type := by
  intro type ht
  cases hf : g_hash_table_lookup_direct env.dict.attrs_by_id t with
  | none =>
    rw [hf] at ht
    simp only [Option.getD_none, no_dictionary_entry, Option.some.injEq] at ht
    subst ht
    intro secret auth tvb1 tvb2 offset len h
    exact radius_octets_local _ tvb1 tvb2 offset len h
  | some entry =>
    rw [hf] at ht
    exact hlocal t entry type hf ht

/-- The value part of `add_avp_to_tree` is the same on two buffers with the
same first `m` bytes when the value ends within them. -/
theorem add_avp_value_agree (env : radius_env) (auth : List Nat) (tvb1 tvb2 : tvbuff_t)
    (entry : radius_attr_info_t) (m len offset : Nat)
    (hentry : ∀ type, entry.type = some type → value_local type)
    (hag : tvb1.take m = tvb2.take m) (h : offset + len ≤ m) :
    add_avp_value env auth tvb1 entry len offset = add_avp_value env auth tvb2 entry len offset := by
  have hm := tvb_memcpy_agree tvb1 tvb2 m offset len hag h
  unfold add_avp_value
  rw [hm]
  cases hd : entry.dissector with
  | some d => rfl
  | none =>
    cases ht : entry.type with
    | none => rfl
    | some type =>
      dsimp only
      rw [hentry type ht env.shared_secret auth tvb1 tvb2 offset len hm]

/-- The function `add_avp_to_tree` gives the same on two buffers with the
same first `m` bytes when the value ends within them. -/
theorem add_avp_to_tree_agree (env : radius_env) (auth : List Nat) (tvb1 tvb2 : tvbuff_t)
    (entry : radius_attr_info_t) (m len offset : Nat)
    (hentry : ∀ type, entry.type = some type → value_local type)
    (hag : tvb1.take m = tvb2.take m) (h : offset + len ≤ m) :
    add_avp_to_tree env auth tvb1 entry len offset =
      add_avp_to_tree env auth tvb2 entry len offset := by
  unfold add_avp_to_tree
  by_cases ht : entry.tagged = true
  · rw [if_pos ht, if_pos ht]
    by_cases h3 : len < 3
    · rw [if_pos h3, if_pos h3]
    · rw [if_neg h3, if_neg h3, tvb_get_guint8_agree tvb1 tvb2 m offset hag (by omega),
        add_avp_value_agree env auth tvb1 tvb2 entry m (len - 1) (offset + 1) hentry hag
          (by omega),
        add_avp_value_agree env auth tvb1 tvb2 entry m len offset hentry hag h]
  · rw [if_neg ht, if_neg ht]
    exact add_avp_value_agree env auth tvb1 tvb2 entry m len offset hentry hag h

/-- A pass through the loop body on an attribute that is neither
vendor-specific nor an EAP-Message is the same on two buffers with the same
first `m` bytes when the remaining length ends within them. -/
theorem avp_body_agree (env : radius_env) (hlocal : dictionary_local env) (auth : List Nat)
    (tvb1 tvb2 : tvbuff_t) (m : Nat) (s : avp_state)
    (hag : tvb1.take m = tvb2.take m) (h : s.offset + s.length ≤ m)
    (hv : tvb_get_guint8 tvb1 s.offset ≠ some RADIUS_VENDOR_SPECIFIC_CODE)
    (he : tvb_get_guint8 tvb1 s.offset ≠ some RADIUS_EAP_MESSAGE_CODE) :
    avp_body env auth tvb1 s = avp_body env auth tvb2 s := by
  unfold avp_body
  by_cases h2 : s.length < 2
  · rw [if_pos h2, if_pos h2]
  · rw [if_neg h2, if_neg h2, ← tvb_get_guint8_agree tvb1 tvb2 m s.offset hag (by omega),
      ← tvb_get_guint8_agree tvb1 tvb2 m (s.offset + 1) hag (by omega)]
    cases ht : tvb_get_guint8 tvb1 s.offset with
    | none => rfl
    | some t =>
      cases hl : tvb_get_guint8 tvb1 (s.offset + 1) with
      | none => rfl
      | some l =>
        dsimp only
        by_cases h3 : l < 2
        · rw [if_pos h3, if_pos h3]
        · rw [if_neg h3, if_neg h3]
          by_cases h4 : s.length < l
          · rw [if_pos h4, if_pos h4]
          · have hnv : t ≠ RADIUS_VENDOR_SPECIFIC_CODE := fun hx => hv (by rw [ht, hx])
            have hne : t ≠ RADIUS_EAP_MESSAGE_CODE := fun hx => he (by rw [ht, hx])
            rw [if_neg h4, if_neg h4, if_neg hnv, if_neg hnv, if_neg hne, if_neg hne,
              add_avp_to_tree_agree env auth tvb1 tvb2 _ m (l - 2) (s.offset + 2)
                (dictionary_entry_local env hlocal t) hag (by omega)]

/-- The attribute loop over `k` attributes that are neither vendor-specific
nor EAP-Messages is the same on two buffers with the same first `m` bytes
when the attributes end within them. -/
theorem avp_loop_agree (env : radius_env) (hlocal : dictionary_local env) (auth : List Nat)
    (tvb1 tvb2 : tvbuff_t) (m : Nat) (hag : tvb1.take m = tvb2.take m) :
    ∀ (k n : Nat) (s : avp_state),
      simple_avps_end tvb1 k s.offset = some (s.offset + s.length) →
      s.offset + s.length ≤ m →
      avp_loop env auth tvb1 n s = avp_loop env auth tvb2 n s := by
  intro k
  induction k with
  | zero =>
    intro n s hwf _
    simp only [simple_avps_end, Option.some.injEq] at hwf
    have h0 : ¬ s.length > 0 := by omega
    cases n with
    | zero => rfl
    | succ n => rw [avp_loop, avp_loop, if_neg h0, if_neg h0]
  | succ k ih =>
    intro n s hwf hm
    rw [simple_avps_end] at hwf
    split at hwf
    · rename_i t l ht hl
      split_ifs at hwf with hc
      cases n with
      | zero => rfl
      | succ n =>
        rw [avp_loop, avp_loop]
        by_cases hlen : s.length > 0
        · rw [if_pos hlen, if_pos hlen,
            ← avp_body_agree env hlocal auth tvb1 tvb2 m s hag hm
              (by rw [ht]; intro hx; exact hc.1 (Option.some.inj hx))
              (by rw [ht]; intro hx; exact hc.2.1 (Option.some.inj hx))]
          cases hb : avp_body env auth tvb1 s with
          | next s1 =>
            dsimp only
            obtain ⟨a, b, c, _⟩ := avp_body_plain env auth tvb1 s s1 t l ht hl hc.1 hc.2.2 hb
            apply ih n s1
            · rw [a, b, hwf]
              congr 1
              omega
            · omega
          | ret s1 => rfl
          | throw s1 => rfl
          | stuck s1 => rfl
        · rw [if_neg hlen, if_neg hlen]
    · cases hwf

/-- Attributes that are neither vendor-specific nor EAP-Messages are
attributes that are not vendor-specific. -/
theorem plain_of_simple (tvb : tvbuff_t) :
    ∀ (k offset e : Nat), simple_avps_end tvb k offset = some e →
      plain_avps_end tvb k offset = some e := by
  intro k
  induction k with
  | zero =>
    intro offset e h
    exact h
  | succ k ih =>
    intro offset e h
    rw [simple_avps_end] at h
    rw [plain_avps_end]
    split at h
    · rename_i t l ht hl
      split_ifs at h with hc
      rw [if_pos ⟨hc.1, hc.2.2⟩]
      exact ih _ _ h
    · cases h

/-- The run over `k` attributes that are neither vendor-specific nor
EAP-Messages is the same on every buffer that holds the same bytes up to
their end: what follows them in the buffer does not matter. -/
theorem dissect_attribute_value_pairs_agree (env : radius_env) (hlocal : dictionary_local env)
    (auth : List Nat) (tvb1 tvb2 : tvbuff_t) (offset len k : Nat)
    (hwf : simple_avps_end tvb1 k offset = some (offset + len))
    (hag : tvb1.take (offset + len) = tvb2.take (offset + len)) :
    dissect_attribute_value_pairs env auth tvb1 offset len =
      dissect_attribute_value_pairs env auth tvb2 offset len := by
  unfold dissect_attribute_value_pairs
  exact avp_loop_agree env hlocal auth tvb1 tvb2 (offset + len) hag k (len + 1)
    (avp_init offset len) hwf (Nat.le_refl _)

/-- The dictionary of `plain_env` is empty, so all its type functions are
local. -/
theorem plain_env_local : dictionary_local plain_env := by
  intro t entry type h
  cases h

/-- The one type function of `tagged_env` is `radius_octets`. -/
theorem tagged_env_local : dictionary_local tagged_env := by
  intro t entry type h ht
  simp only [tagged_env, g_hash_table_lookup_direct] at h
  split_ifs at h
  · cases h
    simp only [sample_tagged_entry, Option.some.injEq] at ht
    subst ht
    intro secret auth tvb1 tvb2 offset len hm
    exact radius_octets_local _ tvb1 tvb2 offset len hm

/-! ## Theorems: malformed attribute lengths, against the prefix alone -/

/-- C10, as stated, fails: the attribute area `4f 04 01 02 4f c8` starts
with one well-formed attribute that is not vendor-specific, an EAP-Message,
followed by an attribute whose length byte, 200, exceeds the 2 bytes left.
Dissected alone, the prefix `4f 04 01 02` gives an item that reads
" Last Segment[1]", and the EAP dissector is called on its value; in the
whole area the item of the same attribute reads " Segment[1]" and the EAP
dissector is not called, because the byte after the attribute is looked at
to tell whether the EAP-Message goes on.  The error item and the halt are as
claimed. -/
theorem malformed_avp_length_eap_prefix :
    plain_avps_end [79, 4, 1, 2, 79, 200] 1 0 = some 4 ∧
    (dissect_attribute_value_pairs plain_env [] [79, 4, 1, 2] 0 4).2 = avp_exit.done ∧
    (dissect_attribute_value_pairs plain_env [] [79, 4, 1, 2] 0 4).1.nodes.map proto_node.text =
      [[⟨"AVP: l=%u  t=%s(%u)", [fmt_arg.u 4, fmt_arg.s "Unknown-Attribute", fmt_arg.u 79]⟩,
        ⟨" Last Segment[%u]", [fmt_arg.u 1]⟩]] ∧
    (dissect_attribute_value_pairs plain_env [] [79, 4, 1, 2] 0 4).1.eap_calls = [([1, 2], 2)] ∧
    (dissect_attribute_value_pairs plain_env [] [79, 4, 1, 2, 79, 200] 0 6).2 =
      avp_exit.returned ∧
    (dissect_attribute_value_pairs plain_env [] [79, 4, 1, 2, 79, 200] 0 6).1.nodes.map
        proto_node.text =
      [[⟨"AVP: l=%u  t=%s(%u)", [fmt_arg.u 4, fmt_arg.s "Unknown-Attribute", fmt_arg.u 79]⟩,
        ⟨" Segment[%u]", [fmt_arg.u 1]⟩],
       [⟨"Not enough room in packet for AVP", []⟩]] ∧
    (dissect_attribute_value_pairs plain_env [] [79, 4, 1, 2, 79, 200] 0 6).1.eap_calls = [] := by
  decide

/-- C10 (amended): an attribute area in the buffer `tvb` that starts with
`k` attributes that are neither vendor-specific nor EAP-Messages, each with a
length byte of at least 2, `len` bytes in all, and that goes on for `d > 0`
more bytes; the type functions of the dictionary decode a value from its own
bytes.  Let the prefix alone, in any buffer `prefix_tvb` that holds the same
bytes up to the end of the prefix (the buffer cut there, for one), be
dissected to its end, with the final state `sA`.  Then on the whole area the
function emits exactly the `k` items of `sA`, then one zero-length generated
item at the offset of the next attribute, and returns: "Not enough room in
packet for AVP header" when `d = 1`, "AVP too short" when the length byte is
below 2, "Not enough room in packet for AVP" when the length byte exceeds
`d`. -/
theorem malformed_avp_length (env : radius_env) (auth : List Nat) (tvb prefix_tvb : tvbuff_t)
    (offset len d k : Nat) (sA : avp_state)
    (hlocal : dictionary_local env)
    (hwf : simple_avps_end tvb k offset = some (offset + len))
    (hag : prefix_tvb.take (offset + len) = tvb.take (offset + len))
    (hA : dissect_attribute_value_pairs env auth prefix_tvb offset len = (sA, avp_exit.done))
    (hd : 0 < d) :
    sA.nodes.length = k ∧
    (d = 1 →
      dissect_attribute_value_pairs env auth tvb offset (len + d) =
        ({ sA with
            length := d,
            nodes := sA.nodes ++ [text_node (offset + len) 0
              [⟨"Not enough room in packet for AVP header", []⟩] true []] },
          avp_exit.returned)) ∧
    (∀ t l, 2 ≤ d → tvb_get_guint8 tvb (offset + len) = some t →
      tvb_get_guint8 tvb (offset + len + 1) = some l → l < 2 →
      dissect_attribute_value_pairs env auth tvb offset (len + d) =
        ({ sA with
            length := d,
            nodes := sA.nodes ++ [text_node (offset + len) 0
              [⟨"AVP too short: length %u < 2", [fmt_arg.u l]⟩] true []] },
          avp_exit.returned)) ∧
    (∀ t l, 2 ≤ d → tvb_get_guint8 tvb (offset + len) = some t →
      tvb_get_guint8 tvb (offset + len + 1) = some l → d < l →
      dissect_attribute_value_pairs env auth tvb offset (len + d) =
        ({ sA with
            length := d,
            nodes := sA.nodes ++ [text_node (offset + len) 0
              [⟨"Not enough room in packet for AVP", []⟩] true []] },
          avp_exit.returned)) := by
  have hA1 : dissect_attribute_value_pairs env auth tvb offset len = (sA, avp_exit.done) := by
    rw [dissect_attribute_value_pairs_agree env hlocal auth tvb prefix_tvb offset len k hwf
      hag.symm]
    exact hA
  exact avp_length_error_same_buffer env auth tvb offset len d k sA
    (plain_of_simple tvb k offset _ hwf) hA1 hd

/-- The inputs of `malformed_avp_length` exist: in `tagged_attributes` a
tagged attribute of six bytes is followed by one whose length byte is 9, with
three bytes left; the prefix alone, a buffer of its six bytes, yields one
item (with the tag item and the value item under it), the whole area that
item and the error item at offset 6. -/
theorem malformed_avp_length_witness :
    simple_avps_end tagged_attributes 1 0 = some (0 + 6) ∧
    (dissect_attribute_value_pairs tagged_env [] [64, 6, 1, 0x41, 0x42, 0x43] 0 6).2 =
      avp_exit.done ∧
    (dissect_attribute_value_pairs tagged_env [] [64, 6, 1, 0x41, 0x42, 0x43] 0 6).1.nodes.map
        (fun n => (n.start, n.length, n.children.map (fun c => (c.start, c.length)))) =
      [(0, 6, [(2, 1), (3, 3)])] ∧
    dissect_attribute_value_pairs tagged_env [] tagged_attributes 0 (6 + 3) =
      ({ (dissect_attribute_value_pairs tagged_env [] [64, 6, 1, 0x41, 0x42, 0x43] 0 6).1 with
          length := 3,
          nodes :=
            (dissect_attribute_value_pairs tagged_env [] [64, 6, 1, 0x41, 0x42, 0x43] 0 6).1.nodes ++
              [text_node (0 + 6) 0 [⟨"Not enough room in packet for AVP", []⟩] true []] },
        avp_exit.returned) :=
  ⟨by decide, by decide, by decide,
   (malformed_avp_length tagged_env [] tagged_attributes [64, 6, 1, 0x41, 0x42, 0x43] 0 6 3 1
      (dissect_attribute_value_pairs tagged_env [] [64, 6, 1, 0x41, 0x42, 0x43] 0 6).1
      tagged_env_local (by decide) (by decide) (Prod.ext rfl (by decide)) (by decide)).2.2.2 2 9
      (by decide) (by decide) (by decide) (by decide)⟩

end Radius

namespace Radius

/-! ## Theorems: request times that do not fit an `int` -/

/-- Keys with equal ident, conversation and code whose request times are
2147483648 s, 3000000000 s or 4294967301 s apart compare equal, in either
order, and so do a request and its response that far apart; at 2147483647 s
and at 10 s they do not. -/
theorem radius_call_equal_beyond_int :
    radius_call_equal ⟨1, 5, ⟨0⟩, ⟨0, 0⟩⟩ ⟨1, 5, ⟨0⟩, ⟨2147483648, 0⟩⟩ = 1 ∧
    radius_call_equal ⟨1, 5, ⟨0⟩, ⟨0, 0⟩⟩ ⟨1, 5, ⟨0⟩, ⟨3000000000, 0⟩⟩ = 1 ∧
    radius_call_equal ⟨1, 5, ⟨0⟩, ⟨0, 0⟩⟩ ⟨1, 5, ⟨0⟩, ⟨4294967301, 0⟩⟩ = 1 ∧
    radius_call_equal ⟨1, 5, ⟨0⟩, ⟨3000000000, 0⟩⟩ ⟨1, 5, ⟨0⟩, ⟨0, 0⟩⟩ = 1 ∧
    radius_call_equal ⟨1, 5, ⟨0⟩, ⟨0, 0⟩⟩ ⟨2, 5, ⟨0⟩, ⟨3000000000, 0⟩⟩ = 1 ∧
    radius_call_equal ⟨1, 5, ⟨0⟩, ⟨0, 0⟩⟩ ⟨1, 5, ⟨0⟩, ⟨2147483647, 0⟩⟩ = 0 ∧
    radius_call_equal ⟨1, 5, ⟨0⟩, ⟨0, 0⟩⟩ ⟨1, 5, ⟨0⟩, ⟨10, 0⟩⟩ = 0 := by
  decide

/-- The table holds the record of an Access-Request with identifier 5 of
frame 1 at time 0.  The same request 3000000000 s later is matched with that
record: it is flagged a duplicate of frame 1 and no record is added.  An
Access-Accept 3000000000 s later is resolved to frame 1. -/
theorem dissect_radius_beyond_int :
    (dissect_radius one_conversation plain_env session_after_request (sample_packet 1 5)
      (sample_pinfo 2 3000000000) true).session.rad_info.is_duplicate = true ∧
    (dissect_radius one_conversation plain_env session_after_request (sample_packet 1 5)
      (sample_pinfo 2 3000000000) true).session.rad_info.req_num = 1 ∧
    (dissect_radius one_conversation plain_env session_after_request (sample_packet 1 5)
      (sample_pinfo 2 3000000000) true).session.radius_calls.length = 1 ∧
    (dissect_radius one_conversation plain_env session_after_request (sample_packet 2 5)
      (sample_pinfo 2 3000000000) true).session.rad_info.request_available = true ∧
    (dissect_radius one_conversation plain_env session_after_request (sample_packet 2 5)
      (sample_pinfo 2 3000000000) true).session.rad_info.req_num = 1 := by
  decide

end Radius

namespace Wtp

/-! ## Theorems: reads beyond the reported length -/

/-- A buffer of five captured bytes with the reported length 2, as
`tvb_new_subset` makes for a sub-PDU of size 2 in a list of concatenated PDUs
that is followed by more bytes: the read of byte 3 of the Invoke header is
beyond the reported length and throws, nothing is handed to reassembly or to
the WSP dissector.  With the reported length 5 the payload goes to the WSP
dissector.  The same holds for the sub-PDU inside its list. -/
theorem read_beyond_reported_length :
    tvb_get_guint8 ⟨[0x0a, 0, 1, 2, 0xaa], 2⟩ 2 = some 1 ∧
    tvb_get_guint8 ⟨[0x0a, 0, 1, 2, 0xaa], 2⟩ 3 = none ∧
    tvb_length_remaining ⟨[0x0a, 0, 1, 2, 0xaa], 2⟩ 3 = -1 ∧
    (dissect_wtp_common sample_env ⟨[0x0a, 0, 1, 2, 0xaa], 2⟩ sample_state true).exit =
      wtp_exit.thrown ∧
    (dissect_wtp_common sample_env ⟨[0x0a, 0, 1, 2, 0xaa], 2⟩ sample_state true).state.wsp_calls =
      [] ∧
    (dissect_wtp_common sample_env ⟨[0x0a, 0, 1, 2, 0xaa], 5⟩ sample_state true).exit =
      wtp_exit.returned ∧
    (dissect_wtp_common sample_env ⟨[0x0a, 0, 1, 2, 0xaa], 5⟩ sample_state true).state.wsp_calls =
      [⟨⟨[0xaa], 1⟩, false, true⟩] ∧
    tvb_new_subset ⟨[0, 2, 0x0a, 0, 1, 2, 0xaa], 7⟩ 2 2 = some ⟨[0x0a, 0, 1, 2, 0xaa], 2⟩ ∧
    (dissect_wtp_common sample_env ⟨[0, 2, 0x0a, 0, 1, 2, 0xaa], 7⟩ sample_state true).exit =
      wtp_exit.thrown ∧
    (dissect_wtp_common sample_env ⟨[0, 2, 0x0a, 0, 1, 2, 0xaa], 7⟩
      sample_state true).state.wsp_calls = [] := by
  decide

end Wtp
